import Mathlib

/-!
Cooperative scheduler core (`os_core.c`) and its two client modules, the debounced
input (`lib_di.c`) and the blinking output (`lib_do.c`).

Shallow embedding of the scheduler, its task registry and its millisecond clock, and of
the two client state machines.

* `OS_timestamp_t` is `uint16`: timestamps are natural numbers and every arithmetic
  result that the C code stores in an `OS_timestamp_t` is reduced modulo `65536`.
* Task records live in caller-owned memory; the registry links them through
  `p_next_task`.  Memory is a map from addresses to records, pointers are
  `Option Nat` (`none` is `NULL`).
* Function pointers are identifiers.  What the pointed-to code does to the scheduler
  is given by a `Callbacks` interpretation; each call is also recorded as an `Event`.
* Loops over the linked list take a fuel argument; `none` means that the C execution
  has no result (the loop did not finish within the fuel, or a `NULL` pointer was
  dereferenced).
* The file-scope variables of each client module form a record; a function of the
  module maps the record to the new record and the list of `PinEvent`s it causes
  (calls into the pin component and calls of the application callbacks, which are
  taken not to call back into the module).  The value read from the input pin is an
  argument of the dispatch.
-/

namespace OSCore

/-! ## Timestamps -/

/-- Conversion of a C `int` result to `OS_timestamp_t` (`uint16`). -/
def to_timestamp (i : Int) : Nat := (i % 65536).toNat

/-- The expression `(OS_timestamp_t)(a - b)`: the operands are promoted to `int`,
subtracted, and the difference is truncated to 16 bits. -/
def ts_sub (a b : Nat) : Nat := to_timestamp ((a : Int) - (b : Int))

/-! ## Data model -/

/-- The record `OS_task_t` of `os_core.h`.  `callback` is called without a `NULL` test
by the dispatcher, so it is a function identifier; `enter_sleep` and `exit_sleep` are
tested against `NULL` before use. -/
structure OS_task_t where
  callback : Nat
  enter_sleep : Option Nat
  exit_sleep : Option Nat
  p_next_task : Option Nat
  period : Nat
  prev_timestamp : Nat
deriving DecidableEq, Repr

/-- The file-scope variables of `os_core.c`, together with the memory that holds the
task records. -/
structure OS where
  mem : Nat → OS_task_t
  p_first_task_config : Option Nat
  p_last_task_config : Option Nat
  is_os_active : Bool
  is_sleep_active : Bool
  isr_counter : Nat
  ms_counter : Nat
  mutex : Bool

/-- Store record `t` at address `a`. -/
def OS.store (s : OS) (a : Nat) (t : OS_task_t) : OS :=
  { s with mem := fun x => if x = a then t else s.mem x }

/-- Effects visible outside the scheduler: calls through the function pointers of a
task record (tagged with the address of the record) and calls into the hardware
library. -/
inductive Event where
  | callback (task f ts_now : Nat)
  | enter_sleep (task f : Nat)
  | exit_sleep (task f : Nat)
  | CyEnterCriticalSection
  | CyExitCriticalSection
  | CySysWdtDisable
  | CySysWdtEnable
  | CySysWdtWriteMatch (value : Nat)
  | CyDelay (ms : Nat)
  | CySysPmDeepSleep
deriving DecidableEq, Repr

/-- What the code behind the function pointers does to the scheduler state:
`task f ts_now` for an `OS_task_callback`, `sleep_wake f` for an
`OS_sleep_wake_callback`. -/
structure Callbacks where
  task : Nat → Nat → OS → OS
  sleep_wake : Nat → OS → OS

/-- Callbacks that never touch the scheduler. -/
def Callbacks.inert : Callbacks := ⟨fun _ _ s => s, fun _ s => s⟩

/-! ## Clock -/

/-- The tick interrupt handler `CY_ISR(OS_Wdt0Isr)`.  The acknowledgement of the interrupt in the watchdog
hardware (`CySysWdtClearInterrupt`) does not touch the scheduler state and is left out. -/
def OS_Wdt0Isr (s : OS) : OS :=
  let s1 := { s with isr_counter := (s.isr_counter + 1) % 65536 }
  if !s1.mutex then
    { s1 with ms_counter := (s1.ms_counter + s1.isr_counter) % 65536, isr_counter := 0 }
  else
    s1

/-- The function `OS_Get`: returns `retval` and the state after the call. -/
def OS_Get (s : OS) : Nat × OS :=
  let s1 := { s with mutex := true }
  let retval := s1.ms_counter
  let s2 := { s1 with mutex := false }
  (retval, s2)

/-- The function `OS_Elapsed`: the result and the state after the call. -/
def OS_Elapsed (ts : Nat) (s : OS) : Nat × OS :=
  let r := OS_Get s
  (ts_sub r.1 ts, r.2)

/-- The atomic steps of the two execution contexts that share the clock: one run of the
tick interrupt, and the three statements of `OS_Get`. -/
inductive ClockStep where
  | tick
  | set_mutex
  | read_counter
  | clear_mutex
deriving DecidableEq, Repr

/-- One atomic step on the scheduler state and the local `retval` of `OS_Get`. -/
def clock_step : ClockStep → OS × Nat → OS × Nat
  | .tick, (s, r) => (OS_Wdt0Isr s, r)
  | .set_mutex, (s, r) => ({ s with mutex := true }, r)
  | .read_counter, (s, _) => (s, s.ms_counter)
  | .clear_mutex, (s, r) => ({ s with mutex := false }, r)

/-- Run a schedule of atomic steps, first element first. -/
def clock_run (sched : List ClockStep) (c : OS × Nat) : OS × Nat :=
  sched.foldl (fun c st => clock_step st c) c

/-- Number of tick interrupts in a schedule. -/
def ticks_in (sched : List ClockStep) : Nat := sched.count ClockStep.tick

/-! ## Registry -/

/-- The function `OS_AddTask`; `p_task` is the address of the caller's record.  The
result is `none` when the tail pointer is dereferenced while it is `NULL`. -/
def OS_AddTask (p_task : Nat) (s : OS) : Option (OS × Bool) :=
  let linked : Option OS :=
    match s.p_first_task_config with
    | none => some { s with p_first_task_config := some p_task }
    | some _ =>
      match s.p_last_task_config with
      | none => none
      | some last => some (s.store last { s.mem last with p_next_task := some p_task })
  match linked with
  | none => none
  | some s1 =>
    let s2 := { s1 with p_last_task_config := some p_task }
    let s3 := s2.store p_task { s2.mem p_task with p_next_task := none }
    some (s3, true)

/-- The function `OS_CreateTask`. -/
def OS_CreateTask (p_task period callback : Nat) (sleep wake : Option Nat) (s : OS) :
    Option (OS × Bool) :=
  let s1 := s.store p_task { s.mem p_task with period := period }
  let s2 := s1.store p_task { s1.mem p_task with callback := callback }
  let s3 := s2.store p_task { s2.mem p_task with enter_sleep := sleep }
  let s4 := s3.store p_task { s3.mem p_task with exit_sleep := wake }
  let s5 := s4.store p_task { s4.mem p_task with p_next_task := none }
  let r := OS_Get s5
  let s6 := r.2.store p_task { r.2.mem p_task with prev_timestamp := r.1 }
  OS_AddTask p_task s6

/-! ## Scheduler -/

/-- The function `OS_Stop`. -/
def OS_Stop (s : OS) : OS := { s with is_os_active := false }

/-- The inner `while (NULL != p_active_task)` loop of `OS_LaunchDaemon`, started with
`p_active_task = p`.  Returns the final state and the calls made, in order. -/
def dispatch_loop (cb : Callbacks) (now : Nat) : Nat → Option Nat → OS → Option (OS × List Event)
  | _, none, s => some (s, [])
  | 0, some _, _ => none
  | fuel + 1, some a, s =>
    if (s.mem a).period ≤ ts_sub now (s.mem a).prev_timestamp then
      let f := (s.mem a).callback
      let s1 := cb.task f now s
      let s2 := s1.store a { s1.mem a with prev_timestamp := now }
      match dispatch_loop cb now fuel (s2.mem a).p_next_task s2 with
      | none => none
      | some (s3, tr) => some (s3, Event.callback a f now :: tr)
    else
      dispatch_loop cb now fuel (s.mem a).p_next_task s

/-- The loop of `OS_EnterLowPower` over the task list. -/
def enter_sleep_loop (cb : Callbacks) : Nat → Option Nat → OS → Option (OS × List Event)
  | _, none, s => some (s, [])
  | 0, some _, _ => none
  | fuel + 1, some a, s =>
    match (s.mem a).enter_sleep with
    | some f =>
      let s1 := cb.sleep_wake f s
      match enter_sleep_loop cb fuel (s1.mem a).p_next_task s1 with
      | none => none
      | some (s2, tr) => some (s2, Event.enter_sleep a f :: tr)
    | none => enter_sleep_loop cb fuel (s.mem a).p_next_task s

/-- The loop of `OS_ExitLowPower` over the task list. -/
def exit_sleep_loop (cb : Callbacks) : Nat → Option Nat → OS → Option (OS × List Event)
  | _, none, s => some (s, [])
  | 0, some _, _ => none
  | fuel + 1, some a, s =>
    match (s.mem a).exit_sleep with
    | some f =>
      let s1 := cb.sleep_wake f s
      match exit_sleep_loop cb fuel (s1.mem a).p_next_task s1 with
      | none => none
      | some (s2, tr) => some (s2, Event.exit_sleep a f :: tr)
    | none => exit_sleep_loop cb fuel (s.mem a).p_next_task s

/-- The reprogramming of watchdog counter 0 at the start of both power transitions. -/
def wdt_reprogram : List Event :=
  [Event.CyEnterCriticalSection, Event.CySysWdtDisable, Event.CyDelay 10,
   Event.CySysWdtWriteMatch 32, Event.CySysWdtEnable]

/-- The function `OS_EnterLowPower`: the final state and the calls made, in order. -/
def OS_EnterLowPower (cb : Callbacks) (fuel : Nat) (s : OS) : Option (OS × List Event) :=
  if !s.is_sleep_active then
    match enter_sleep_loop cb fuel s.p_first_task_config s with
    | none => none
    | some (s1, tr) =>
      some ({ s1 with is_sleep_active := true },
        wdt_reprogram ++ tr ++ [Event.CyExitCriticalSection])
  else
    some (s, [])

/-- The function `OS_ExitLowPower`: the final state and the calls made, in order. -/
def OS_ExitLowPower (cb : Callbacks) (fuel : Nat) (s : OS) : Option (OS × List Event) :=
  if s.is_sleep_active then
    let s0 := { s with is_sleep_active := false }
    match exit_sleep_loop cb fuel s0.p_first_task_config s0 with
    | none => none
    | some (s1, tr) => some (s1, wdt_reprogram ++ tr ++ [Event.CyExitCriticalSection])
  else
    some (s, [])

/-- One iteration of the outer `while (is_os_active)` loop of `OS_LaunchDaemon`:
sample the clock once, run the dispatch pass, and park the processor when the
low-power flag is set. -/
def OS_LaunchDaemon_pass (cb : Callbacks) (fuel : Nat) (s : OS) : Option (OS × List Event) :=
  let r := OS_Get s
  let now := r.1
  match dispatch_loop cb now fuel r.2.p_first_task_config r.2 with
  | none => none
  | some (s1, tr) =>
    if s1.is_sleep_active then some (s1, tr ++ [Event.CySysPmDeepSleep]) else some (s1, tr)

/-- Simulated clock: the state in front of dispatch pass `n`, when exactly one tick
interrupt is delivered after every pass. -/
def simulated_clock (cb : Callbacks) (fuel : Nat) : Nat → OS → Option OS
  | 0, s => some s
  | n + 1, s =>
    match simulated_clock cb fuel n s with
    | none => none
    | some sn =>
      match OS_LaunchDaemon_pass cb fuel sn with
      | none => none
      | some (s1, _) => some (OS_Wdt0Isr s1)

/-- The calls made by dispatch pass `n` under the simulated clock. -/
def simulated_pass (cb : Callbacks) (fuel n : Nat) (s : OS) : Option (List Event) :=
  match simulated_clock cb fuel n s with
  | none => none
  | some sn =>
    match OS_LaunchDaemon_pass cb fuel sn with
    | none => none
    | some (_, tr) => some tr

/-! ## Well-formed registries -/

/-- The records linked from pointer `p` are exactly the addresses `l`, in order, and
the last one has a `NULL` link. -/
def Chain (mem : Nat → OS_task_t) : Option Nat → List Nat → Prop
  | p, [] => p = none
  | p, a :: l => p = some a ∧ Chain mem (mem a).p_next_task l

instance Chain.decidable (mem : Nat → OS_task_t) :
    (p : Option Nat) → (l : List Nat) → Decidable (Chain mem p l)
  | p, [] => inferInstanceAs (Decidable (p = none))
  | p, a :: l =>
    have := Chain.decidable mem (mem a).p_next_task l
    inferInstanceAs (Decidable (p = some a ∧ Chain mem (mem a).p_next_task l))

/-- The registry of `s` holds the task list `l`: the head pointer starts the chain `l`
and, when the list is not empty, the tail pointer is its last record. -/
def TaskList (s : OS) (l : List Nat) : Prop :=
  Chain s.mem s.p_first_task_config l ∧ (l ≠ [] → s.p_last_task_config = l.getLast?)

/-- A task is due at `now`. -/
def due (now : Nat) (t : OS_task_t) : Bool := decide (t.period ≤ ts_sub now t.prev_timestamp)

/-- The dispatch callbacks do not modify the registry: they leave the task records and
the head and tail pointers alone. -/
def KeepsRegistry (cb : Callbacks) : Prop :=
  ∀ f now s, (cb.task f now s).mem = s.mem ∧
    (cb.task f now s).p_first_task_config = s.p_first_task_config ∧
    (cb.task f now s).p_last_task_config = s.p_last_task_config

/-- The sleep and wake callbacks do not modify the registry. -/
def SleepWakeKeepsRegistry (cb : Callbacks) : Prop :=
  ∀ f s, (cb.sleep_wake f s).mem = s.mem ∧
    (cb.sleep_wake f s).p_first_task_config = s.p_first_task_config ∧
    (cb.sleep_wake f s).p_last_task_config = s.p_last_task_config

/-- The dispatch callbacks leave the clock variables alone. -/
def KeepsClock (cb : Callbacks) : Prop :=
  ∀ f now s, (cb.task f now s).ms_counter = s.ms_counter ∧
    (cb.task f now s).isr_counter = s.isr_counter ∧
    (cb.task f now s).mutex = s.mutex

/-- The sleep and wake callbacks leave the low-power flag alone. -/
def KeepsSleepFlag (cb : Callbacks) : Prop :=
  ∀ f s, (cb.sleep_wake f s).is_sleep_active = s.is_sleep_active

/-- The state at reset: the initial values of the file-scope variables. -/
def OS.reset (mem : Nat → OS_task_t) : OS :=
  { mem := mem, p_first_task_config := none, p_last_task_config := none,
    is_os_active := false, is_sleep_active := false,
    isr_counter := 0, ms_counter := 0, mutex := false }

/-- A registry with two tasks, at addresses `1` and `2`, used to exercise the theorems:
task `1` has period `5` and a wake callback, task `2` has period `3` and a sleep
callback; both were last run at time `0`. -/
def demo_mem : Nat → OS_task_t := fun a =>
  if a = 1 then ⟨7, none, some 3, some 2, 5, 0⟩
  else if a = 2 then ⟨8, some 4, none, none, 3, 0⟩
  else ⟨0, none, none, none, 0, 0⟩

/-- The scheduler state over `demo_mem`, with the clock at `4`. -/
def demo_os : OS :=
  { mem := demo_mem, p_first_task_config := some 1, p_last_task_config := some 2,
    is_os_active := true, is_sleep_active := false,
    isr_counter := 0, ms_counter := 4, mutex := false }

/-- Number of calls of the dispatch callback of the task at address `a` in a trace. -/
def calls_of (a : Nat) (tr : List Event) : Nat :=
  tr.countP fun e =>
    match e with
    | Event.callback b _ _ => decide (b = a)
    | _ => false

/-- The links from pointer `p` run through the addresses `l`, in order, and the link
of the last one (or `p` itself when `l` is empty) is `q`. -/
def Seg (mem : Nat → OS_task_t) : Option Nat → List Nat → Option Nat → Prop
  | p, [], q => p = q
  | p, a :: l, q => p = some a ∧ Seg mem (mem a).p_next_task l q

/-- State `s'` differs from `s` at most in the list links: the head and tail pointers
and the `p_next_task` fields. -/
def OnlyLinksChanged (s s' : OS) : Prop :=
  (∀ a, (s'.mem a).callback = (s.mem a).callback ∧
    (s'.mem a).enter_sleep = (s.mem a).enter_sleep ∧
    (s'.mem a).exit_sleep = (s.mem a).exit_sleep ∧
    (s'.mem a).period = (s.mem a).period ∧
    (s'.mem a).prev_timestamp = (s.mem a).prev_timestamp) ∧
  s'.is_os_active = s.is_os_active ∧ s'.is_sleep_active = s.is_sleep_active ∧
  s'.isr_counter = s.isr_counter ∧ s'.ms_counter = s.ms_counter ∧ s'.mutex = s.mutex

/-- A registration call made by the application. -/
inductive RegCall where
  | add (p_task : Nat)
  | create (p_task period callback : Nat) (sleep wake : Option Nat)
deriving DecidableEq, Repr

/-- The record a registration call hands to the scheduler. -/
def RegCall.record : RegCall → Nat
  | .add p_task => p_task
  | .create p_task _ _ _ _ => p_task

/-- Perform one registration call. -/
def register (c : RegCall) (s : OS) : Option (OS × Bool) :=
  match c with
  | .add p_task => OS_AddTask p_task s
  | .create p_task period callback sleep wake => OS_CreateTask p_task period callback sleep wake s

/-- An operation of the program on the scheduler: a registration call, one iteration
of the loop of `OS_LaunchDaemon`, a power transition, a tick interrupt, or `OS_Stop`. -/
inductive Op where
  | register (c : RegCall)
  | pass
  | enter_low_power
  | exit_low_power
  | tick
  | stop
deriving DecidableEq, Repr

/-- The record an operation registers, if it is a registration call. -/
def Op.record : Op → Option Nat
  | .register c => some c.record
  | _ => none

/-- Perform one operation. -/
def run_op (cb : Callbacks) (fuel : Nat) : Op → OS → Option OS
  | .register c, s => (register c s).map Prod.fst
  | .pass, s => (OS_LaunchDaemon_pass cb fuel s).map Prod.fst
  | .enter_low_power, s => (OS_EnterLowPower cb fuel s).map Prod.fst
  | .exit_low_power, s => (OS_ExitLowPower cb fuel s).map Prod.fst
  | .tick, s => some (OS_Wdt0Isr s)
  | .stop, s => some (OS_Stop s)

/-- Perform a sequence of operations, first element first. -/
def run_ops (cb : Callbacks) (fuel : Nat) : List Op → OS → Option OS
  | [], s => some s
  | o :: ops, s =>
    match run_op cb fuel o s with
    | none => none
    | some s1 => run_ops cb fuel ops s1

/-- Run an operation twice in a row and concatenate the calls made. -/
def twice (op : OS → Option (OS × List Event)) (s : OS) : Option (OS × List Event) :=
  match op s with
  | none => none
  | some (s1, tr1) =>
    match op s1 with
    | none => none
    | some (s2, tr2) => some (s2, tr1 ++ tr2)

/-! ## The scheduler loop -/

/-- Deliver `n` tick interrupts. -/
def deliver_ticks : Nat → OS → OS
  | 0, s => s
  | n + 1, s => deliver_ticks n (OS_Wdt0Isr s)

/-- The loop `while (is_os_active)` of `OS_LaunchDaemon`.  The first argument bounds the
number of iterations (`none` when the loop is still running after that many);
`ticks i` is the number of tick interrupts delivered after the `i`-th coming
iteration, before the loop condition is tested again.  Returns the final state and
the calls made, in order. -/
def OS_LaunchDaemon_loop (cb : Callbacks) (fuel : Nat) :
    Nat → (Nat → Nat) → OS → Option (OS × List Event)
  | 0, _, s => if s.is_os_active then none else some (s, [])
  | iters + 1, ticks, s =>
    if s.is_os_active then
      match OS_LaunchDaemon_pass cb fuel s with
      | none => none
      | some (s1, tr1) =>
        match OS_LaunchDaemon_loop cb fuel iters (fun i => ticks (i + 1))
            (deliver_ticks (ticks 0) s1) with
        | none => none
        | some (s2, tr2) => some (s2, tr1 ++ tr2)
    else
      some (s, [])

/-- The function `OS_LaunchDaemon`. -/
def OS_LaunchDaemon (cb : Callbacks) (fuel iters : Nat) (ticks : Nat → Nat) (s : OS) :
    Option (OS × List Event) :=
  OS_LaunchDaemon_loop cb fuel iters ticks { s with is_os_active := true }

/-- The dispatch callbacks never set the active flag: they may call `OS_Stop`, but they
do not restart the scheduler. -/
def NeverRestarts (cb : Callbacks) : Prop :=
  ∀ f now s, (cb.task f now s).is_os_active = true → s.is_os_active = true

/-- The dispatch callback `f` requests a stop: whatever else it does, the active flag
is clear when it returns, as after a call of `OS_Stop`. -/
def RequestsStop (cb : Callbacks) (f : Nat) : Prop :=
  ∀ now s, (cb.task f now s).is_os_active = false

/-- Callbacks in which the dispatch callback `f` calls `OS_Stop` and nothing else
touches the scheduler. -/
def Callbacks.stopping (f : Nat) : Callbacks :=
  ⟨fun g _ s => if g = f then OS_Stop s else s, fun _ s => s⟩

/-! ## Pin components shared by the two client modules -/

/-- Drive modes of a pin component named in the two modules. -/
inductive DriveMode where
  | DM_RES_UP
  | DM_DIG_HIZ
  | DM_STRONG
deriving DecidableEq, Repr

/-- Effects of the client modules visible outside: calls into the pin component and
calls of the application callbacks. -/
inductive PinEvent where
  | SetDriveMode (mode : DriveMode)
  | Write (level : Nat)
  | activation_callback (f : Nat)
  | deactivation_callback (f : Nat)
deriving DecidableEq, Repr

/-- The addresses the linker gives to the static task record `this` of a module and to
its three scheduler callbacks. -/
structure TaskSymbols where
  this : Nat
  handle : Nat
  sleep : Nat
  wake : Nat
deriving DecidableEq, Repr

/-! ## Debounced input (`lib_di.c`) -/

/-- The enumeration `Pushbutton_action_t`. -/
inductive Pushbutton_action_t where
  | Pushbutton_DEACTIVATED
  | Pushbutton_ACTIVATED
deriving DecidableEq, Repr

/-- The macro `INPUT_ACTIVE`, `((0) ? 1 : 0)`. -/
def INPUT_ACTIVE : Nat := if (0 : Nat) ≠ 0 then 1 else 0

/-- The file-scope variables of `lib_di.c` and the static local `debounce_index` of
`Pushbutton_Handle`; `history_0` and `history_1` are the two elements of `history`. -/
structure Pushbutton where
  present_state : Pushbutton_action_t
  is_active_during_sleep : Bool
  is_awake : Bool
  activation_callback : Option Nat
  deactivation_callback : Option Nat
  history_0 : Pushbutton_action_t
  history_1 : Pushbutton_action_t
  debounce_index : Nat
deriving DecidableEq, Repr

/-- The initial values of the variables of `lib_di.c`. -/
def Pushbutton.init : Pushbutton :=
  { present_state := .Pushbutton_DEACTIVATED, is_active_during_sleep := false,
    is_awake := true, activation_callback := none, deactivation_callback := none,
    history_0 := .Pushbutton_DEACTIVATED, history_1 := .Pushbutton_DEACTIVATED,
    debounce_index := 0 }

/-- An initial state of the debouncer: settled `DEACTIVATED`, both history slots
`DEACTIVATED`, write index `0`. -/
def Pushbutton.Initial (p : Pushbutton) : Prop :=
  p.present_state = Pushbutton_action_t.Pushbutton_DEACTIVATED ∧
  p.history_0 = Pushbutton_action_t.Pushbutton_DEACTIVATED ∧
  p.history_1 = Pushbutton_action_t.Pushbutton_DEACTIVATED ∧
  p.debounce_index = 0

/-- The assignment `history[i] = reading`; `none` when `i` is outside the array. -/
def Pushbutton.history_set (p : Pushbutton) (i : Nat) (reading : Pushbutton_action_t) :
    Option Pushbutton :=
  if i = 0 then some { p with history_0 := reading }
  else if i = 1 then some { p with history_1 := reading }
  else none

/-- The static function `set_drive_mode` of `lib_di.c`: the branch `#if (2 == 2)`. -/
def set_drive_mode : List PinEvent := [PinEvent.SetDriveMode DriveMode.DM_RES_UP]

/-- The statements of `Pushbutton_Start` in front of the call of `OS_CreateTask`. -/
def Pushbutton_Start_vars (activate_callback deactivate_callback : Option Nat)
    (is_active_in_sleep_mode : Bool) (p : Pushbutton) : Pushbutton × List PinEvent :=
  ({ p with is_active_during_sleep := is_active_in_sleep_mode, is_awake := true,
            activation_callback := activate_callback,
            deactivation_callback := deactivate_callback },
   set_drive_mode)

/-- The function `Pushbutton_Start`: the new module state, the scheduler state after the
registration, and the calls made. -/
def Pushbutton_Start (sym : TaskSymbols) (activate_callback deactivate_callback : Option Nat)
    (is_active_in_sleep_mode : Bool) (p : Pushbutton) (s : OS) :
    Option (Pushbutton × OS × List PinEvent) :=
  let r := Pushbutton_Start_vars activate_callback deactivate_callback is_active_in_sleep_mode p
  match OS_CreateTask sym.this 10 sym.handle (some sym.sleep) (some sym.wake) s with
  | none => none
  | some (s1, _) => some (r.1, s1, r.2)

/-- The function `Pushbutton_Read`. -/
def Pushbutton_Read (p : Pushbutton) : Pushbutton_action_t := p.present_state

/-- The function `Pushbutton_Sleep`. -/
def Pushbutton_Sleep (p : Pushbutton) : Pushbutton × List PinEvent :=
  if !p.is_active_during_sleep then
    ({ p with is_awake := false }, [PinEvent.SetDriveMode DriveMode.DM_DIG_HIZ])
  else
    (p, [])

/-- The function `Pushbutton_WakeUp`. -/
def Pushbutton_WakeUp (p : Pushbutton) : Pushbutton × List PinEvent :=
  ({ p with is_awake := true }, set_drive_mode)

/-- The function `Pushbutton_Handle`; `pin` is the value returned by
`Pushbutton_InPin_Read()` (read only when the module is awake).  The application
callbacks are recorded as events.  The result is `none` when `debounce_index` is
outside `history`. -/
def Pushbutton_Handle (pin : Nat) (p : Pushbutton) : Option (Pushbutton × List PinEvent) :=
  if p.is_awake then
    let reading :=
      if INPUT_ACTIVE = pin then Pushbutton_action_t.Pushbutton_ACTIVATED
      else Pushbutton_action_t.Pushbutton_DEACTIVATED
    match p.history_set p.debounce_index reading with
    | none => none
    | some p1 =>
      let r : Pushbutton × List PinEvent :=
        if reading ≠ p1.present_state then
          let accum0 : Nat := 0
          let accum1 := if p1.history_0 = reading then accum0 + 1 else accum0
          let accum2 := if p1.history_1 = reading then accum1 + 1 else accum1
          if accum2 ≥ 2 then
            let p2 := { p1 with present_state := reading }
            let ev1 :=
              if Pushbutton_action_t.Pushbutton_ACTIVATED = p2.present_state then
                match p2.activation_callback with
                | some f => [PinEvent.activation_callback f]
                | none => []
              else []
            let ev2 :=
              if Pushbutton_action_t.Pushbutton_DEACTIVATED = p2.present_state then
                match p2.deactivation_callback with
                | some f => [PinEvent.deactivation_callback f]
                | none => []
              else []
            (p2, ev1 ++ ev2)
          else (p1, [])
        else (p1, [])
      some ({ r.1 with debounce_index := (r.1.debounce_index + 1) % 2 }, r.2)
  else
    some (p, [])

/-- The reading `Pushbutton_Handle` derives from the pin value. -/
def Pushbutton_reading (pin : Nat) : Pushbutton_action_t :=
  if INPUT_ACTIVE = pin then Pushbutton_action_t.Pushbutton_ACTIVATED
  else Pushbutton_action_t.Pushbutton_DEACTIVATED

/-- A call into the debounced input module: `Pushbutton_Start` (with the scheduler state
it registers in), a dispatch of `Pushbutton_Handle` with the value the pin reads,
`Pushbutton_Sleep`, `Pushbutton_WakeUp`. -/
inductive DiOp where
  | start (activate_callback deactivate_callback : Option Nat)
      (is_active_in_sleep_mode : Bool) (s : OS)
  | dispatch (pin : Nat)
  | sleep
  | wake

/-- Perform one call on the module state. -/
def di_step (sym : TaskSymbols) : DiOp → Pushbutton → Option (Pushbutton × List PinEvent)
  | .start a d m s, p => (Pushbutton_Start sym a d m p s).map fun r => (r.1, r.2.2)
  | .dispatch pin, p => Pushbutton_Handle pin p
  | .sleep, p => some (Pushbutton_Sleep p)
  | .wake, p => some (Pushbutton_WakeUp p)

/-- Perform a sequence of calls, first element first; the events are concatenated. -/
def di_run (sym : TaskSymbols) : List DiOp → Pushbutton → Option (Pushbutton × List PinEvent)
  | [], p => some (p, [])
  | o :: ops, p =>
    match di_step sym o p with
    | none => none
    | some (p1, ev1) =>
      match di_run sym ops p1 with
      | none => none
      | some (p2, ev2) => some (p2, ev1 ++ ev2)

/-- The most recently sampled reading after the call `o` in state `p`, when it was
`last` before: a dispatch that finds the module awake samples the pin. -/
def di_sampled (o : DiOp) (p : Pushbutton) (last : Pushbutton_action_t) : Pushbutton_action_t :=
  match o with
  | .dispatch pin => if p.is_awake then Pushbutton_reading pin else last
  | _ => last

/-- The reading sampled by the last dispatch of the sequence that found the module
awake, or `last` when there is none. -/
def di_last_reading (sym : TaskSymbols) :
    List DiOp → Pushbutton → Pushbutton_action_t → Pushbutton_action_t
  | [], _, last => last
  | o :: ops, p, last =>
    match di_step sym o p with
    | none => last
    | some (p1, _) => di_last_reading sym ops p1 (di_sampled o p last)

/-- The calls `Pushbutton_Handle` makes when it commits the reading `r`. -/
def commit_calls (p : Pushbutton) (r : Pushbutton_action_t) : List PinEvent :=
  match r with
  | .Pushbutton_ACTIVATED =>
    match p.activation_callback with
    | some f => [PinEvent.activation_callback f]
    | none => []
  | .Pushbutton_DEACTIVATED =>
    match p.deactivation_callback with
    | some f => [PinEvent.deactivation_callback f]
    | none => []

/-- The element of `history` that the next dispatch does not overwrite: it holds the
reading sampled before. -/
def Pushbutton.previous_sample (p : Pushbutton) : Pushbutton_action_t :=
  if p.debounce_index = 0 then p.history_1 else p.history_0

/-- A pin event is a call of an application callback. -/
def PinEvent.is_callback : PinEvent → Bool
  | .activation_callback _ => true
  | .deactivation_callback _ => true
  | _ => false

/-! ## Blinking output (`lib_do.c`) -/

/-- The enumeration `led_state_t`. -/
inductive led_state_t where
  | LED_STATE_OFF
  | LED_STATE_BLINK_OFF
  | LED_STATE_BLINK_ON
  | LED_STATE_CHIRP
  | LED_STATE_ON
deriving DecidableEq, Repr

/-- The macro `TASK_PERIOD_1MS`. -/
def TASK_PERIOD_1MS : Nat := 1

/-- The macro `OUTPUT_ON`. -/
def OUTPUT_ON : Nat := 1

/-- The macro `OUTPUT_OFF`, `(1 - 1)`. -/
def OUTPUT_OFF : Nat := 1 - 1

/-- The constant `LED_MAX_TIME`. -/
def LED_MAX_TIME : Nat := 10000

/-- The file-scope variables of `lib_do.c`. -/
structure BlueLED where
  on_target : Nat
  off_target : Nat
  prev_timestamp : Nat
  current_state : led_state_t
  is_active_during_sleep : Bool
  is_awake : Bool
deriving DecidableEq, Repr

/-- The initial values of the variables of `lib_do.c`. -/
def BlueLED.init : BlueLED :=
  { on_target := 0, off_target := 0, prev_timestamp := 0,
    current_state := .LED_STATE_OFF, is_active_during_sleep := false, is_awake := true }

/-- The statements of `BlueLED_Start` in front of the call of `OS_CreateTask`. -/
def BlueLED_Start_vars (is_active_in_sleep_mode : Bool) (led : BlueLED) : BlueLED :=
  { led with is_active_during_sleep := is_active_in_sleep_mode, is_awake := true }

/-- The function `BlueLED_Start`: the new module state and the scheduler state after the
registration. -/
def BlueLED_Start (sym : TaskSymbols) (is_active_in_sleep_mode : Bool) (led : BlueLED)
    (s : OS) : Option (BlueLED × OS) :=
  match OS_CreateTask sym.this TASK_PERIOD_1MS sym.handle (some sym.sleep) (some sym.wake) s with
  | none => none
  | some (s1, _) => some (BlueLED_Start_vars is_active_in_sleep_mode led, s1)

/-- The function `BlueLED_Sleep`. -/
def BlueLED_Sleep (led : BlueLED) : BlueLED × List PinEvent :=
  if !led.is_active_during_sleep then
    ({ led with is_awake := false }, [PinEvent.SetDriveMode DriveMode.DM_DIG_HIZ])
  else
    (led, [])

/-- The function `BlueLED_WakeUp`. -/
def BlueLED_WakeUp (led : BlueLED) : BlueLED × List PinEvent :=
  ({ led with is_awake := true }, [PinEvent.SetDriveMode DriveMode.DM_STRONG])

/-- The function `BlueLED_On`. -/
def BlueLED_On (led : BlueLED) : BlueLED × List PinEvent :=
  ({ led with current_state := .LED_STATE_ON }, [PinEvent.Write OUTPUT_ON])

/-- The function `BlueLED_Off`. -/
def BlueLED_Off (led : BlueLED) : BlueLED × List PinEvent :=
  ({ led with current_state := .LED_STATE_OFF }, [PinEvent.Write OUTPUT_OFF])

/-- The function `BlueLED_Pulsing`, called in scheduler state `s`: the new module state,
the scheduler state after `OS_Get`, and the calls made. -/
def BlueLED_Pulsing (on_time off_time : Nat) (led : BlueLED) (s : OS) :
    BlueLED × OS × List PinEvent :=
  let led1 := { led with on_target := if on_time < LED_MAX_TIME then on_time else LED_MAX_TIME }
  let led2 :=
    { led1 with off_target := if off_time < LED_MAX_TIME then off_time else LED_MAX_TIME }
  let r := OS_Get s
  let led3 := { led2 with prev_timestamp := ts_sub r.1 off_time }
  let led4 := { led3 with current_state := led_state_t.LED_STATE_BLINK_OFF }
  (led4, r.2, [PinEvent.Write OUTPUT_OFF])

/-- The function `BlueLED_OneShot`, called in scheduler state `s`. -/
def BlueLED_OneShot (on_time : Nat) (led : BlueLED) (s : OS) : BlueLED × OS × List PinEvent :=
  let led1 := { led with on_target := if on_time < LED_MAX_TIME then on_time else LED_MAX_TIME }
  let led2 := { led1 with off_target := 0 }
  let r := OS_Get s
  let led3 := { led2 with prev_timestamp := r.1 }
  let led4 := { led3 with current_state := led_state_t.LED_STATE_CHIRP }
  (led4, r.2, [PinEvent.Write OUTPUT_ON])

/-- The function `BlueLED_Handle`. -/
def BlueLED_Handle (ts_now : Nat) (led : BlueLED) : BlueLED × List PinEvent :=
  if led.is_awake then
    let delta := ts_sub ts_now led.prev_timestamp
    let r : BlueLED × Nat :=
      match led.current_state with
      | .LED_STATE_BLINK_ON =>
        if delta > led.on_target then
          ({ led with prev_timestamp := ts_now, current_state := .LED_STATE_BLINK_OFF },
            OUTPUT_OFF)
        else (led, OUTPUT_ON)
      | .LED_STATE_BLINK_OFF =>
        if delta > led.off_target then
          ({ led with prev_timestamp := ts_now, current_state := .LED_STATE_BLINK_ON },
            OUTPUT_ON)
        else (led, OUTPUT_OFF)
      | .LED_STATE_CHIRP =>
        if delta > led.on_target then
          ({ led with prev_timestamp := ts_now, current_state := .LED_STATE_OFF }, OUTPUT_OFF)
        else (led, OUTPUT_ON)
      | .LED_STATE_ON => (led, OUTPUT_ON)
      | .LED_STATE_OFF => (led, OUTPUT_OFF)
    (r.1, [PinEvent.Write r.2])
  else
    (led, [])

/-- A call into the blinking output module; the calls that read the clock or register
with the scheduler carry the scheduler state they are made in. -/
inductive LedOp where
  | start (is_active_in_sleep_mode : Bool) (s : OS)
  | sleep
  | wake
  | turn_on
  | turn_off
  | pulsing (on_time off_time : Nat) (s : OS)
  | one_shot (on_time : Nat) (s : OS)
  | dispatch (ts_now : Nat)

/-- Perform one call on the module state. -/
def led_step (sym : TaskSymbols) : LedOp → BlueLED → Option (BlueLED × List PinEvent)
  | .start m s, led => (BlueLED_Start sym m led s).map fun r => (r.1, [])
  | .sleep, led => some (BlueLED_Sleep led)
  | .wake, led => some (BlueLED_WakeUp led)
  | .turn_on, led => some (BlueLED_On led)
  | .turn_off, led => some (BlueLED_Off led)
  | .pulsing on_time off_time s, led =>
    some ((BlueLED_Pulsing on_time off_time led s).1, (BlueLED_Pulsing on_time off_time led s).2.2)
  | .one_shot on_time s, led =>
    some ((BlueLED_OneShot on_time led s).1, (BlueLED_OneShot on_time led s).2.2)
  | .dispatch ts_now, led => some (BlueLED_Handle ts_now led)

/-- Perform a sequence of calls, first element first; the events are concatenated. -/
def led_run (sym : TaskSymbols) : List LedOp → BlueLED → Option (BlueLED × List PinEvent)
  | [], led => some (led, [])
  | o :: ops, led =>
    match led_step sym o led with
    | none => none
    | some (led1, ev1) =>
      match led_run sym ops led1 with
      | none => none
      | some (led2, ev2) => some (led2, ev1 ++ ev2)

/-- Dispatch `BlueLED_Handle` once for every timestamp of the list, in order. -/
def led_dispatches : List Nat → BlueLED → BlueLED × List PinEvent
  | [], led => (led, [])
  | ts_now :: rest, led =>
    let r := BlueLED_Handle ts_now led
    let r2 := led_dispatches rest r.1
    (r2.1, r.2 ++ r2.2)

/-- The timestamps of `n` dispatches, one per tick, following clock value `t`:
`t + 1`, ..., `t + n`, as 16-bit values. -/
def tick_times (t n : Nat) : List Nat :=
  (List.range n).map fun i => (t + 1 + i) % 65536

/-- The modes in which the sequencer holds the output high. -/
def led_state_t.drives_high : led_state_t → Bool
  | .LED_STATE_BLINK_ON => true
  | .LED_STATE_CHIRP => true
  | .LED_STATE_ON => true
  | .LED_STATE_OFF => false
  | .LED_STATE_BLINK_OFF => false

/-- The debouncer's settled state agrees with its history: when the two history slots
hold the same value, the settled state is that value. -/
def Pushbutton.Settled (p : Pushbutton) : Prop :=
  p.history_0 = p.history_1 → p.present_state = p.history_0

/-! ## Inert callbacks -/

theorem inert_keeps_registry : KeepsRegistry Callbacks.inert :=
  fun _ _ _ => ⟨rfl, rfl, rfl⟩

theorem inert_sleep_wake_keeps_registry : SleepWakeKeepsRegistry Callbacks.inert :=
  fun _ _ => ⟨rfl, rfl, rfl⟩

theorem inert_keeps_clock : KeepsClock Callbacks.inert :=
  fun _ _ _ => ⟨rfl, rfl, rfl⟩

theorem inert_keeps_sleep_flag : KeepsSleepFlag Callbacks.inert :=
  fun _ _ => rfl

/-! ## Timestamp arithmetic and linked chains -/

theorem ts_sub_lt (a b : Nat) : ts_sub a b < 65536 := by
  unfold ts_sub to_timestamp; omega

theorem ts_sub_self (a : Nat) : ts_sub a a = 0 := by
  unfold ts_sub to_timestamp; omega

theorem ts_sub_eq (a b : Nat) (h : b ≤ a) : ts_sub a b = (a - b) % 65536 := by
  unfold ts_sub to_timestamp; omega

theorem ts_sub_mod_left (a b : Nat) : ts_sub (a % 65536) b = ts_sub a b := by
  unfold ts_sub to_timestamp; omega

theorem ts_sub_mod_right (a b : Nat) : ts_sub a (b % 65536) = ts_sub a b := by
  unfold ts_sub to_timestamp; omega

theorem ts_sub_add (t d : Nat) : ts_sub ((t + d) % 65536) t = d % 65536 := by
  unfold ts_sub to_timestamp; omega

theorem chain_congr {m m' : Nat → OS_task_t} :
    ∀ (l : List Nat) (p : Option Nat),
      (∀ a ∈ l, (m' a).p_next_task = (m a).p_next_task) → Chain m p l → Chain m' p l
  | [], _, _, h => h
  | a :: l, _, hm, h => by
    refine ⟨h.1, ?_⟩
    rw [hm a (List.mem_cons_self a l)]
    exact chain_congr l _ (fun x hx => hm x (List.mem_cons_of_mem a hx)) h.2

theorem chain_unique {m : Nat → OS_task_t} :
    ∀ (l1 l2 : List Nat) (p : Option Nat), Chain m p l1 → Chain m p l2 → l1 = l2
  | [], [], _, _, _ => rfl
  | [], b :: _, _, h1, h2 => by
    have h1' : _ = none := h1
    rw [h1'] at h2; exact absurd h2.1 (by simp)
  | a :: _, [], _, h1, h2 => by
    have h2' : _ = none := h2
    rw [h2'] at h1; exact absurd h1.1 (by simp)
  | a :: l1, b :: l2, p, h1, h2 => by
    have hab : a = b := by
      have := h1.1.symm.trans h2.1
      exact Option.some.inj this
    subst hab
    rw [chain_unique l1 l2 _ h1.2 h2.2]

theorem chain_suffix {m : Nat → OS_task_t} :
    ∀ (l : List Nat) (p : Option Nat) (a : Nat), Chain m p l → a ∈ l →
      ∃ l2, Chain m (some a) (a :: l2) ∧ l2.length < l.length
  | [], _, _, _, ha => absurd ha (List.not_mem_nil _)
  | b :: l, p, a, h, ha => by
    by_cases hab : a = b
    · subst hab
      exact ⟨l, ⟨rfl, h.2⟩, by simp⟩
    · have hmem : a ∈ l := by
        rcases List.mem_cons.mp ha with h1 | h1
        · exact absurd h1 hab
        · exact h1
      obtain ⟨l2, hc, hlen⟩ := chain_suffix l _ a h.2 hmem
      exact ⟨l2, hc, by simp; omega⟩

theorem chain_nodup {m : Nat → OS_task_t} :
    ∀ (l : List Nat) (p : Option Nat), Chain m p l → l.Nodup
  | [], _, _ => List.nodup_nil
  | a :: l, p, h => by
    refine List.nodup_cons.mpr ⟨?_, chain_nodup l _ h.2⟩
    intro ha
    obtain ⟨l2, hc, hlen⟩ := chain_suffix l _ a h.2 ha
    have h' : Chain m (some a) (a :: l) := ⟨rfl, h.2⟩
    have := chain_unique _ _ _ hc h'
    simp at this
    subst this
    omega


theorem dispatch_loop_frame {β : Type} (g : OS → β) (cb : Callbacks) (now : Nat)
    (hcb : ∀ f s, g (cb.task f now s) = g s) (hst : ∀ s a t, g (OS.store s a t) = g s) :
    ∀ (fuel : Nat) (p : Option Nat) (s s' : OS) (tr : List Event),
      dispatch_loop cb now fuel p s = some (s', tr) → g s' = g s
  | _, none, s, s', tr, h => by
    rw [dispatch_loop] at h
    simp only [Option.some.injEq, Prod.mk.injEq] at h
    rw [← h.1]
  | 0, some a, s, s', tr, h => by
    rw [dispatch_loop] at h
    exact absurd h (by simp)
  | fuel + 1, some a, s, s', tr, h => by
    rw [dispatch_loop] at h
    dsimp only at h
    split at h
    · split at h
      · exact absurd h (by simp)
      · rename_i s3 tr3 heq
        simp only [Option.some.injEq, Prod.mk.injEq] at h
        rw [← h.1, dispatch_loop_frame g cb now hcb hst fuel _ _ _ _ heq, hst, hcb]
    · exact dispatch_loop_frame g cb now hcb hst fuel _ _ _ _ h

theorem dispatch_loop_chain (cb : Callbacks) (now : Nat) (hcb : KeepsRegistry cb) :
    ∀ (l : List Nat) (fuel : Nat) (p : Option Nat) (s : OS),
      Chain s.mem p l → l.length ≤ fuel →
      ∃ s', dispatch_loop cb now fuel p s =
          some (s', (l.filter fun a => due now (s.mem a)).map
            fun a => Event.callback a (s.mem a).callback now) ∧
        ∀ a, s'.mem a =
          if a ∈ l ∧ due now (s.mem a) = true then { s.mem a with prev_timestamp := now }
          else s.mem a
  | [], fuel, p, s, hc, _ => by
    have hp : p = none := hc
    subst hp
    refine ⟨s, ?_, ?_⟩
    · cases fuel <;> simp [dispatch_loop]
    · intro a; simp
  | b :: l, 0, p, s, _, hf => by simp at hf
  | b :: l, fuel + 1, p, s, hc, hf => by
    have hp : p = some b := hc.1
    subst hp
    have hnd : b ∉ l := (List.nodup_cons.mp (chain_nodup _ _ hc)).1
    have hlen : l.length ≤ fuel := by simpa using hf
    by_cases hd : (s.mem b).period ≤ ts_sub now (s.mem b).prev_timestamp
    · -- the task is due
      have hm : (cb.task (s.mem b).callback now s).mem = s.mem := (hcb _ _ _).1
      let s2 : OS := (cb.task (s.mem b).callback now s).store b
        { (cb.task (s.mem b).callback now s).mem b with prev_timestamp := now }
      have hs2 : ∀ x, s2.mem x = if x = b then { s.mem b with prev_timestamp := now } else s.mem x := by
        intro x
        show (if x = b then _ else _) = _
        rw [hm]
      have hnext : (s2.mem b).p_next_task = (s.mem b).p_next_task := by
        rw [hs2]; simp
      have hc2 : Chain s2.mem (s2.mem b).p_next_task l := by
        rw [hnext]
        refine chain_congr l _ ?_ hc.2
        intro x hx
        have : x ≠ b := fun h => hnd (h ▸ hx)
        rw [hs2]; simp [this]
      obtain ⟨s', hrun, hmem⟩ := dispatch_loop_chain cb now hcb l fuel _ s2 hc2 hlen
      refine ⟨s', ?_, ?_⟩
      · rw [dispatch_loop, if_pos hd]
        show (match dispatch_loop cb now fuel (s2.mem b).p_next_task s2 with
          | none => none
          | some (s3, tr) => some (s3, Event.callback b (s.mem b).callback now :: tr)) = _
        rw [hrun]
        have hdb : due now (s.mem b) = true := by simp [due, hd]
        rw [List.filter_cons]
        simp only [hdb, if_true, List.map_cons]
        have hfl : (l.filter fun a => due now (s2.mem a)) = l.filter fun a => due now (s.mem a) := by
          apply List.filter_congr
          intro x hx
          have : x ≠ b := fun h => hnd (h ▸ hx)
          rw [hs2]; simp [this]
        rw [hfl]
        congr 3
        apply List.map_congr_left
        intro x hx
        have hxl : x ∈ l := (List.mem_filter.mp hx).1
        have : x ≠ b := fun h => hnd (h ▸ hxl)
        rw [hs2]; simp [this]
      · intro x
        rw [hmem x]
        by_cases hxb : x = b
        · subst hxb
          have hdb : due now (s.mem x) = true := by simp [due, hd]
          simp [hnd, hdb, hs2]
        · simp [hs2, hxb]
    · -- the task is not due
      obtain ⟨s', hrun, hmem⟩ := dispatch_loop_chain cb now hcb l fuel _ s hc.2 hlen
      have hdb : due now (s.mem b) = false := by simp [due, hd]
      refine ⟨s', ?_, ?_⟩
      · rw [dispatch_loop, if_neg hd, hrun]
        rw [List.filter_cons]
        simp [hdb]
      · intro x
        rw [hmem x]
        by_cases hxb : x = b
        · subst hxb; simp [hdb]
        · simp [hxb]


theorem calls_of_map (a now : Nat) (g : Nat → Nat) (t : List Nat) :
    calls_of a (t.map fun b => Event.callback b (g b) now) = t.count a := by
  induction t with
  | nil => rfl
  | cons x t ih =>
    have ih' : List.countP _ _ = _ := ih
    simp only [calls_of, List.map_cons, List.countP_cons, List.count_cons, ih']
    by_cases h : x = a <;> simp [h]

theorem dispatch_loop_keeps_chain (cb : Callbacks) (now fuel : Nat) (hcb : KeepsRegistry cb)
    (s s' : OS) (tr : List Event) (l : List Nat)
    (hl : Chain s.mem s.p_first_task_config l) (hfuel : l.length ≤ fuel)
    (hrun : dispatch_loop cb now fuel s.p_first_task_config s = some (s', tr)) :
    Chain s'.mem s'.p_first_task_config l ∧ s'.p_first_task_config = s.p_first_task_config := by
  obtain ⟨s2, hrun2, hmem⟩ := dispatch_loop_chain cb now hcb l fuel _ s hl hfuel
  rw [hrun] at hrun2
  simp only [Option.some.injEq, Prod.mk.injEq] at hrun2
  obtain ⟨rfl, _⟩ := hrun2
  have hp : s'.p_first_task_config = s.p_first_task_config :=
    dispatch_loop_frame (fun s => s.p_first_task_config) cb now
      (fun f s => (hcb f now s).2.1) (fun _ _ _ => rfl) fuel _ s s' tr hrun
  refine ⟨?_, hp⟩
  rw [hp]
  refine chain_congr l _ ?_ hl
  intro a _
  rw [hmem a]
  split <;> rfl

/-! ## Registration -/

theorem chain_append {m : Nat → OS_task_t} :
    ∀ (l1 l2 : List Nat) (p : Option Nat),
      Chain m p (l1 ++ l2) ↔ ∃ q, Seg m p l1 q ∧ Chain m q l2
  | [], l2, p => by
    constructor
    · intro h; exact ⟨p, rfl, h⟩
    · rintro ⟨q, hq, h⟩
      have : p = q := hq
      subst this; exact h
  | a :: l1, l2, p => by
    constructor
    · intro h
      have h' : p = some a ∧ Chain m (m a).p_next_task (l1 ++ l2) := h
      obtain ⟨q, hs, hc⟩ := (chain_append l1 l2 _).mp h'.2
      exact ⟨q, ⟨h'.1, hs⟩, hc⟩
    · rintro ⟨q, hs, hc⟩
      have hs' : p = some a ∧ Seg m (m a).p_next_task l1 q := hs
      exact ⟨hs'.1, (chain_append l1 l2 _).mpr ⟨q, hs'.2, hc⟩⟩

theorem seg_congr {m m' : Nat → OS_task_t} :
    ∀ (l : List Nat) (p q : Option Nat),
      (∀ a ∈ l, (m' a).p_next_task = (m a).p_next_task) → Seg m p l q → Seg m' p l q
  | [], _, _, _, h => h
  | a :: l, _, _, hm, h => by
    refine ⟨h.1, ?_⟩
    rw [hm a (List.mem_cons_self a l)]
    exact seg_congr l _ _ (fun x hx => hm x (List.mem_cons_of_mem a hx)) h.2

theorem add_task_mem (p z : Nat) (s : OS) (x : Nat) :
    ((({ (s.store z { s.mem z with p_next_task := some p }) with
          p_last_task_config := some p } : OS).store p
        { ({ (s.store z { s.mem z with p_next_task := some p }) with
          p_last_task_config := some p } : OS).mem p with p_next_task := none }).mem x) =
      if x = p then { s.mem p with p_next_task := none }
      else if x = z then { s.mem z with p_next_task := some p } else s.mem x := by
  simp only [OS.store]
  by_cases hx : x = p
  · subst hx
    by_cases hz : x = z
    · subst hz; simp
    · simp [hz]
  · simp [hx]

theorem link_core (m m' : Nat → OS_task_t) (first : Option Nat) (l : List Nat) (p z : Nat)
    (hc : Chain m first l) (hz : l.getLast? = some z)
    (hother : ∀ x, x ≠ p → x ≠ z → (m' x).p_next_task = (m x).p_next_task)
    (htail : z ≠ p → (m' z).p_next_task = some p)
    (hnew : (m' p).p_next_task = none) :
    ∃ l', Chain m' first l' ∧ l'.getLast? = some p ∧ (p ∉ l → l' = l ++ [p]) ∧
      l'.length ≤ l.length + 1 := by
  have hnd : l.Nodup := chain_nodup _ _ hc
  by_cases hp : p ∈ l
  · -- the record is already linked: the list is cut behind it
    obtain ⟨l1, l2, hsplit⟩ := List.append_of_mem hp
    have hzmem : z ∈ p :: l2 := by
      rw [hsplit, List.getLast?_append] at hz
      have h2 : (p :: l2).getLast? = some z := by
        cases h3 : (p :: l2).getLast? with
        | none => simp at h3
        | some w => rw [h3] at hz; simpa using hz
      exact List.mem_of_getLast?_eq_some h2
    rw [hsplit] at hnd
    have hdisj := List.disjoint_of_nodup_append hnd
    obtain ⟨q, hseg, hch⟩ := (chain_append l1 (p :: l2) _).mp (hsplit ▸ hc)
    have hq : q = some p := hch.1
    subst hq
    refine ⟨l1 ++ [p], ?_, by simp, fun h => absurd hp h, by rw [hsplit]; simp⟩
    refine (chain_append l1 [p] _).mpr ⟨some p, ?_, ⟨rfl, hnew⟩⟩
    refine seg_congr l1 _ _ ?_ hseg
    intro a ha
    have hap : a ≠ p := fun h => hdisj ha (h ▸ List.mem_cons_self p l2)
    have haz : a ≠ z := fun h => hdisj ha (h ▸ hzmem)
    exact hother a hap haz
  · -- a new record is linked behind the tail
    rcases List.eq_nil_or_concat l with hnil | ⟨l0, z', hl0⟩
    · rw [hnil] at hz; simp at hz
    rw [List.concat_eq_append] at hl0
    have hzz : z' = z := by rw [hl0] at hz; simpa using hz
    subst hzz
    have hzp : z' ≠ p := by
      intro h; apply hp; rw [hl0, h]; simp
    obtain ⟨q, hseg, hch⟩ := (chain_append l0 [z'] _).mp (hl0 ▸ hc)
    have hq : q = some z' := hch.1
    subst hq
    rw [hl0] at hnd
    have hdisj := List.disjoint_of_nodup_append hnd
    refine ⟨l ++ [p], ?_, by simp, fun _ => rfl, by simp⟩
    rw [hl0, List.append_assoc]
    refine (chain_append l0 ([z'] ++ [p]) _).mpr ⟨some z', ?_, ⟨rfl, ⟨?_, hnew⟩⟩⟩
    · refine seg_congr l0 _ _ ?_ hseg
      intro a ha
      have haz : a ≠ z' := fun h => hdisj ha (h ▸ List.mem_singleton_self z')
      have hap : a ≠ p := by
        intro h; apply hp; rw [hl0, ← h]; exact List.mem_append_left _ ha
      exact hother a hap haz
    · exact htail hzp

theorem add_task_spec (p : Nat) (s : OS) (l : List Nat) (hl : TaskList s l) :
    ∃ s' l', OS_AddTask p s = some (s', true) ∧ TaskList s' l' ∧ l' ≠ [] ∧
      (p ∉ l → l' = l ++ [p]) ∧ OnlyLinksChanged s s' ∧ l'.length ≤ l.length + 1 := by
  by_cases hnil : l = []
  · -- empty registry
    subst hnil
    have hfirst : s.p_first_task_config = none := hl.1
    refine ⟨({ s with p_first_task_config := some p, p_last_task_config := some p } : OS).store p
      { s.mem p with p_next_task := none }, [p], ?_, ?_, by simp, fun _ => rfl, ?_, by simp⟩
    · simp only [OS_AddTask, hfirst]
    · refine ⟨⟨rfl, ?_⟩, fun _ => rfl⟩
      show (if p = p then _ else _ : OS_task_t).p_next_task = none
      simp
    · refine ⟨fun a => ?_, rfl, rfl, rfl, rfl, rfl⟩
      by_cases ha : a = p
      · subst ha; simp [OS.store]
      · simp [OS.store, ha]
  · -- at least one task; `z` is the tail
    obtain ⟨z, hz⟩ : ∃ z, l.getLast? = some z :=
      ⟨l.getLast hnil, List.getLast?_eq_getLast l hnil⟩
    have hlast : s.p_last_task_config = some z := by rw [hl.2 hnil, hz]
    obtain ⟨a0, hfirst⟩ : ∃ a0, s.p_first_task_config = some a0 := by
      cases l with
      | nil => exact absurd rfl hnil
      | cons a t => exact ⟨a, hl.1.1⟩
    have hrun : OS_AddTask p s = some
        (({ (s.store z { s.mem z with p_next_task := some p }) with
          p_last_task_config := some p } : OS).store p
        { ({ (s.store z { s.mem z with p_next_task := some p }) with
          p_last_task_config := some p } : OS).mem p with p_next_task := none }, true) := by
      simp only [OS_AddTask, hfirst, hlast]
    have hlinks : OnlyLinksChanged s
        (({ (s.store z { s.mem z with p_next_task := some p }) with
          p_last_task_config := some p } : OS).store p
        { ({ (s.store z { s.mem z with p_next_task := some p }) with
          p_last_task_config := some p } : OS).mem p with p_next_task := none }) := by
      refine ⟨fun a => ?_, rfl, rfl, rfl, rfl, rfl⟩
      rw [add_task_mem]
      by_cases ha : a = p
      · subst ha; simp
      · by_cases hz : a = z
        · subst hz; simp [ha]
        · simp [ha, hz]
    obtain ⟨l', hc', hlast', hfresh, hlen'⟩ := link_core s.mem
      (({ (s.store z { s.mem z with p_next_task := some p }) with
          p_last_task_config := some p } : OS).store p
        { ({ (s.store z { s.mem z with p_next_task := some p }) with
          p_last_task_config := some p } : OS).mem p with p_next_task := none }).mem
      s.p_first_task_config l p z hl.1 hz
      (fun x hxp hxz => by rw [add_task_mem]; simp [hxp, hxz])
      (fun hzp => by rw [add_task_mem]; simp [hzp])
      (by rw [add_task_mem]; simp)
    have hne' : l' ≠ [] := by
      intro h; rw [h] at hlast'; simp at hlast'
    exact ⟨_, l', hrun, ⟨hc', fun _ => hlast'.symm⟩, hne', hfresh, hlinks, hlen'⟩

theorem create_task_eq (p per cb : Nat) (sl wk : Option Nat) (s : OS) :
    OS_CreateTask p per cb sl wk s =
      OS_AddTask p (({ s with mutex := false } : OS).store p ⟨cb, sl, wk, none, per, s.ms_counter⟩) := by
  have hcongr : ∀ a b : OS, a = b → OS_AddTask p a = OS_AddTask p b := fun _ _ h => by rw [h]
  unfold OS_CreateTask OS_Get
  apply hcongr
  simp only [OS.store, OS.mk.injEq, and_true]
  funext x
  by_cases hx : x = p
  · subst hx; simp
  · simp [hx]

theorem create_task_spec (p per cb : Nat) (sl wk : Option Nat) (s : OS) (l : List Nat)
    (hl : TaskList s l) :
    ∃ s' l', OS_CreateTask p per cb sl wk s = some (s', true) ∧ TaskList s' l' ∧ l' ≠ [] ∧
      (p ∉ l → l' = l ++ [p]) ∧
      s'.mem p = ⟨cb, sl, wk, none, per, s.ms_counter⟩ ∧
      (∀ a, a ≠ p → (s'.mem a).callback = (s.mem a).callback ∧
        (s'.mem a).enter_sleep = (s.mem a).enter_sleep ∧
        (s'.mem a).exit_sleep = (s.mem a).exit_sleep ∧
        (s'.mem a).period = (s.mem a).period ∧
        (s'.mem a).prev_timestamp = (s.mem a).prev_timestamp) ∧
      s'.is_os_active = s.is_os_active ∧ s'.is_sleep_active = s.is_sleep_active ∧
      s'.isr_counter = s.isr_counter ∧ s'.ms_counter = s.ms_counter ∧ s'.mutex = false ∧
      l'.length ≤ l.length + 1 := by
  rw [create_task_eq]
  generalize hs6 : (({ s with mutex := false } : OS).store p ⟨cb, sl, wk, none, per, s.ms_counter⟩) = s6
  have hm6 : ∀ x, s6.mem x = if x = p then ⟨cb, sl, wk, none, per, s.ms_counter⟩ else s.mem x := by
    intro x; rw [← hs6]; rfl
  have hf6 : s6.p_first_task_config = s.p_first_task_config := by rw [← hs6]; rfl
  have hl6 : s6.p_last_task_config = s.p_last_task_config := by rw [← hs6]; rfl
  have hrest : s6.is_os_active = s.is_os_active ∧ s6.is_sleep_active = s.is_sleep_active ∧
      s6.isr_counter = s.isr_counter ∧ s6.ms_counter = s.ms_counter ∧ s6.mutex = false := by
    rw [← hs6]; exact ⟨rfl, rfl, rfl, rfl, rfl⟩
  by_cases hnil : l = []
  · subst hnil
    have hfirst : s6.p_first_task_config = none := by rw [hf6]; exact hl.1
    refine ⟨({ s6 with p_first_task_config := some p, p_last_task_config := some p } : OS).store p
      { s6.mem p with p_next_task := none }, [p], ?_, ?_, by simp, fun _ => rfl, ?_, ?_,
      hrest.1, hrest.2.1, hrest.2.2.1, hrest.2.2.2.1, hrest.2.2.2.2, by simp⟩
    · simp only [OS_AddTask, hfirst]
    · refine ⟨⟨rfl, ?_⟩, fun _ => rfl⟩
      show (if p = p then _ else _ : OS_task_t).p_next_task = none
      simp
    · simp [OS.store, hm6]
    · intro a ha
      simp [OS.store, ha, hm6]
  · obtain ⟨z, hz⟩ : ∃ z, l.getLast? = some z :=
      ⟨l.getLast hnil, List.getLast?_eq_getLast l hnil⟩
    have hlast : s6.p_last_task_config = some z := by rw [hl6, hl.2 hnil, hz]
    obtain ⟨a0, hfirst⟩ : ∃ a0, s6.p_first_task_config = some a0 := by
      rw [hf6]
      cases l with
      | nil => exact absurd rfl hnil
      | cons a t => exact ⟨a, hl.1.1⟩
    have hrun : OS_AddTask p s6 = some
        (({ (s6.store z { s6.mem z with p_next_task := some p }) with
          p_last_task_config := some p } : OS).store p
        { ({ (s6.store z { s6.mem z with p_next_task := some p }) with
          p_last_task_config := some p } : OS).mem p with p_next_task := none }, true) := by
      simp only [OS_AddTask, hfirst, hlast]
    obtain ⟨l', hc', hlast', hfresh, hlen'⟩ := link_core s.mem
      (({ (s6.store z { s6.mem z with p_next_task := some p }) with
          p_last_task_config := some p } : OS).store p
        { ({ (s6.store z { s6.mem z with p_next_task := some p }) with
          p_last_task_config := some p } : OS).mem p with p_next_task := none }).mem
      s.p_first_task_config l p z hl.1 hz
      (fun x hxp hxz => by rw [add_task_mem]; simp [hxp, hxz, hm6])
      (fun hzp => by rw [add_task_mem]; simp [hzp])
      (by rw [add_task_mem]; simp)
    have hne' : l' ≠ [] := by
      intro h; rw [h] at hlast'; simp at hlast'
    refine ⟨_, l', hrun, ⟨?_, fun _ => hlast'.symm⟩, hne', hfresh, ?_, ?_,
      hrest.1, hrest.2.1, hrest.2.2.1, hrest.2.2.2.1, hrest.2.2.2.2, hlen'⟩
    · exact hf6 ▸ hc'
    · rw [add_task_mem]; simp [hm6]
    · intro a ha
      rw [add_task_mem]
      by_cases haz : a = z
      · subst haz; simp [ha, hm6]
      · simp [ha, haz, hm6]

theorem register_spec (c : RegCall) (s : OS) (l : List Nat) (hl : TaskList s l) :
    ∃ s' l', register c s = some (s', true) ∧ TaskList s' l' ∧
      (c.record ∉ l → l' = l ++ [c.record]) ∧
      (∀ a, a ≠ c.record → (s'.mem a).period = (s.mem a).period) ∧
      l'.length ≤ l.length + 1 := by
  cases c with
  | add p =>
    obtain ⟨s', l', h1, h2, _, h4, h5, h6⟩ := add_task_spec p s l hl
    exact ⟨s', l', h1, h2, h4, fun a _ => (h5.1 a).2.2.2.1, h6⟩
  | create p per cb sl wk =>
    obtain ⟨s', l', h1, h2, _, h4, _, h6, _, _, _, _, _, h7⟩ :=
      create_task_spec p per cb sl wk s l hl
    exact ⟨s', l', h1, h2, h4, fun a ha => (h6 a ha).2.2.2.1, h7⟩

theorem add_task_true (p : Nat) (s : OS) (r : OS × Bool) (h : OS_AddTask p s = some r) :
    r.2 = true := by
  unfold OS_AddTask at h
  cases hf : s.p_first_task_config with
  | none =>
    simp only [hf, Option.some.injEq] at h
    rw [← h]
  | some a =>
    cases hl : s.p_last_task_config with
    | none =>
      simp only [hf, hl] at h
      exact absurd h (by simp)
    | some z =>
      simp only [hf, hl, Option.some.injEq] at h
      rw [← h]

/-! ## Passes under a simulated clock -/

theorem pass_spec (cb : Callbacks) (fuel : Nat) (hreg : KeepsRegistry cb) (hclk : KeepsClock cb)
    (s : OS) (l : List Nat) (hc : Chain s.mem s.p_first_task_config l) (hfuel : l.length ≤ fuel) :
    ∃ s', OS_LaunchDaemon_pass cb fuel s =
        some (s', ((l.filter fun a => due s.ms_counter (s.mem a)).map
          fun a => Event.callback a (s.mem a).callback s.ms_counter) ++
          if s'.is_sleep_active then [Event.CySysPmDeepSleep] else []) ∧
      (∀ a, s'.mem a =
        if a ∈ l ∧ due s.ms_counter (s.mem a) = true then
          { s.mem a with prev_timestamp := s.ms_counter }
        else s.mem a) ∧
      s'.p_first_task_config = s.p_first_task_config ∧ s'.ms_counter = s.ms_counter ∧
      s'.isr_counter = s.isr_counter ∧ s'.mutex = false := by
  obtain ⟨s', hrun, hmem⟩ := dispatch_loop_chain cb s.ms_counter hreg l fuel
    s.p_first_task_config (OS_Get s).2 hc hfuel
  have hrun' : dispatch_loop cb (OS_Get s).1 fuel (OS_Get s).2.p_first_task_config (OS_Get s).2 =
      some (s', (l.filter fun a => due s.ms_counter (s.mem a)).map
        fun a => Event.callback a (s.mem a).callback s.ms_counter) := hrun
  refine ⟨s', ?_, hmem, ?_, ?_, ?_, ?_⟩
  · unfold OS_LaunchDaemon_pass
    simp only [hrun']
    by_cases hsl : s'.is_sleep_active = true
    · rw [if_pos hsl, if_pos hsl]
    · rw [if_neg hsl, if_neg hsl, List.append_nil]
  · exact dispatch_loop_frame (fun s => s.p_first_task_config) cb _
      (fun f s => (hreg f _ s).2.1) (fun _ _ _ => rfl) fuel _ (OS_Get s).2 _ _ hrun'
  · exact dispatch_loop_frame (fun s => s.ms_counter) cb _
      (fun f s => (hclk f _ s).1) (fun _ _ _ => rfl) fuel _ (OS_Get s).2 _ _ hrun'
  · exact dispatch_loop_frame (fun s => s.isr_counter) cb _
      (fun f s => (hclk f _ s).2.1) (fun _ _ _ => rfl) fuel _ (OS_Get s).2 _ _ hrun'
  · exact dispatch_loop_frame (fun s => s.mutex) cb _
      (fun f s => (hclk f _ s).2.2) (fun _ _ _ => rfl) fuel _ (OS_Get s).2 _ _ hrun'

theorem calls_of_append (a : Nat) (t u : List Event) :
    calls_of a (t ++ u) = calls_of a t + calls_of a u := by
  simp [calls_of, List.countP_append]

theorem calls_of_pass (l : List Nat) (m : Nat → OS_task_t) (now p : Nat) (b : Bool)
    (hnd : l.Nodup) (hp : p ∈ l) :
    calls_of p (((l.filter fun a => due now (m a)).map
        fun a => Event.callback a (m a).callback now) ++
        if b then [Event.CySysPmDeepSleep] else []) =
      if due now (m p) = true then 1 else 0 := by
  rw [calls_of_append, calls_of_map]
  have h0 : calls_of p (if b then [Event.CySysPmDeepSleep] else []) = 0 := by
    cases b <;> rfl
  rw [h0, Nat.add_zero]
  by_cases hd : due now (m p) = true
  · rw [if_pos hd]
    exact List.count_eq_one_of_mem (hnd.filter _) (List.mem_filter.mpr ⟨hp, hd⟩)
  · rw [if_neg hd]
    exact List.count_eq_zero_of_not_mem (fun h => hd (List.mem_filter.mp h).2)

theorem due_iff_period_elapsed (P t0 n d : Nat) (hP1 : 1 ≤ P) (hP2 : P < 65536)
    (hdP : d ≤ P) (hdn : d ≤ n) (hdvd : P ∣ n - d) (hd1 : 1 ≤ n → 1 ≤ d) :
    (P ≤ ts_sub ((t0 + n) % 65536) ((t0 + (n - d)) % 65536)) ↔ (0 < n ∧ P ∣ n) := by
  have hts : ts_sub ((t0 + n) % 65536) ((t0 + (n - d)) % 65536) = d := by
    unfold ts_sub to_timestamp; omega
  rw [hts]
  constructor
  · intro h
    have hd : d = P := le_antisymm hdP h
    refine ⟨by omega, ?_⟩
    have hn : n = (n - d) + d := by omega
    rw [hn]
    exact Nat.dvd_add hdvd (hd ▸ dvd_refl d)
  · rintro ⟨hn, hPn⟩
    have hdd : P ∣ d := by
      have := Nat.dvd_sub' hPn hdvd
      have he : n - (n - d) = d := by omega
      rwa [he] at this
    exact Nat.le_of_dvd (hd1 hn) hdd

theorem simulated_clock_invariant (cb : Callbacks) (fuel : Nat) (hreg : KeepsRegistry cb)
    (hclk : KeepsClock cb) (l : List Nat) (p P t0 : Nat) (hP1 : 1 ≤ P) (hP2 : P < 65536)
    (hfuel : l.length ≤ fuel) (s : OS) (hc : Chain s.mem s.p_first_task_config l) (hp : p ∈ l)
    (hper : (s.mem p).period = P) (hprev : (s.mem p).prev_timestamp = t0)
    (hms : s.ms_counter = t0) (ht0 : t0 < 65536) (hisr : s.isr_counter = 0) :
    ∀ n, ∃ sn d, simulated_clock cb fuel n s = some sn ∧
      Chain sn.mem sn.p_first_task_config l ∧ (sn.mem p).period = P ∧
      sn.isr_counter = 0 ∧ sn.ms_counter = (t0 + n) % 65536 ∧
      d ≤ P ∧ d ≤ n ∧ P ∣ n - d ∧ (1 ≤ n → 1 ≤ d) ∧
      (sn.mem p).prev_timestamp = (t0 + (n - d)) % 65536
  | 0 => ⟨s, 0, rfl, hc, hper, hisr, by rw [hms]; omega, by omega, le_refl 0, by simp,
      by omega, by rw [hprev]; omega⟩
  | n + 1 => by
    obtain ⟨sn, d, hsim, hcn, hpern, hisrn, hmsn, hdP, hdn, hdvd, hd1, hprevn⟩ :=
      simulated_clock_invariant cb fuel hreg hclk l p P t0 hP1 hP2 hfuel s hc hp hper hprev
        hms ht0 hisr n
    obtain ⟨s', hpass, hmem, hfirst, hms', hisr', hmutex⟩ :=
      pass_spec cb fuel hreg hclk sn l hcn hfuel
    have hdue : due sn.ms_counter (sn.mem p) = true ↔ (0 < n ∧ P ∣ n) := by
      simp only [due, decide_eq_true_eq, hpern, hmsn, hprevn]
      exact due_iff_period_elapsed P t0 n d hP1 hP2 hdP hdn hdvd hd1
    have hchain' : Chain s'.mem s'.p_first_task_config l := by
      rw [hfirst]
      refine chain_congr l _ ?_ hcn
      intro a _
      rw [hmem a]
      split <;> rfl
    have hper' : (s'.mem p).period = P := by
      rw [hmem p]
      split <;> exact hpern
    have htick : OS_Wdt0Isr s' =
        { s' with ms_counter := (s'.ms_counter + (s'.isr_counter + 1) % 65536) % 65536,
                  isr_counter := 0 } := by
      simp [OS_Wdt0Isr, hmutex]
    have hrun : simulated_clock cb fuel (n + 1) s = some (OS_Wdt0Isr s') := by
      simp only [simulated_clock, hsim, hpass]
    rw [htick] at hrun
    by_cases hfire : 0 < n ∧ P ∣ n
    · -- the task fires on pass `n`; one tick later the elapsed time is `1`
      refine ⟨_, 1, hrun, hchain', hper', rfl, ?_, hP1, by omega, ?_, fun _ => le_refl 1, ?_⟩
      · show (s'.ms_counter + (s'.isr_counter + 1) % 65536) % 65536 = _
        rw [hms', hisr', hisrn, hmsn]; omega
      · simpa using hfire.2
      · show (s'.mem p).prev_timestamp = _
        rw [hmem p, if_pos ⟨hp, hdue.mpr hfire⟩]
        show sn.ms_counter = _
        rw [hmsn]; simp
    · -- no call on pass `n`; the elapsed time grows by one tick
      have hnd : ¬ due sn.ms_counter (sn.mem p) = true := fun h => hfire (hdue.mp h)
      have hdlt : d < P ∨ n = 0 := by
        by_contra hcon
        push_neg at hcon
        have hd : d = P := le_antisymm hdP hcon.1
        apply hfire
        refine ⟨by omega, ?_⟩
        have hn : n = (n - d) + d := by omega
        rw [hn]
        exact Nat.dvd_add hdvd (hd ▸ dvd_refl d)
      refine ⟨_, d + 1, hrun, hchain', hper', rfl, ?_, ?_, by omega, ?_, fun _ => by omega, ?_⟩
      · show (s'.ms_counter + (s'.isr_counter + 1) % 65536) % 65536 = _
        rw [hms', hisr', hisrn, hmsn]; omega
      · rcases hdlt with h | h
        · omega
        · have : d = 0 := by omega
          omega
      · have : n + 1 - (d + 1) = n - d := by omega
        rw [this]; exact hdvd
      · show (s'.mem p).prev_timestamp = _
        rw [hmem p, if_neg (fun h => hnd h.2), hprevn]
        have : n + 1 - (d + 1) = n - d := by omega
        rw [this]

/-! ## Clock -/

theorem clock_step_sum (st : ClockStep) (c : OS × Nat) :
    ((clock_step st c).1.ms_counter + (clock_step st c).1.isr_counter) % 65536 =
      (c.1.ms_counter + c.1.isr_counter + if st = ClockStep.tick then 1 else 0) % 65536 := by
  obtain ⟨s, r⟩ := c
  cases st with
  | tick =>
    by_cases hm : s.mutex = true
    · simp only [clock_step, OS_Wdt0Isr, hm]
      simp only [Bool.not_true, Bool.false_eq_true, if_false, if_true]
      omega
    · simp only [clock_step, OS_Wdt0Isr, Bool.not_eq_true] at hm ⊢
      simp only [hm, Bool.not_false, if_true]
      omega
  | set_mutex => simp [clock_step]
  | read_counter => simp [clock_step]
  | clear_mutex => simp [clock_step]

theorem clock_run_sum :
    ∀ (sched : List ClockStep) (c : OS × Nat),
      ((clock_run sched c).1.ms_counter + (clock_run sched c).1.isr_counter) % 65536 =
        (c.1.ms_counter + c.1.isr_counter + ticks_in sched) % 65536
  | [], c => by simp [clock_run, ticks_in]
  | st :: sched, c => by
    have ih := clock_run_sum sched (clock_step st c)
    have hstep := clock_step_sum st c
    have hrun : clock_run (st :: sched) c = clock_run sched (clock_step st c) := rfl
    rw [hrun, ih]
    by_cases hst : st = ClockStep.tick
    · subst hst
      simp only [if_true] at hstep
      have : ticks_in (ClockStep.tick :: sched) = ticks_in sched + 1 := by
        simp [ticks_in]
      rw [this]; omega
    · simp only [if_neg hst] at hstep
      have : ticks_in (st :: sched) = ticks_in sched := by
        simp only [ticks_in]
        exact List.count_cons_of_ne (fun h => hst h.symm) sched
      rw [this]; omega

theorem clock_run_append (a b : List ClockStep) (c : OS × Nat) :
    clock_run (a ++ b) c = clock_run b (clock_run a c) := by
  simp [clock_run, List.foldl_append]

theorem tick_merges (s : OS) (hm : s.mutex = false) :
    (OS_Wdt0Isr s).ms_counter = (s.ms_counter + (s.isr_counter + 1) % 65536) % 65536 ∧
    (OS_Wdt0Isr s).isr_counter = 0 := by
  simp [OS_Wdt0Isr, hm]

theorem tick_defers (s : OS) (hm : s.mutex = true) :
    (OS_Wdt0Isr s).ms_counter = s.ms_counter ∧
    (OS_Wdt0Isr s).isr_counter = (s.isr_counter + 1) % 65536 := by
  simp [OS_Wdt0Isr, hm]

theorem tick_frame (s : OS) :
    (OS_Wdt0Isr s).mutex = s.mutex ∧ (OS_Wdt0Isr s).mem = s.mem ∧
    (OS_Wdt0Isr s).p_first_task_config = s.p_first_task_config ∧
    (OS_Wdt0Isr s).p_last_task_config = s.p_last_task_config ∧
    (OS_Wdt0Isr s).is_os_active = s.is_os_active ∧
    (OS_Wdt0Isr s).is_sleep_active = s.is_sleep_active := by
  unfold OS_Wdt0Isr
  by_cases hm : s.mutex = true
  · simp [hm]
  · simp only [Bool.not_eq_true] at hm
    simp [hm]

/-! ## Power transitions -/

theorem enter_sleep_loop_frame {β : Type} (g : OS → β) (cb : Callbacks)
    (hcb : ∀ f s, g (cb.sleep_wake f s) = g s) :
    ∀ (fuel : Nat) (p : Option Nat) (s s' : OS) (tr : List Event),
      enter_sleep_loop cb fuel p s = some (s', tr) → g s' = g s
  | _, none, s, s', tr, h => by
    rw [enter_sleep_loop] at h
    simp only [Option.some.injEq, Prod.mk.injEq] at h
    rw [← h.1]
  | 0, some a, s, s', tr, h => by
    rw [enter_sleep_loop] at h
    exact absurd h (by simp)
  | fuel + 1, some a, s, s', tr, h => by
    rw [enter_sleep_loop] at h
    split at h
    · rename_i f hf
      dsimp only at h
      split at h
      · exact absurd h (by simp)
      · rename_i s2 tr2 heq
        simp only [Option.some.injEq, Prod.mk.injEq] at h
        rw [← h.1, enter_sleep_loop_frame g cb hcb fuel _ _ _ _ heq, hcb]
    · exact enter_sleep_loop_frame g cb hcb fuel _ _ _ _ h

theorem exit_sleep_loop_frame {β : Type} (g : OS → β) (cb : Callbacks)
    (hcb : ∀ f s, g (cb.sleep_wake f s) = g s) :
    ∀ (fuel : Nat) (p : Option Nat) (s s' : OS) (tr : List Event),
      exit_sleep_loop cb fuel p s = some (s', tr) → g s' = g s
  | _, none, s, s', tr, h => by
    rw [exit_sleep_loop] at h
    simp only [Option.some.injEq, Prod.mk.injEq] at h
    rw [← h.1]
  | 0, some a, s, s', tr, h => by
    rw [exit_sleep_loop] at h
    exact absurd h (by simp)
  | fuel + 1, some a, s, s', tr, h => by
    rw [exit_sleep_loop] at h
    split at h
    · rename_i f hf
      dsimp only at h
      split at h
      · exact absurd h (by simp)
      · rename_i s2 tr2 heq
        simp only [Option.some.injEq, Prod.mk.injEq] at h
        rw [← h.1, exit_sleep_loop_frame g cb hcb fuel _ _ _ _ heq, hcb]
    · exact exit_sleep_loop_frame g cb hcb fuel _ _ _ _ h

theorem enter_sleep_loop_chain (cb : Callbacks) (hcb : SleepWakeKeepsRegistry cb) :
    ∀ (l : List Nat) (fuel : Nat) (p : Option Nat) (s : OS),
      Chain s.mem p l → l.length ≤ fuel →
      ∃ s', enter_sleep_loop cb fuel p s =
          some (s', l.filterMap fun a => (s.mem a).enter_sleep.map (Event.enter_sleep a)) ∧
        s'.mem = s.mem
  | [], fuel, p, s, hc, _ => by
    have hp : p = none := hc
    subst hp
    exact ⟨s, by cases fuel <;> simp [enter_sleep_loop], rfl⟩
  | b :: l, 0, p, s, _, hf => by simp at hf
  | b :: l, fuel + 1, p, s, hc, hf => by
    have hp : p = some b := hc.1
    subst hp
    have hlen : l.length ≤ fuel := by simpa using hf
    cases hes : (s.mem b).enter_sleep with
    | none =>
      obtain ⟨s', hrun, hmem⟩ := enter_sleep_loop_chain cb hcb l fuel _ s hc.2 hlen
      refine ⟨s', ?_, hmem⟩
      rw [enter_sleep_loop]
      simp only [hes, hrun, List.filterMap_cons, Option.map_none']
    | some f =>
      have hm : (cb.sleep_wake f s).mem = s.mem := (hcb f s).1
      have hc2 : Chain (cb.sleep_wake f s).mem ((cb.sleep_wake f s).mem b).p_next_task l := by
        rw [hm]; exact hc.2
      obtain ⟨s', hrun, hmem⟩ := enter_sleep_loop_chain cb hcb l fuel _ _ hc2 hlen
      rw [hm] at hrun
      refine ⟨s', ?_, hmem.trans hm⟩
      rw [enter_sleep_loop]
      simp only [hes, hrun, List.filterMap_cons, Option.map_some', hm]

theorem exit_sleep_loop_chain (cb : Callbacks) (hcb : SleepWakeKeepsRegistry cb) :
    ∀ (l : List Nat) (fuel : Nat) (p : Option Nat) (s : OS),
      Chain s.mem p l → l.length ≤ fuel →
      ∃ s', exit_sleep_loop cb fuel p s =
          some (s', l.filterMap fun a => (s.mem a).exit_sleep.map (Event.exit_sleep a)) ∧
        s'.mem = s.mem
  | [], fuel, p, s, hc, _ => by
    have hp : p = none := hc
    subst hp
    exact ⟨s, by cases fuel <;> simp [exit_sleep_loop], rfl⟩
  | b :: l, 0, p, s, _, hf => by simp at hf
  | b :: l, fuel + 1, p, s, hc, hf => by
    have hp : p = some b := hc.1
    subst hp
    have hlen : l.length ≤ fuel := by simpa using hf
    cases hes : (s.mem b).exit_sleep with
    | none =>
      obtain ⟨s', hrun, hmem⟩ := exit_sleep_loop_chain cb hcb l fuel _ s hc.2 hlen
      refine ⟨s', ?_, hmem⟩
      rw [exit_sleep_loop]
      simp only [hes, hrun, List.filterMap_cons, Option.map_none']
    | some f =>
      have hm : (cb.sleep_wake f s).mem = s.mem := (hcb f s).1
      have hc2 : Chain (cb.sleep_wake f s).mem ((cb.sleep_wake f s).mem b).p_next_task l := by
        rw [hm]; exact hc.2
      obtain ⟨s', hrun, hmem⟩ := exit_sleep_loop_chain cb hcb l fuel _ _ hc2 hlen
      rw [hm] at hrun
      refine ⟨s', ?_, hmem.trans hm⟩
      rw [exit_sleep_loop]
      simp only [hes, hrun, List.filterMap_cons, Option.map_some', hm]

theorem calls_of_enter_sleep (a : Nat) (g : Nat → Option Nat) (l : List Nat) :
    calls_of a (l.filterMap fun b => (g b).map (Event.enter_sleep b)) = 0 := by
  induction l with
  | nil => rfl
  | cons x l ih =>
    have ih' : List.countP _ _ = 0 := ih
    cases hg : g x <;> simp [calls_of, List.filterMap_cons, hg, ih', List.countP_cons]

theorem calls_of_exit_sleep (a : Nat) (g : Nat → Option Nat) (l : List Nat) :
    calls_of a (l.filterMap fun b => (g b).map (Event.exit_sleep b)) = 0 := by
  induction l with
  | nil => rfl
  | cons x l ih =>
    have ih' : List.countP _ _ = 0 := ih
    cases hg : g x <;> simp [calls_of, List.filterMap_cons, hg, ih', List.countP_cons]

theorem enter_low_power_spec (cb : Callbacks) (s : OS) (l : List Nat) (fuel : Nat)
    (hcb : SleepWakeKeepsRegistry cb) (hl : Chain s.mem s.p_first_task_config l)
    (hfuel : l.length ≤ fuel) (hs : s.is_sleep_active = false) :
    ∃ s', OS_EnterLowPower cb fuel s = some (s', wdt_reprogram ++
        (l.filterMap fun a => (s.mem a).enter_sleep.map (Event.enter_sleep a)) ++
        [Event.CyExitCriticalSection]) ∧
      s'.is_sleep_active = true ∧ s'.mem = s.mem := by
  obtain ⟨s1, hrun, hmem⟩ := enter_sleep_loop_chain cb hcb l fuel _ s hl hfuel
  refine ⟨{ s1 with is_sleep_active := true }, ?_, rfl, hmem⟩
  simp only [OS_EnterLowPower, hs, hrun, Bool.not_false, if_true]

theorem exit_low_power_spec (cb : Callbacks) (s : OS) (l : List Nat) (fuel : Nat)
    (hcb : SleepWakeKeepsRegistry cb) (hflag : KeepsSleepFlag cb)
    (hl : Chain s.mem s.p_first_task_config l)
    (hfuel : l.length ≤ fuel) (hs : s.is_sleep_active = true) :
    ∃ s', OS_ExitLowPower cb fuel s = some (s', wdt_reprogram ++
        (l.filterMap fun a => (s.mem a).exit_sleep.map (Event.exit_sleep a)) ++
        [Event.CyExitCriticalSection]) ∧
      s'.is_sleep_active = false ∧ s'.mem = s.mem := by
  obtain ⟨s1, hrun, hmem⟩ := exit_sleep_loop_chain cb hcb l fuel s.p_first_task_config
    { s with is_sleep_active := false } hl hfuel
  have hfl : s1.is_sleep_active = false :=
    exit_sleep_loop_frame (fun s => s.is_sleep_active) cb hflag fuel _ _ _ _ hrun
  refine ⟨s1, ?_, hfl, hmem⟩
  have hrun' : exit_sleep_loop cb fuel
      ({ s with is_sleep_active := false } : OS).p_first_task_config
      { s with is_sleep_active := false } = _ := hrun
  simp only [OS_ExitLowPower, hs, hrun', if_true]

/-! ## Operation sequences -/

theorem pass_keeps_task_list (cb : Callbacks) (fuel : Nat) (hreg : KeepsRegistry cb)
    (s : OS) (l : List Nat) (hl : TaskList s l) (hfuel : l.length ≤ fuel) :
    ∃ s' tr, OS_LaunchDaemon_pass cb fuel s = some (s', tr) ∧ TaskList s' l ∧
      ∀ a, (s'.mem a).period = (s.mem a).period := by
  obtain ⟨s', hrun, hmem⟩ := dispatch_loop_chain cb s.ms_counter hreg l fuel
    s.p_first_task_config (OS_Get s).2 hl.1 hfuel
  have hrun' : dispatch_loop cb (OS_Get s).1 fuel (OS_Get s).2.p_first_task_config (OS_Get s).2 =
      some (s', (l.filter fun a => due s.ms_counter (s.mem a)).map
        fun a => Event.callback a (s.mem a).callback s.ms_counter) := hrun
  have hfirst : s'.p_first_task_config = s.p_first_task_config :=
    dispatch_loop_frame (fun s => s.p_first_task_config) cb _
      (fun f s => (hreg f _ s).2.1) (fun _ _ _ => rfl) fuel _ (OS_Get s).2 _ _ hrun'
  have hlast : s'.p_last_task_config = s.p_last_task_config :=
    dispatch_loop_frame (fun s => s.p_last_task_config) cb _
      (fun f s => (hreg f _ s).2.2) (fun _ _ _ => rfl) fuel _ (OS_Get s).2 _ _ hrun'
  have hper : ∀ a, (s'.mem a).period = (s.mem a).period := by
    intro a
    rw [hmem a]
    split <;> rfl
  have hchain : Chain s'.mem s'.p_first_task_config l := by
    rw [hfirst]
    refine chain_congr l _ ?_ hl.1
    intro a _
    rw [hmem a]
    split <;> rfl
  refine ⟨s', ((l.filter fun a => due s.ms_counter (s.mem a)).map
      fun a => Event.callback a (s.mem a).callback s.ms_counter) ++
      (if s'.is_sleep_active then [Event.CySysPmDeepSleep] else []), ?_,
    ⟨hchain, fun h => by rw [hlast]; exact hl.2 h⟩, hper⟩
  unfold OS_LaunchDaemon_pass
  simp only [hrun']
  by_cases hsl : s'.is_sleep_active = true
  · rw [if_pos hsl, if_pos hsl]
  · rw [if_neg hsl, if_neg hsl, List.append_nil]

theorem enter_keeps_task_list (cb : Callbacks) (fuel : Nat) (hsw : SleepWakeKeepsRegistry cb)
    (s : OS) (l : List Nat) (hl : TaskList s l) (hfuel : l.length ≤ fuel) :
    ∃ s' tr, OS_EnterLowPower cb fuel s = some (s', tr) ∧ TaskList s' l ∧ s'.mem = s.mem := by
  by_cases hs : s.is_sleep_active = true
  · exact ⟨s, [], by simp [OS_EnterLowPower, hs], hl, rfl⟩
  · simp only [Bool.not_eq_true] at hs
    obtain ⟨s1, hrun, hmem⟩ := enter_sleep_loop_chain cb hsw l fuel _ s hl.1 hfuel
    have hfirst : s1.p_first_task_config = s.p_first_task_config :=
      enter_sleep_loop_frame (fun s => s.p_first_task_config) cb (fun f s => (hsw f s).2.1)
        fuel _ _ _ _ hrun
    have hlast : s1.p_last_task_config = s.p_last_task_config :=
      enter_sleep_loop_frame (fun s => s.p_last_task_config) cb (fun f s => (hsw f s).2.2)
        fuel _ _ _ _ hrun
    refine ⟨{ s1 with is_sleep_active := true }, wdt_reprogram ++
        (l.filterMap fun a => (s.mem a).enter_sleep.map (Event.enter_sleep a)) ++
        [Event.CyExitCriticalSection], ?_, ⟨?_, fun h => ?_⟩, hmem⟩
    · simp only [OS_EnterLowPower, hs, hrun, Bool.not_false, if_true]
    · show Chain s1.mem s1.p_first_task_config l
      rw [hmem, hfirst]; exact hl.1
    · show s1.p_last_task_config = _
      rw [hlast]; exact hl.2 h

theorem exit_keeps_task_list (cb : Callbacks) (fuel : Nat) (hsw : SleepWakeKeepsRegistry cb)
    (s : OS) (l : List Nat) (hl : TaskList s l) (hfuel : l.length ≤ fuel) :
    ∃ s' tr, OS_ExitLowPower cb fuel s = some (s', tr) ∧ TaskList s' l ∧ s'.mem = s.mem := by
  by_cases hs : s.is_sleep_active = true
  · obtain ⟨s1, hrun, hmem⟩ := exit_sleep_loop_chain cb hsw l fuel s.p_first_task_config
      { s with is_sleep_active := false } hl.1 hfuel
    have hrun' : exit_sleep_loop cb fuel
        ({ s with is_sleep_active := false } : OS).p_first_task_config
        { s with is_sleep_active := false } = _ := hrun
    have hfirst : s1.p_first_task_config = s.p_first_task_config :=
      exit_sleep_loop_frame (fun s => s.p_first_task_config) cb (fun f s => (hsw f s).2.1)
        fuel _ ({ s with is_sleep_active := false } : OS) _ _ hrun
    have hlast : s1.p_last_task_config = s.p_last_task_config :=
      exit_sleep_loop_frame (fun s => s.p_last_task_config) cb (fun f s => (hsw f s).2.2)
        fuel _ ({ s with is_sleep_active := false } : OS) _ _ hrun
    have hmem' : s1.mem = s.mem := hmem
    refine ⟨s1, wdt_reprogram ++
        (l.filterMap fun a => (s.mem a).exit_sleep.map (Event.exit_sleep a)) ++
        [Event.CyExitCriticalSection], ?_, ⟨?_, fun h => ?_⟩, hmem'⟩
    · simp only [OS_ExitLowPower, hs, hrun', if_true]
    · rw [hmem', hfirst]; exact hl.1
    · rw [hlast]; exact hl.2 h
  · simp only [Bool.not_eq_true] at hs
    exact ⟨s, [], by simp [OS_ExitLowPower, hs], hl, rfl⟩

theorem run_op_spec (cb : Callbacks) (fuel : Nat) (hreg : KeepsRegistry cb)
    (hsw : SleepWakeKeepsRegistry cb) (o : Op) (s : OS) (l : List Nat) (hl : TaskList s l)
    (hfuel : l.length ≤ fuel) :
    ∃ s' l', run_op cb fuel o s = some s' ∧ TaskList s' l' ∧ l'.length ≤ l.length + 1 ∧
      (∀ r, o.record = some r → r ∉ l → l' = l ++ [r]) ∧ (o.record = none → l' = l) ∧
      (∀ a, o.record ≠ some a → (s'.mem a).period = (s.mem a).period) := by
  cases o with
  | register c =>
    obtain ⟨s', l', h1, h2, h3, h4, h5⟩ := register_spec c s l hl
    refine ⟨s', l', by simp [run_op, h1], h2, h5, ?_, ?_, ?_⟩
    · intro r hr hrl
      simp only [Op.record, Option.some.injEq] at hr
      subst hr
      exact h3 hrl
    · intro h; simp [Op.record] at h
    · intro a ha
      exact h4 a (fun h => ha (by simp [Op.record, h]))
  | pass =>
    obtain ⟨s', tr, h1, h2, h3⟩ := pass_keeps_task_list cb fuel hreg s l hl hfuel
    exact ⟨s', l, by simp [run_op, h1], h2, by omega, fun r hr => by simp [Op.record] at hr,
      fun _ => rfl, fun a _ => h3 a⟩
  | enter_low_power =>
    obtain ⟨s', tr, h1, h2, h3⟩ := enter_keeps_task_list cb fuel hsw s l hl hfuel
    exact ⟨s', l, by simp [run_op, h1], h2, by omega, fun r hr => by simp [Op.record] at hr,
      fun _ => rfl, fun a _ => by rw [h3]⟩
  | exit_low_power =>
    obtain ⟨s', tr, h1, h2, h3⟩ := exit_keeps_task_list cb fuel hsw s l hl hfuel
    exact ⟨s', l, by simp [run_op, h1], h2, by omega, fun r hr => by simp [Op.record] at hr,
      fun _ => rfl, fun a _ => by rw [h3]⟩
  | tick =>
    obtain ⟨_, h2, h3, h4, _⟩ := tick_frame s
    refine ⟨OS_Wdt0Isr s, l, rfl, ⟨?_, fun h => ?_⟩, by omega,
      fun r hr => by simp [Op.record] at hr, fun _ => rfl, fun a _ => by rw [h2]⟩
    · rw [h2, h3]; exact hl.1
    · rw [h4]; exact hl.2 h
  | stop =>
    exact ⟨OS_Stop s, l, rfl, hl, by omega, fun r hr => by simp [Op.record] at hr,
      fun _ => rfl, fun a _ => rfl⟩

theorem run_ops_spec (cb : Callbacks) (fuel : Nat) (hreg : KeepsRegistry cb)
    (hsw : SleepWakeKeepsRegistry cb) :
    ∀ (ops : List Op) (s : OS) (l : List Nat), TaskList s l → l.length + ops.length ≤ fuel →
      ∃ s' l', run_ops cb fuel ops s = some s' ∧ TaskList s' l' ∧
        ((l ++ ops.filterMap Op.record).Nodup →
          l' = l ++ ops.filterMap Op.record ∧
          ∀ a ∈ l, (s'.mem a).period = (s.mem a).period)
  | [], s, l, hl, _ => ⟨s, l, rfl, hl, fun _ => ⟨by simp, fun _ _ => rfl⟩⟩
  | o :: ops, s, l, hl, hfuel => by
    have hfuel0 : l.length ≤ fuel := by simp at hfuel; omega
    obtain ⟨s1, l1, hr, hl1, hlen, hfresh, hsame, hper⟩ :=
      run_op_spec cb fuel hreg hsw o s l hl hfuel0
    have hfuel1 : l1.length + ops.length ≤ fuel := by simp at hfuel; omega
    obtain ⟨s', l', hrun, hl', hrest⟩ := run_ops_spec cb fuel hreg hsw ops s1 l1 hl1 hfuel1
    refine ⟨s', l', ?_, hl', ?_⟩
    · simp only [run_ops, hr, hrun]
    · intro hnd
      cases hrec : o.record with
      | none =>
        have hl1eq : l1 = l := hsame hrec
        subst hl1eq
        have hfm : (o :: ops).filterMap Op.record = ops.filterMap Op.record := by
          simp [List.filterMap_cons, hrec]
        rw [hfm] at hnd ⊢
        obtain ⟨h1, h2⟩ := hrest hnd
        refine ⟨h1, fun a ha => ?_⟩
        rw [h2 a ha]
        exact hper a (by rw [hrec]; simp)
      | some r =>
        have hfm : (o :: ops).filterMap Op.record = r :: ops.filterMap Op.record := by
          simp [List.filterMap_cons, hrec]
        rw [hfm] at hnd ⊢
        have hnd' : (l ++ [r] ++ ops.filterMap Op.record).Nodup := by
          simpa using hnd
        have hrl : r ∉ l := by
          have := List.disjoint_of_nodup_append (List.Nodup.of_append_left hnd')
          intro h
          exact this h (List.mem_singleton_self _)
        have hl1eq : l1 = l ++ [r] := hfresh r hrec hrl
        subst hl1eq
        obtain ⟨h1, h2⟩ := hrest hnd'
        refine ⟨by simpa using h1, fun a ha => ?_⟩
        rw [h2 a (List.mem_append_left _ ha)]
        exact hper a (by rw [hrec]; intro h; exact hrl (Option.some.inj h ▸ ha))

/-! ## Stop requests -/

theorem dispatch_loop_inv (P : OS → Prop) (cb : Callbacks) (now : Nat)
    (hcb : ∀ f s, P s → P (cb.task f now s)) (hst : ∀ s a t, P s → P (OS.store s a t)) :
    ∀ (fuel : Nat) (p : Option Nat) (s s' : OS) (tr : List Event),
      dispatch_loop cb now fuel p s = some (s', tr) → P s → P s'
  | _, none, s, s', tr, h, hp => by
    rw [dispatch_loop] at h
    simp only [Option.some.injEq, Prod.mk.injEq] at h
    rw [← h.1]; exact hp
  | 0, some a, s, s', tr, h, _ => by
    rw [dispatch_loop] at h
    exact absurd h (by simp)
  | fuel + 1, some a, s, s', tr, h, hp => by
    rw [dispatch_loop] at h
    dsimp only at h
    split at h
    · split at h
      · exact absurd h (by simp)
      · rename_i s3 tr3 heq
        simp only [Option.some.injEq, Prod.mk.injEq] at h
        rw [← h.1]
        exact dispatch_loop_inv P cb now hcb hst fuel _ _ _ _ heq (hst _ _ _ (hcb _ _ hp))
    · exact dispatch_loop_inv P cb now hcb hst fuel _ _ _ _ h hp

theorem dispatch_loop_stops (cb : Callbacks) (now : Nat) (hreg : KeepsRegistry cb)
    (hnr : NeverRestarts cb) (a : Nat) :
    ∀ (l : List Nat) (fuel : Nat) (p : Option Nat) (s s' : OS) (tr : List Event),
      Chain s.mem p l → a ∈ l →
      (s.mem a).period ≤ ts_sub now (s.mem a).prev_timestamp →
      RequestsStop cb (s.mem a).callback →
      dispatch_loop cb now fuel p s = some (s', tr) → s'.is_os_active = false
  | [], _, _, _, _, _, _, ha, _, _, _ => absurd ha (List.not_mem_nil _)
  | b :: l, 0, p, s, s', tr, hc, _, _, _, h => by
    have hp : p = some b := hc.1
    subst hp
    rw [dispatch_loop] at h
    exact absurd h (by simp)
  | b :: l, fuel + 1, p, s, s', tr, hc, ha, hdue, hstop, h => by
    have hp : p = some b := hc.1
    subst hp
    have hnd : b ∉ l := (List.nodup_cons.mp (chain_nodup _ _ hc)).1
    have hkeep : ∀ (s s' : OS) (tr : List Event) (q : Option Nat) (k : Nat),
        dispatch_loop cb now k q s = some (s', tr) → s.is_os_active = false →
        s'.is_os_active = false := by
      intro t t' tr' q k hrun ht
      refine dispatch_loop_inv (fun s => s.is_os_active = false) cb now ?_ (fun _ _ _ h => h)
        k q t t' tr' hrun ht
      intro f u hu
      cases hv : (cb.task f now u).is_os_active with
      | false => rfl
      | true => rw [hnr f now u hv] at hu; exact absurd hu (by simp)
    rw [dispatch_loop] at h
    dsimp only at h
    by_cases hab : a = b
    · subst hab
      rw [if_pos hdue] at h
      split at h
      · exact absurd h (by simp)
      · rename_i s3 tr3 heq
        simp only [Option.some.injEq, Prod.mk.injEq] at h
        rw [← h.1]
        exact hkeep _ _ _ _ _ heq (hstop now s)
    · have hal : a ∈ l := by
        rcases List.mem_cons.mp ha with h1 | h1
        · exact absurd h1 hab
        · exact h1
      by_cases hd : (s.mem b).period ≤ ts_sub now (s.mem b).prev_timestamp
      · rw [if_pos hd] at h
        have hm : (cb.task (s.mem b).callback now s).mem = s.mem := (hreg _ _ _).1
        split at h
        · exact absurd h (by simp)
        · rename_i s3 tr3 heq
          simp only [Option.some.injEq, Prod.mk.injEq] at h
          rw [← h.1]
          have hs2 : ∀ x, x ≠ b →
              (((cb.task (s.mem b).callback now s).store b
                { (cb.task (s.mem b).callback now s).mem b with prev_timestamp := now }).mem x) =
              s.mem x := by
            intro x hx
            show (if x = b then _ else _) = _
            rw [if_neg hx, hm]
          have hnext : ((((cb.task (s.mem b).callback now s).store b
                { (cb.task (s.mem b).callback now s).mem b with prev_timestamp := now }).mem b).p_next_task) =
              (s.mem b).p_next_task := by
            show (if b = b then _ else _ : OS_task_t).p_next_task = _
            rw [if_pos rfl, hm]
          refine dispatch_loop_stops cb now hreg hnr a l fuel _ _ s3 tr3 ?_ hal ?_ ?_ heq
          · rw [hnext]
            refine chain_congr l _ ?_ hc.2
            intro x hx
            rw [hs2 x (fun h => hnd (h ▸ hx))]
          · rw [hs2 a hab]; exact hdue
          · rw [hs2 a hab]; exact hstop
      · rw [if_neg hd] at h
        exact dispatch_loop_stops cb now hreg hnr a l fuel _ s s' tr hc.2 hal hdue hstop h

theorem deliver_ticks_active : ∀ (n : Nat) (s : OS),
    (deliver_ticks n s).is_os_active = s.is_os_active
  | 0, _ => rfl
  | n + 1, s => by
    rw [deliver_ticks, deliver_ticks_active n, (tick_frame s).2.2.2.2.1]

theorem daemon_loop_inactive (cb : Callbacks) (fuel iters : Nat) (ticks : Nat → Nat) (s : OS)
    (h : s.is_os_active = false) :
    OS_LaunchDaemon_loop cb fuel iters ticks s = some (s, []) := by
  cases iters <;> simp [OS_LaunchDaemon_loop, h]

theorem daemon_loop_last_pass (cb : Callbacks) (fuel iters : Nat) (ticks : Nat → Nat)
    (s s1 : OS) (tr : List Event) (hactive : s.is_os_active = true)
    (hpass : OS_LaunchDaemon_pass cb fuel s = some (s1, tr))
    (hstop : s1.is_os_active = false) :
    OS_LaunchDaemon_loop cb fuel (iters + 1) ticks s =
      some (deliver_ticks (ticks 0) s1, tr) := by
  have h2 := daemon_loop_inactive cb fuel iters (fun i => ticks (i + 1))
    (deliver_ticks (ticks 0) s1) (by rw [deliver_ticks_active]; exact hstop)
  simp only [OS_LaunchDaemon_loop, hactive, hpass, h2, if_true, List.append_nil]

theorem stopping_keeps_registry (f : Nat) : KeepsRegistry (Callbacks.stopping f) := by
  intro g now s
  by_cases h : g = f <;> simp [Callbacks.stopping, h, OS_Stop]

theorem stopping_never_restarts (f : Nat) : NeverRestarts (Callbacks.stopping f) := by
  intro g now s
  by_cases h : g = f <;> simp [Callbacks.stopping, h, OS_Stop]

theorem stopping_requests_stop (f : Nat) : RequestsStop (Callbacks.stopping f) f := by
  intro now s
  simp [Callbacks.stopping, OS_Stop]

/-! ## Debounced input -/

theorem handle_asleep (pin : Nat) (p : Pushbutton) (h : p.is_awake = false) :
    Pushbutton_Handle pin p = some (p, []) := by
  simp [Pushbutton_Handle, h]

theorem handle_awake (pin : Nat) (p : Pushbutton) (hawake : p.is_awake = true)
    (hidx : p.debounce_index = 0 ∨ p.debounce_index = 1) :
    Pushbutton_Handle pin p = some
      ({ p with
          history_0 := if p.debounce_index = 0 then Pushbutton_reading pin else p.history_0,
          history_1 := if p.debounce_index = 1 then Pushbutton_reading pin else p.history_1,
          present_state :=
            if Pushbutton_reading pin ≠ p.present_state ∧
                p.previous_sample = Pushbutton_reading pin then Pushbutton_reading pin
            else p.present_state,
          debounce_index := (p.debounce_index + 1) % 2 },
       if Pushbutton_reading pin ≠ p.present_state ∧
           p.previous_sample = Pushbutton_reading pin then
         commit_calls p (Pushbutton_reading pin)
       else []) := by
  obtain ⟨pres, act, awake, ac, dc, h0, h1, idx⟩ := p
  simp only at hawake hidx
  subst hawake
  have hr : (if INPUT_ACTIVE = pin then Pushbutton_action_t.Pushbutton_ACTIVATED
      else Pushbutton_action_t.Pushbutton_DEACTIVATED) = Pushbutton_reading pin := rfl
  rcases hidx with rfl | rfl
  · simp only [Pushbutton_Handle, Pushbutton.history_set, hr, Pushbutton.previous_sample]
    generalize Pushbutton_reading pin = r
    cases r <;> cases pres <;> cases h1 <;> cases ac <;> cases dc <;>
      simp [commit_calls]
  · simp only [Pushbutton_Handle, Pushbutton.history_set, hr, Pushbutton.previous_sample]
    generalize Pushbutton_reading pin = r
    cases r <;> cases pres <;> cases h0 <;> cases ac <;> cases dc <;>
      simp [commit_calls]

theorem di_step_inv (sym : TaskSymbols) (o : DiOp) (p p1 : Pushbutton) (e : List PinEvent)
    (hstep : di_step sym o p = some (p1, e))
    (hidx : p.debounce_index = 0 ∨ p.debounce_index = 1) :
    (p1.debounce_index = 0 ∨ p1.debounce_index = 1) ∧
    p1.previous_sample = di_sampled o p p.previous_sample := by
  cases o with
  | start a d m s =>
    simp only [di_step, Pushbutton_Start, Pushbutton_Start_vars] at hstep
    cases hc : OS_CreateTask sym.this 10 sym.handle (some sym.sleep) (some sym.wake) s with
    | none => rw [hc] at hstep; simp at hstep
    | some r =>
      rw [hc] at hstep
      simp only [Option.map_some', Option.some.injEq, Prod.mk.injEq] at hstep
      rw [← hstep.1]
      exact ⟨hidx, rfl⟩
  | dispatch pin =>
    simp only [di_step] at hstep
    by_cases hawake : p.is_awake = true
    · rw [handle_awake pin p hawake hidx] at hstep
      simp only [Option.some.injEq, Prod.mk.injEq] at hstep
      rw [← hstep.1]
      rcases hidx with h | h
      · simp [Pushbutton.previous_sample, di_sampled, h, hawake]
      · simp [Pushbutton.previous_sample, di_sampled, h, hawake]
    · simp only [Bool.not_eq_true] at hawake
      rw [handle_asleep pin p hawake] at hstep
      simp only [Option.some.injEq, Prod.mk.injEq] at hstep
      rw [← hstep.1]
      simp [di_sampled, hawake, hidx]
  | sleep =>
    simp only [di_step, Pushbutton_Sleep, Option.some.injEq] at hstep
    by_cases hact : p.is_active_during_sleep = true
    · simp only [hact, Bool.not_true, Bool.false_eq_true, if_false, Prod.mk.injEq] at hstep
      rw [← hstep.1]
      exact ⟨hidx, rfl⟩
    · simp only [Bool.not_eq_true] at hact
      simp only [hact, Bool.not_false, if_true, Prod.mk.injEq] at hstep
      rw [← hstep.1]
      exact ⟨hidx, rfl⟩
  | wake =>
    simp only [di_step, Pushbutton_WakeUp, Option.some.injEq, Prod.mk.injEq] at hstep
    rw [← hstep.1]
    exact ⟨hidx, rfl⟩

theorem di_run_inv (sym : TaskSymbols) :
    ∀ (ops : List DiOp) (p0 p : Pushbutton) (ev : List PinEvent),
      di_run sym ops p0 = some (p, ev) →
      (p0.debounce_index = 0 ∨ p0.debounce_index = 1) →
      (p.debounce_index = 0 ∨ p.debounce_index = 1) ∧
      p.previous_sample = di_last_reading sym ops p0 p0.previous_sample
  | [], p0, p, ev, hrun, hidx => by
    simp only [di_run, Option.some.injEq, Prod.mk.injEq] at hrun
    rw [← hrun.1]
    exact ⟨hidx, rfl⟩
  | o :: ops, p0, p, ev, hrun, hidx => by
    rw [di_run] at hrun
    cases hs : di_step sym o p0 with
    | none => rw [hs] at hrun; simp at hrun
    | some r =>
      obtain ⟨p1, e1⟩ := r
      rw [hs] at hrun
      simp only at hrun
      cases hr : di_run sym ops p1 with
      | none => rw [hr] at hrun; simp at hrun
      | some r2 =>
        obtain ⟨p2, e2⟩ := r2
        rw [hr] at hrun
        simp only [Option.some.injEq, Prod.mk.injEq] at hrun
        obtain ⟨h1, h2⟩ := di_step_inv sym o p0 p1 e1 hs hidx
        obtain ⟨h3, h4⟩ := di_run_inv sym ops p1 p2 e2 hr h1
        rw [← hrun.1]
        refine ⟨h3, ?_⟩
        rw [h4, h2, di_last_reading, hs]

theorem commit_calls_congr (p q : Pushbutton) (r : Pushbutton_action_t)
    (ha : q.activation_callback = p.activation_callback)
    (hd : q.deactivation_callback = p.deactivation_callback) :
    commit_calls q r = commit_calls p r := by
  cases r <;> simp [commit_calls, ha, hd]

theorem handle_awake_fields (pin : Nat) (p : Pushbutton) (hawake : p.is_awake = true)
    (hidx : p.debounce_index = 0 ∨ p.debounce_index = 1) :
    ∃ p' ev, Pushbutton_Handle pin p = some (p', ev) ∧ p'.is_awake = true ∧
      (p'.debounce_index = 0 ∨ p'.debounce_index = 1) ∧
      p'.previous_sample = Pushbutton_reading pin ∧
      p'.activation_callback = p.activation_callback ∧
      p'.deactivation_callback = p.deactivation_callback ∧
      p'.is_active_during_sleep = p.is_active_during_sleep ∧
      p'.present_state =
        (if Pushbutton_reading pin ≠ p.present_state ∧
            p.previous_sample = Pushbutton_reading pin then Pushbutton_reading pin
         else p.present_state) ∧
      ev = (if Pushbutton_reading pin ≠ p.present_state ∧
              p.previous_sample = Pushbutton_reading pin then
            commit_calls p (Pushbutton_reading pin)
          else []) := by
  refine ⟨_, _, handle_awake pin p hawake hidx, hawake, by simp only; omega, ?_, rfl, rfl, rfl,
    rfl, rfl⟩
  rcases hidx with h | h <;> simp [Pushbutton.previous_sample, h]

theorem sleep_suspended (q : Pushbutton) (hact : q.is_active_during_sleep = false)
    (hawake : q.is_awake = false) :
    Pushbutton_Sleep q = (q, [PinEvent.SetDriveMode DriveMode.DM_DIG_HIZ]) := by
  obtain ⟨pres, act, awake, ac, dc, h0, h1, idx⟩ := q
  simp only at hact hawake
  subst hact
  subst hawake
  rfl

theorem di_run_suspended (sym : TaskSymbols) (q : Pushbutton)
    (hact : q.is_active_during_sleep = false) (hawake : q.is_awake = false) :
    ∀ (ops : List DiOp), (∀ o ∈ ops, o = DiOp.sleep ∨ ∃ pin, o = DiOp.dispatch pin) →
      ∃ ev, di_run sym ops q = some (q, ev) ∧ ∀ e ∈ ev, e.is_callback = false
  | [], _ => ⟨[], rfl, fun e he => absurd he (List.not_mem_nil _)⟩
  | o :: ops, h => by
    obtain ⟨ev, hrun, hev⟩ := di_run_suspended sym q hact hawake ops
      (fun o' ho' => h o' (List.mem_cons_of_mem _ ho'))
    rcases h o (List.mem_cons_self _ _) with rfl | ⟨pin, rfl⟩
    · refine ⟨[PinEvent.SetDriveMode DriveMode.DM_DIG_HIZ] ++ ev, ?_, ?_⟩
      · simp only [di_run, di_step, sleep_suspended q hact hawake, hrun]
      · intro e he
        rcases List.mem_append.mp he with h1 | h1
        · rw [List.mem_singleton.mp h1]; rfl
        · exact hev e h1
    · refine ⟨[] ++ ev, ?_, ?_⟩
      · simp only [di_run, di_step, handle_asleep pin q hawake, hrun]
      · intro e he
        exact hev e (by simpa using he)

/-! ## Blinking output -/

theorem ts_sub_seeded (t e off : Nat) :
    ts_sub ((t + e) % 65536) (ts_sub t off) = (e + off) % 65536 := by
  unfold ts_sub to_timestamp; omega

theorem handle_led_asleep (ts_now : Nat) (led : BlueLED) (h : led.is_awake = false) :
    BlueLED_Handle ts_now led = (led, []) := by
  simp [BlueLED_Handle, h]

theorem handle_led_on (ts_now : Nat) (led : BlueLED) (h : led.is_awake = true)
    (hs : led.current_state = led_state_t.LED_STATE_ON) :
    BlueLED_Handle ts_now led = (led, [PinEvent.Write 1]) := by
  simp [BlueLED_Handle, h, hs, OUTPUT_ON]

theorem handle_led_off (ts_now : Nat) (led : BlueLED) (h : led.is_awake = true)
    (hs : led.current_state = led_state_t.LED_STATE_OFF) :
    BlueLED_Handle ts_now led = (led, [PinEvent.Write 0]) := by
  simp [BlueLED_Handle, h, hs, OUTPUT_OFF]

theorem handle_led_chirp_hold (ts_now : Nat) (led : BlueLED) (h : led.is_awake = true)
    (hs : led.current_state = led_state_t.LED_STATE_CHIRP)
    (hd : ts_sub ts_now led.prev_timestamp ≤ led.on_target) :
    BlueLED_Handle ts_now led = (led, [PinEvent.Write 1]) := by
  have : ¬ led.on_target < ts_sub ts_now led.prev_timestamp := by omega
  simp [BlueLED_Handle, h, hs, OUTPUT_ON, this]

theorem handle_led_chirp_end (ts_now : Nat) (led : BlueLED) (h : led.is_awake = true)
    (hs : led.current_state = led_state_t.LED_STATE_CHIRP)
    (hd : led.on_target < ts_sub ts_now led.prev_timestamp) :
    BlueLED_Handle ts_now led =
      ({ led with prev_timestamp := ts_now, current_state := led_state_t.LED_STATE_OFF },
        [PinEvent.Write 0]) := by
  simp [BlueLED_Handle, h, hs, OUTPUT_OFF, hd]

theorem handle_led_blink_on_hold (ts_now : Nat) (led : BlueLED) (h : led.is_awake = true)
    (hs : led.current_state = led_state_t.LED_STATE_BLINK_ON)
    (hd : ts_sub ts_now led.prev_timestamp ≤ led.on_target) :
    BlueLED_Handle ts_now led = (led, [PinEvent.Write 1]) := by
  have : ¬ led.on_target < ts_sub ts_now led.prev_timestamp := by omega
  simp [BlueLED_Handle, h, hs, OUTPUT_ON, this]

theorem handle_led_blink_on_end (ts_now : Nat) (led : BlueLED) (h : led.is_awake = true)
    (hs : led.current_state = led_state_t.LED_STATE_BLINK_ON)
    (hd : led.on_target < ts_sub ts_now led.prev_timestamp) :
    BlueLED_Handle ts_now led =
      ({ led with prev_timestamp := ts_now, current_state := led_state_t.LED_STATE_BLINK_OFF },
        [PinEvent.Write 0]) := by
  simp [BlueLED_Handle, h, hs, OUTPUT_OFF, hd]

theorem handle_led_blink_off_hold (ts_now : Nat) (led : BlueLED) (h : led.is_awake = true)
    (hs : led.current_state = led_state_t.LED_STATE_BLINK_OFF)
    (hd : ts_sub ts_now led.prev_timestamp ≤ led.off_target) :
    BlueLED_Handle ts_now led = (led, [PinEvent.Write 0]) := by
  have : ¬ led.off_target < ts_sub ts_now led.prev_timestamp := by omega
  simp [BlueLED_Handle, h, hs, OUTPUT_OFF, this]

theorem handle_led_blink_off_end (ts_now : Nat) (led : BlueLED) (h : led.is_awake = true)
    (hs : led.current_state = led_state_t.LED_STATE_BLINK_OFF)
    (hd : led.off_target < ts_sub ts_now led.prev_timestamp) :
    BlueLED_Handle ts_now led =
      ({ led with prev_timestamp := ts_now, current_state := led_state_t.LED_STATE_BLINK_ON },
        [PinEvent.Write 1]) := by
  simp [BlueLED_Handle, h, hs, OUTPUT_ON, hd]

theorem handle_led_targets (ts_now : Nat) (led : BlueLED) :
    (BlueLED_Handle ts_now led).1.on_target = led.on_target ∧
    (BlueLED_Handle ts_now led).1.off_target = led.off_target ∧
    (BlueLED_Handle ts_now led).1.is_awake = led.is_awake ∧
    (BlueLED_Handle ts_now led).1.is_active_during_sleep = led.is_active_during_sleep := by
  unfold BlueLED_Handle
  by_cases h : led.is_awake = true
  · simp only [h, if_true]
    cases led.current_state <;> simp only <;> (try split) <;> simp [h]
  · simp [h]

theorem led_dispatches_append (a b : List Nat) (led : BlueLED) :
    led_dispatches (a ++ b) led =
      ((led_dispatches b (led_dispatches a led).1).1,
        (led_dispatches a led).2 ++ (led_dispatches b (led_dispatches a led).1).2) := by
  induction a generalizing led with
  | nil => simp [led_dispatches]
  | cons x a ih => simp [led_dispatches, ih, List.append_assoc]

theorem led_dispatches_steady (level : Nat) (led : BlueLED)
    (h : ∀ ts_now, BlueLED_Handle ts_now led = (led, [PinEvent.Write level])) :
    ∀ ts : List Nat, led_dispatches ts led = (led, List.replicate ts.length (PinEvent.Write level))
  | [] => rfl
  | x :: ts => by
    simp only [led_dispatches, h x, led_dispatches_steady level led h ts, List.length_cons,
      List.replicate_succ, List.singleton_append]

theorem tick_times_succ (t n : Nat) :
    tick_times t (n + 1) = tick_times t n ++ [(t + 1 + n) % 65536] := by
  simp [tick_times, List.range_succ]

theorem tick_times_length (t n : Nat) : (tick_times t n).length = n := by
  simp [tick_times]

theorem tick_times_add (t a b : Nat) :
    tick_times t (a + b) = tick_times t a ++ tick_times (t + a) b := by
  induction b with
  | zero => simp [tick_times]
  | succ b ih =>
    rw [← Nat.add_assoc, tick_times_succ, ih, tick_times_succ, List.append_assoc]
    congr 3
    omega

theorem tick_times_cons (t k : Nat) :
    tick_times t (1 + k) = (t + 1) % 65536 :: tick_times (t + 1) k := by
  rw [tick_times_add]
  rfl

theorem led_dispatches_cons (x : Nat) (rest : List Nat) (led : BlueLED) :
    led_dispatches (x :: rest) led =
      ((led_dispatches rest (BlueLED_Handle x led).1).1,
        (BlueLED_Handle x led).2 ++ (led_dispatches rest (BlueLED_Handle x led).1).2) := rfl

theorem led_step_targets (sym : TaskSymbols) (o : LedOp) (led led1 : BlueLED)
    (ev : List PinEvent) (hstep : led_step sym o led = some (led1, ev))
    (hon : led.on_target ≤ 10000) (hoff : led.off_target ≤ 10000) :
    led1.on_target ≤ 10000 ∧ led1.off_target ≤ 10000 := by
  cases o with
  | start m s =>
    simp only [led_step, BlueLED_Start] at hstep
    cases hc : OS_CreateTask sym.this TASK_PERIOD_1MS sym.handle (some sym.sleep)
        (some sym.wake) s with
    | none => rw [hc] at hstep; simp at hstep
    | some r =>
      rw [hc] at hstep
      simp only [Option.map_some', Option.some.injEq, Prod.mk.injEq] at hstep
      rw [← hstep.1]
      exact ⟨hon, hoff⟩
  | sleep =>
    simp only [led_step, Option.some.injEq] at hstep
    have h1 : led1 = (BlueLED_Sleep led).1 := by rw [hstep]
    rw [h1]
    unfold BlueLED_Sleep
    split <;> exact ⟨hon, hoff⟩
  | wake =>
    simp only [led_step, Option.some.injEq] at hstep
    have h1 : led1 = (BlueLED_WakeUp led).1 := by rw [hstep]
    rw [h1]
    exact ⟨hon, hoff⟩
  | turn_on =>
    simp only [led_step, Option.some.injEq] at hstep
    have h1 : led1 = (BlueLED_On led).1 := by rw [hstep]
    rw [h1]
    exact ⟨hon, hoff⟩
  | turn_off =>
    simp only [led_step, Option.some.injEq] at hstep
    have h1 : led1 = (BlueLED_Off led).1 := by rw [hstep]
    rw [h1]
    exact ⟨hon, hoff⟩
  | pulsing a b s =>
    simp only [led_step, Option.some.injEq, Prod.mk.injEq] at hstep
    rw [← hstep.1]
    simp only [BlueLED_Pulsing, LED_MAX_TIME]
    constructor <;> split <;> omega
  | one_shot a s =>
    simp only [led_step, Option.some.injEq, Prod.mk.injEq] at hstep
    rw [← hstep.1]
    simp only [BlueLED_OneShot, LED_MAX_TIME]
    constructor
    · split <;> omega
    · omega
  | dispatch ts_now =>
    simp only [led_step, Option.some.injEq] at hstep
    have h0 : led1 = (BlueLED_Handle ts_now led).1 := by rw [hstep]
    obtain ⟨h1, h2, _⟩ := handle_led_targets ts_now led
    rw [h0, h1, h2]
    exact ⟨hon, hoff⟩

theorem led_run_targets (sym : TaskSymbols) :
    ∀ (ops : List LedOp) (led led1 : BlueLED) (ev : List PinEvent),
      led_run sym ops led = some (led1, ev) →
      led.on_target ≤ 10000 → led.off_target ≤ 10000 →
      led1.on_target ≤ 10000 ∧ led1.off_target ≤ 10000
  | [], led, led1, ev, hrun, hon, hoff => by
    simp only [led_run, Option.some.injEq, Prod.mk.injEq] at hrun
    rw [← hrun.1]
    exact ⟨hon, hoff⟩
  | o :: ops, led, led1, ev, hrun, hon, hoff => by
    rw [led_run] at hrun
    cases hs : led_step sym o led with
    | none => rw [hs] at hrun; simp at hrun
    | some r =>
      obtain ⟨led2, e2⟩ := r
      rw [hs] at hrun
      simp only at hrun
      cases hr : led_run sym ops led2 with
      | none => rw [hr] at hrun; simp at hrun
      | some r2 =>
        obtain ⟨led3, e3⟩ := r2
        rw [hr] at hrun
        simp only [Option.some.injEq, Prod.mk.injEq] at hrun
        obtain ⟨h1, h2⟩ := led_step_targets sym o led led2 e2 hs hon hoff
        rw [← hrun.1]
        exact led_run_targets sym ops led2 led3 e3 hr h1 h2

/-! ## Blinking output: sleep, phases -/

theorem led_dispatches_asleep (led : BlueLED) (h : led.is_awake = false) :
    ∀ ts : List Nat, led_dispatches ts led = (led, [])
  | [] => rfl
  | x :: ts => by
    rw [led_dispatches_cons, handle_led_asleep x led h, led_dispatches_asleep led h ts]
    rfl

theorem ts_sub_phase (t k prev : Nat) (h : prev % 65536 = t % 65536) :
    ts_sub ((t + k) % 65536) prev = k % 65536 := by
  unfold ts_sub to_timestamp; omega

theorem blink_on_phase (t : Nat) (led : BlueLED) (hawake : led.is_awake = true)
    (hs : led.current_state = led_state_t.LED_STATE_BLINK_ON)
    (hprev : led.prev_timestamp % 65536 = t % 65536) (hon : led.on_target + 1 < 65536) :
    (∀ n, n ≤ led.on_target →
      led_dispatches (tick_times t n) led = (led, List.replicate n (PinEvent.Write 1))) ∧
    led_dispatches (tick_times t (led.on_target + 1)) led =
      ({ led with prev_timestamp := (t + (led.on_target + 1)) % 65536,
                  current_state := led_state_t.LED_STATE_BLINK_OFF },
        List.replicate led.on_target (PinEvent.Write 1) ++ [PinEvent.Write 0]) := by
  have hphase : ∀ n, n ≤ led.on_target →
      led_dispatches (tick_times t n) led = (led, List.replicate n (PinEvent.Write 1)) := by
    intro n
    induction n with
    | zero => intro _; rfl
    | succ n ih =>
      intro hn
      rw [tick_times_succ, led_dispatches_append, ih (by omega)]
      have h1 : BlueLED_Handle ((t + 1 + n) % 65536) led = (led, [PinEvent.Write 1]) := by
        apply handle_led_blink_on_hold _ _ hawake hs
        rw [Nat.add_assoc, ts_sub_phase t (1 + n) _ hprev, Nat.mod_eq_of_lt (by omega)]
        omega
      simp only [led_dispatches, h1, List.append_nil, List.replicate_succ']
  refine ⟨hphase, ?_⟩
  rw [tick_times_succ, led_dispatches_append, hphase _ (le_refl _)]
  have h1 : BlueLED_Handle ((t + 1 + led.on_target) % 65536) led =
      ({ led with prev_timestamp := (t + 1 + led.on_target) % 65536,
                  current_state := led_state_t.LED_STATE_BLINK_OFF }, [PinEvent.Write 0]) := by
    apply handle_led_blink_on_end _ _ hawake hs
    rw [Nat.add_assoc, ts_sub_phase t (1 + led.on_target) _ hprev, Nat.mod_eq_of_lt (by omega)]
    omega
  have hcomm : t + (led.on_target + 1) = t + 1 + led.on_target := by omega
  simp only [led_dispatches, h1, List.append_nil, hcomm]

theorem blink_off_phase (t : Nat) (led : BlueLED) (hawake : led.is_awake = true)
    (hs : led.current_state = led_state_t.LED_STATE_BLINK_OFF)
    (hprev : led.prev_timestamp % 65536 = t % 65536) (hoff : led.off_target + 1 < 65536) :
    (∀ n, n ≤ led.off_target →
      led_dispatches (tick_times t n) led = (led, List.replicate n (PinEvent.Write 0))) ∧
    led_dispatches (tick_times t (led.off_target + 1)) led =
      ({ led with prev_timestamp := (t + (led.off_target + 1)) % 65536,
                  current_state := led_state_t.LED_STATE_BLINK_ON },
        List.replicate led.off_target (PinEvent.Write 0) ++ [PinEvent.Write 1]) := by
  have hphase : ∀ n, n ≤ led.off_target →
      led_dispatches (tick_times t n) led = (led, List.replicate n (PinEvent.Write 0)) := by
    intro n
    induction n with
    | zero => intro _; rfl
    | succ n ih =>
      intro hn
      rw [tick_times_succ, led_dispatches_append, ih (by omega)]
      have h1 : BlueLED_Handle ((t + 1 + n) % 65536) led = (led, [PinEvent.Write 0]) := by
        apply handle_led_blink_off_hold _ _ hawake hs
        rw [Nat.add_assoc, ts_sub_phase t (1 + n) _ hprev, Nat.mod_eq_of_lt (by omega)]
        omega
      simp only [led_dispatches, h1, List.append_nil, List.replicate_succ']
  refine ⟨hphase, ?_⟩
  rw [tick_times_succ, led_dispatches_append, hphase _ (le_refl _)]
  have h1 : BlueLED_Handle ((t + 1 + led.off_target) % 65536) led =
      ({ led with prev_timestamp := (t + 1 + led.off_target) % 65536,
                  current_state := led_state_t.LED_STATE_BLINK_ON }, [PinEvent.Write 1]) := by
    apply handle_led_blink_off_end _ _ hawake hs
    rw [Nat.add_assoc, ts_sub_phase t (1 + led.off_target) _ hprev, Nat.mod_eq_of_lt (by omega)]
    omega
  have hcomm : t + (led.off_target + 1) = t + 1 + led.off_target := by omega
  simp only [led_dispatches, h1, List.append_nil, hcomm]

/-! ## Debounced input: settled state and history -/

theorem handle_awake_settled (pin : Nat) (p p1 : Pushbutton) (e : List PinEvent)
    (hawake : p.is_awake = true)
    (hidx : p.debounce_index = 0 ∨ p.debounce_index = 1)
    (hstep : Pushbutton_Handle pin p = some (p1, e)) : p1.Settled := by
  rw [handle_awake pin p hawake hidx] at hstep
  simp only [Option.some.injEq, Prod.mk.injEq] at hstep
  rw [← hstep.1]
  obtain ⟨pres, act, awake, ac, dc, h0, h1, idx⟩ := p
  simp only at hidx
  generalize Pushbutton_reading pin = r
  rcases hidx with rfl | rfl
  · cases r <;> cases pres <;> cases h0 <;> cases h1 <;>
      simp [Pushbutton.Settled, Pushbutton.previous_sample]
  · cases r <;> cases pres <;> cases h0 <;> cases h1 <;>
      simp [Pushbutton.Settled, Pushbutton.previous_sample]

theorem di_step_settled (sym : TaskSymbols) (o : DiOp) (p p1 : Pushbutton) (e : List PinEvent)
    (hstep : di_step sym o p = some (p1, e))
    (hidx : p.debounce_index = 0 ∨ p.debounce_index = 1)
    (hset : p.Settled) : p1.Settled := by
  cases o with
  | start a d m s =>
    simp only [di_step, Pushbutton_Start, Pushbutton_Start_vars] at hstep
    cases hc : OS_CreateTask sym.this 10 sym.handle (some sym.sleep) (some sym.wake) s with
    | none => rw [hc] at hstep; simp at hstep
    | some r =>
      rw [hc] at hstep
      simp only [Option.map_some', Option.some.injEq, Prod.mk.injEq] at hstep
      rw [← hstep.1]
      exact hset
  | dispatch pin =>
    simp only [di_step] at hstep
    by_cases hawake : p.is_awake = true
    · exact handle_awake_settled pin p p1 e hawake hidx hstep
    · simp only [Bool.not_eq_true] at hawake
      rw [handle_asleep pin p hawake] at hstep
      simp only [Option.some.injEq, Prod.mk.injEq] at hstep
      rw [← hstep.1]
      exact hset
  | sleep =>
    simp only [di_step, Pushbutton_Sleep, Option.some.injEq] at hstep
    by_cases hact : p.is_active_during_sleep = true
    · simp only [hact, Bool.not_true, Bool.false_eq_true, if_false, Prod.mk.injEq] at hstep
      rw [← hstep.1]
      exact hset
    · simp only [Bool.not_eq_true] at hact
      simp only [hact, Bool.not_false, if_true, Prod.mk.injEq] at hstep
      rw [← hstep.1]
      exact hset
  | wake =>
    simp only [di_step, Pushbutton_WakeUp, Option.some.injEq, Prod.mk.injEq] at hstep
    rw [← hstep.1]
    exact hset

theorem di_run_settled (sym : TaskSymbols) :
    ∀ (ops : List DiOp) (p0 p : Pushbutton) (ev : List PinEvent),
      di_run sym ops p0 = some (p, ev) →
      (p0.debounce_index = 0 ∨ p0.debounce_index = 1) →
      p0.Settled → p.Settled
  | [], p0, p, ev, hrun, _, hset => by
    simp only [di_run, Option.some.injEq, Prod.mk.injEq] at hrun
    rw [← hrun.1]
    exact hset
  | o :: ops, p0, p, ev, hrun, hidx, hset => by
    rw [di_run] at hrun
    cases hs : di_step sym o p0 with
    | none => rw [hs] at hrun; simp at hrun
    | some r =>
      obtain ⟨p1, e1⟩ := r
      rw [hs] at hrun
      simp only at hrun
      cases hr : di_run sym ops p1 with
      | none => rw [hr] at hrun; simp at hrun
      | some r2 =>
        obtain ⟨p2, e2⟩ := r2
        rw [hr] at hrun
        simp only [Option.some.injEq, Prod.mk.injEq] at hrun
        rw [← hrun.1]
        exact di_run_settled sym ops p1 p2 e2 hr
          (di_step_inv sym o p0 p1 e1 hs hidx).1 (di_step_settled sym o p0 p1 e1 hs hidx hset)

theorem handle_in_bounds (pin : Nat) (p : Pushbutton)
    (hidx : p.debounce_index = 0 ∨ p.debounce_index = 1) :
    (Pushbutton_Handle pin p).isSome = true := by
  by_cases hawake : p.is_awake = true
  · rw [handle_awake pin p hawake hidx]; rfl
  · simp only [Bool.not_eq_true] at hawake
    rw [handle_asleep pin p hawake]; rfl

theorem blink_cycle (t : Nat) (led : BlueLED) (hawake : led.is_awake = true)
    (hs : led.current_state = led_state_t.LED_STATE_BLINK_ON)
    (hprev : led.prev_timestamp % 65536 = t % 65536)
    (hon : led.on_target + 1 < 65536) (hoff : led.off_target + 1 < 65536) :
    led_dispatches (tick_times t (led.on_target + led.off_target + 2)) led =
      ({ led with prev_timestamp := (t + (led.on_target + led.off_target + 2)) % 65536 },
        List.replicate led.on_target (PinEvent.Write 1) ++ [PinEvent.Write 0] ++
          List.replicate led.off_target (PinEvent.Write 0) ++ [PinEvent.Write 1]) := by
  have hsplit : led.on_target + led.off_target + 2 =
      (led.on_target + 1) + (led.off_target + 1) := by omega
  have h2 := (blink_off_phase (t + (led.on_target + 1))
    { led with prev_timestamp := (t + (led.on_target + 1)) % 65536,
               current_state := led_state_t.LED_STATE_BLINK_OFF }
    hawake rfl (Nat.mod_mod _ _) hoff).2
  rw [hsplit, tick_times_add, led_dispatches_append,
    (blink_on_phase t led hawake hs hprev hon).2]
  simp only at h2 ⊢
  rw [h2]
  obtain ⟨ton, toff, prev, st, act, awake⟩ := led
  simp only at hs
  subst hs
  simp only [Nat.add_assoc, List.append_assoc]

theorem pulsing_first_dispatch (on_time off_time e : Nat) (led : BlueLED) (s : OS)
    (hawake : led.is_awake = true) (he : 1 ≤ e) (hoff : e + off_time < 65536) :
    BlueLED_Handle ((s.ms_counter + e) % 65536) (BlueLED_Pulsing on_time off_time led s).1 =
      ({ (BlueLED_Pulsing on_time off_time led s).1 with
          prev_timestamp := (s.ms_counter + e) % 65536,
          current_state := led_state_t.LED_STATE_BLINK_ON }, [PinEvent.Write 1]) := by
  have hd : ts_sub ((s.ms_counter + e) % 65536)
      (BlueLED_Pulsing on_time off_time led s).1.prev_timestamp = (e + off_time) % 65536 :=
    ts_sub_seeded s.ms_counter e off_time
  rw [Nat.mod_eq_of_lt hoff] at hd
  have ht : (BlueLED_Pulsing on_time off_time led s).1.off_target ≤ off_time := by
    simp only [BlueLED_Pulsing, LED_MAX_TIME]
    split <;> omega
  exact handle_led_blink_off_end ((s.ms_counter + e) % 65536)
    (BlueLED_Pulsing on_time off_time led s).1 hawake rfl (by omega)

theorem pulsing_same_tick (on_time off_time : Nat) (led : BlueLED) (s : OS)
    (hawake : led.is_awake = true) (hoff : off_time ≤ 10000) :
    BlueLED_Handle (s.ms_counter % 65536) (BlueLED_Pulsing on_time off_time led s).1 =
      ((BlueLED_Pulsing on_time off_time led s).1, [PinEvent.Write 0]) := by
  have hd : ts_sub ((s.ms_counter + 0) % 65536)
      (BlueLED_Pulsing on_time off_time led s).1.prev_timestamp = (0 + off_time) % 65536 :=
    ts_sub_seeded s.ms_counter 0 off_time
  rw [Nat.add_zero, Nat.zero_add, Nat.mod_eq_of_lt (show off_time < 65536 by omega)] at hd
  have ht : (BlueLED_Pulsing on_time off_time led s).1.off_target = off_time := by
    simp only [BlueLED_Pulsing, LED_MAX_TIME]
    split <;> omega
  exact handle_led_blink_off_hold (s.ms_counter % 65536)
    (BlueLED_Pulsing on_time off_time led s).1 hawake rfl (by omega)

theorem pulsing_20000_500_phase (led : BlueLED) (s : OS) (hawake : led.is_awake = true) :
    (BlueLED_Handle ((s.ms_counter + 1) % 65536)
      (BlueLED_Pulsing 20000 500 led s).1).1.current_state = led_state_t.LED_STATE_BLINK_ON ∧
    (led_dispatches (tick_times (s.ms_counter + 1) 10000)
      (BlueLED_Handle ((s.ms_counter + 1) % 65536)
        (BlueLED_Pulsing 20000 500 led s).1).1).1.current_state =
      led_state_t.LED_STATE_BLINK_ON ∧
    (led_dispatches (tick_times (s.ms_counter + 1) 10001)
      (BlueLED_Handle ((s.ms_counter + 1) % 65536)
        (BlueLED_Pulsing 20000 500 led s).1).1).1.current_state =
      led_state_t.LED_STATE_BLINK_OFF := by
  have h1 := pulsing_first_dispatch 20000 500 1 led s hawake (le_refl 1) (by decide)
  rw [h1]
  have hon : ({ (BlueLED_Pulsing 20000 500 led s).1 with
        prev_timestamp := (s.ms_counter + 1) % 65536,
        current_state := led_state_t.LED_STATE_BLINK_ON } : BlueLED).on_target = 10000 := rfl
  have hp := blink_on_phase (s.ms_counter + 1)
    { (BlueLED_Pulsing 20000 500 led s).1 with
        prev_timestamp := (s.ms_counter + 1) % 65536,
        current_state := led_state_t.LED_STATE_BLINK_ON }
    hawake rfl (Nat.mod_mod _ _) (by rw [hon]; decide)
  rw [hon] at hp
  refine ⟨rfl, ?_, ?_⟩
  · rw [hp.1 10000 (le_refl 10000)]
  · rw [hp.2]

/-! ## Dispatch -/

/-- C1: one dispatch pass over a task list `l` with the single sampled timestamp `now`
visits the tasks in registration order; a task with
`(now - prev_timestamp) mod 2^16 >= period` has its callback called with `now` and its
`prev_timestamp` set to `now`, any other task is not called and keeps its
`prev_timestamp`.  The calls of the pass are exactly the due tasks in registration
order, all with `now` (callbacks do not modify the registry); the same holds for one
iteration of `OS_LaunchDaemon`, whose `now` is the millisecond counter. -/
theorem dispatch_pass_spec (cb : Callbacks) (s : OS) (l : List Nat) (now fuel : Nat)
    (hcb : KeepsRegistry cb) (hl : Chain s.mem s.p_first_task_config l)
    (hfuel : l.length ≤ fuel) :
    (∃ s', dispatch_loop cb now fuel s.p_first_task_config s =
        some (s', (l.filter fun a => decide ((s.mem a).period ≤ ts_sub now (s.mem a).prev_timestamp)).map
          fun a => Event.callback a (s.mem a).callback now) ∧
      (∀ a ∈ l, (s.mem a).period ≤ ts_sub now (s.mem a).prev_timestamp →
        s'.mem a = { s.mem a with prev_timestamp := now }) ∧
      (∀ a ∈ l, ¬ (s.mem a).period ≤ ts_sub now (s.mem a).prev_timestamp →
        s'.mem a = s.mem a) ∧
      (∀ a, a ∉ l → s'.mem a = s.mem a)) ∧
    (∃ s', OS_LaunchDaemon_pass cb fuel s =
        some (s', ((l.filter fun a =>
            decide ((s.mem a).period ≤ ts_sub s.ms_counter (s.mem a).prev_timestamp)).map
          fun a => Event.callback a (s.mem a).callback s.ms_counter) ++
          if s'.is_sleep_active then [Event.CySysPmDeepSleep] else [])) := by
  constructor
  · obtain ⟨s', hrun, hmem⟩ := dispatch_loop_chain cb now hcb l fuel _ s hl hfuel
    refine ⟨s', hrun, ?_, ?_, ?_⟩
    · intro a ha hd
      rw [hmem a, if_pos ⟨ha, by simp [due, hd]⟩]
    · intro a ha hd
      rw [hmem a, if_neg (by simp [due, hd])]
    · intro a ha
      rw [hmem a, if_neg (fun h => ha h.1)]
  · obtain ⟨s', hrun, _⟩ := dispatch_loop_chain cb s.ms_counter hcb l fuel
      s.p_first_task_config (OS_Get s).2 hl hfuel
    have hrun' : dispatch_loop cb (OS_Get s).1 fuel (OS_Get s).2.p_first_task_config (OS_Get s).2 =
        some (s', (l.filter fun a =>
            decide ((s.mem a).period ≤ ts_sub s.ms_counter (s.mem a).prev_timestamp)).map
          fun a => Event.callback a (s.mem a).callback s.ms_counter) := hrun
    refine ⟨s', ?_⟩
    unfold OS_LaunchDaemon_pass
    simp only [hrun']
    by_cases hsl : s'.is_sleep_active = true
    · rw [if_pos hsl, if_pos hsl]
    · rw [if_neg hsl, if_neg hsl, List.append_nil]

theorem dispatch_pass_spec_witness :
    ∃ s', dispatch_loop Callbacks.inert 4 2 (some 1) demo_os = some (s', [Event.callback 2 8 4]) ∧
      s'.mem 1 = demo_mem 1 ∧ (s'.mem 2).prev_timestamp = 4 := by
  obtain ⟨⟨s', h1, h2, h3, _⟩, _⟩ := dispatch_pass_spec Callbacks.inert demo_os [1, 2] 4 2
    inert_keeps_registry (by decide) (by decide)
  refine ⟨s', h1, h3 1 (by decide) (by decide), ?_⟩
  rw [h2 2 (by decide) (by decide)]

/-- C3: no catch-up bursts.  In one dispatch pass the callback of every task is called
at most once, and exactly once when `k` periods have elapsed for any `k >= 1` (so also
for `k >= 2`); after firing, `prev_timestamp` is the pass timestamp `now`, and a
following pass with the same timestamp does not call any task whose period is at
least `1`. -/
theorem no_catch_up_bursts (cb : Callbacks) (s : OS) (l : List Nat) (now fuel : Nat)
    (hcb : KeepsRegistry cb) (hl : Chain s.mem s.p_first_task_config l)
    (hfuel : l.length ≤ fuel) :
    ∃ s' tr, dispatch_loop cb now fuel s.p_first_task_config s = some (s', tr) ∧
      (∀ a, calls_of a tr ≤ 1) ∧
      (∀ a ∈ l, ∀ k, 1 ≤ k → k * (s.mem a).period ≤ ts_sub now (s.mem a).prev_timestamp →
        calls_of a tr = 1 ∧ (s'.mem a).prev_timestamp = now) ∧
      ∃ s'' tr2, dispatch_loop cb now fuel s'.p_first_task_config s' = some (s'', tr2) ∧
        ∀ a, 1 ≤ (s.mem a).period → calls_of a tr2 = 0 := by
  obtain ⟨s', hrun, hmem⟩ := dispatch_loop_chain cb now hcb l fuel _ s hl hfuel
  have hnd : l.Nodup := chain_nodup _ _ hl
  refine ⟨s', _, hrun, ?_, ?_, ?_⟩
  · intro a
    rw [calls_of_map]
    exact List.nodup_iff_count_le_one.mp (hnd.filter _) a
  · intro a ha k hk hdue
    have hd : (s.mem a).period ≤ ts_sub now (s.mem a).prev_timestamp :=
      le_trans (Nat.le_mul_of_pos_left _ hk) hdue
    have hdb : due now (s.mem a) = true := by simp [due, hd]
    constructor
    · rw [calls_of_map]
      exact List.count_eq_one_of_mem (hnd.filter _) (List.mem_filter.mpr ⟨ha, hdb⟩)
    · rw [hmem a, if_pos ⟨ha, hdb⟩]
  · obtain ⟨hl', hp⟩ := dispatch_loop_keeps_chain cb now fuel hcb s s' _ l hl hfuel hrun
    obtain ⟨s'', hrun2, _⟩ := dispatch_loop_chain cb now hcb l fuel _ s' hl' hfuel
    refine ⟨s'', _, hrun2, ?_⟩
    intro a hper
    rw [calls_of_map]
    apply List.count_eq_zero_of_not_mem
    intro hmemf
    obtain ⟨ha, hd⟩ := List.mem_filter.mp hmemf
    rw [hmem a] at hd
    by_cases hd0 : a ∈ l ∧ due now (s.mem a) = true
    · rw [if_pos hd0] at hd
      simp only [due, ts_sub_self, decide_eq_true_eq] at hd
      omega
    · rw [if_neg hd0] at hd
      exact hd0 ⟨ha, hd⟩

theorem no_catch_up_bursts_witness :
    ∃ s' tr, dispatch_loop Callbacks.inert 17 2 (some 1) demo_os = some (s', tr) ∧
      calls_of 1 tr = 1 ∧ (s'.mem 1).prev_timestamp = 17 ∧
      ∃ s'' tr2, dispatch_loop Callbacks.inert 17 2 s'.p_first_task_config s' = some (s'', tr2) ∧
        calls_of 1 tr2 = 0 := by
  obtain ⟨s', tr, h1, _, h3, s'', tr2, h4, h5⟩ := no_catch_up_bursts Callbacks.inert demo_os
    [1, 2] 17 2 inert_keeps_registry (by decide) (by decide)
  have h := h3 1 (by decide) 3 (by decide) (by decide)
  exact ⟨s', tr, h1, h.1, h.2, s'', tr2, h4, h5 1 (by decide)⟩

/-! ## Registration -/

/-- C7: for a registry holding the task list `l` and a record `p_task` that is not in
it, `OS_CreateTask` links the record behind the tail (the list becomes `l` followed by
`p_task`), stores the period and the three callbacks in it, sets its `prev_timestamp`
to the millisecond counter, leaves the other fields of the older records alone and
returns `true`; and no call of `OS_CreateTask`, on any state and arguments, returns
`false`. -/
theorem create_task_appends (s : OS) (l : List Nat) (p_task period callback : Nat)
    (sleep wake : Option Nat) (hl : TaskList s l) (hp : p_task ∉ l) :
    (∃ s', OS_CreateTask p_task period callback sleep wake s = some (s', true) ∧
      TaskList s' (l ++ [p_task]) ∧
      s'.mem p_task = ⟨callback, sleep, wake, none, period, s.ms_counter⟩ ∧
      ∀ a ∈ l, (s'.mem a).callback = (s.mem a).callback ∧
        (s'.mem a).enter_sleep = (s.mem a).enter_sleep ∧
        (s'.mem a).exit_sleep = (s.mem a).exit_sleep ∧
        (s'.mem a).period = (s.mem a).period ∧
        (s'.mem a).prev_timestamp = (s.mem a).prev_timestamp) ∧
    (∀ (t : OS) (q per cb : Nat) (sl wk : Option Nat) (r : OS × Bool),
      OS_CreateTask q per cb sl wk t = some r → r.2 = true) := by
  constructor
  · obtain ⟨s', l', h1, h2, _, h4, h5, h6, _⟩ :=
      create_task_spec p_task period callback sleep wake s l hl
    rw [h4 hp] at h2
    exact ⟨s', h1, h2, h5, fun a ha => h6 a (fun h => hp (h ▸ ha))⟩
  · intro t q per cb sl wk r hr
    rw [create_task_eq] at hr
    exact add_task_true _ _ _ hr

theorem create_task_appends_witness :
    ∃ s', OS_CreateTask 3 10 9 (some 5) (some 6) demo_os = some (s', true) ∧
      TaskList s' [1, 2, 3] ∧ s'.mem 3 = ⟨9, some 5, some 6, none, 10, 4⟩ := by
  obtain ⟨⟨s', h1, h2, h3, _⟩, _⟩ := create_task_appends demo_os [1, 2] 3 10 9 (some 5) (some 6)
    ⟨by decide, fun _ => rfl⟩ (by decide)
  exact ⟨s', h1, h2, h3⟩

/-- C8 (as stated, refuted): registering the records `1`, `2` and then `1` again leaves
the list `[1]`; task `2`, which was in the list at the second position after two calls,
is no longer in it. -/
theorem reregistration_drops_task :
    ∃ s2 s3,
      run_ops Callbacks.inert 0 [.register (.add 1), .register (.add 2)] (OS.reset demo_mem) =
        some s2 ∧
      Chain s2.mem s2.p_first_task_config [1, 2] ∧
      run_ops Callbacks.inert 0 [.register (.add 1), .register (.add 2), .register (.add 1)]
        (OS.reset demo_mem) = some s3 ∧
      Chain s3.mem s3.p_first_task_config [1] :=
  ⟨_, _, rfl, by decide, rfl, by decide⟩

/-- C8 (amended): the reset state holds the empty task list; from a registry holding a
task list, every sequence of operations (registration calls `OS_AddTask` /
`OS_CreateTask` on any records, dispatch passes, power transitions, tick interrupts,
`OS_Stop`; callbacks do not modify the registry) returns and leaves a registry holding
a task list, which is finite and without repetition (acyclic); and when no record is
registered twice, the list is the old list followed by the new records in call order,
so every task already in the list keeps its position, and it keeps its period. -/
theorem registry_invariant (cb : Callbacks) (fuel : Nat) (s : OS) (l : List Nat)
    (ops : List Op) (hreg : KeepsRegistry cb) (hsw : SleepWakeKeepsRegistry cb)
    (hl : TaskList s l) (hfuel : l.length + ops.length ≤ fuel) :
    (∀ mem, TaskList (OS.reset mem) []) ∧
    ∃ s' l', run_ops cb fuel ops s = some s' ∧ TaskList s' l' ∧ l'.Nodup ∧
      ((l ++ ops.filterMap Op.record).Nodup →
        l' = l ++ ops.filterMap Op.record ∧
        ∀ a ∈ l, (s'.mem a).period = (s.mem a).period) := by
  refine ⟨fun mem => ⟨rfl, fun h => absurd rfl h⟩, ?_⟩
  obtain ⟨s', l', h1, h2, h3⟩ := run_ops_spec cb fuel hreg hsw ops s l hl hfuel
  exact ⟨s', l', h1, h2, chain_nodup _ _ h2.1, h3⟩

theorem registry_invariant_witness :
    ∃ s' l', run_ops Callbacks.inert 6
        [.register (.add 3), .pass, .register (.create 4 10 9 none none), .enter_low_power]
        demo_os = some s' ∧
      TaskList s' l' ∧ l'.Nodup ∧ l' = [1, 2, 3, 4] ∧ (s'.mem 1).period = 5 := by
  obtain ⟨_, s', l', h1, h2, h3, h4⟩ := registry_invariant Callbacks.inert 6 demo_os [1, 2]
    [.register (.add 3), .pass, .register (.create 4 10 9 none none), .enter_low_power]
    inert_keeps_registry inert_sleep_wake_keeps_registry ⟨by decide, fun _ => rfl⟩ (by decide)
  obtain ⟨h5, h6⟩ := h4 (by decide)
  exact ⟨s', l', h1, h2, h3, h5, h6 1 (by decide)⟩

/-! ## Periodic firing -/

/-- C2: under the simulated clock (one tick after every dispatch pass, so that pass `n`
samples the timestamp `(t0 + n) mod 2^16`), a task created at time `t0` with period
`P`, `1 <= P < 2^16`, has its callback called on pass `n` if and only if `n > 0` and
`P` divides `n`, and then exactly once; this holds for every `n`, also after the
16-bit counter has wrapped. -/
theorem periodic_firing (cb : Callbacks) (s0 : OS) (l : List Nat) (p P f : Nat)
    (sl wk : Option Nat) (fuel n : Nat)
    (hreg : KeepsRegistry cb) (hclk : KeepsClock cb) (hl : TaskList s0 l) (hp : p ∉ l)
    (hP1 : 1 ≤ P) (hP2 : P < 65536) (hms : s0.ms_counter < 65536) (hisr : s0.isr_counter = 0)
    (hfuel : l.length + 1 ≤ fuel) :
    ∃ s1 sn tr, OS_CreateTask p P f sl wk s0 = some (s1, true) ∧
      simulated_clock cb fuel n s1 = some sn ∧
      sn.ms_counter = (s0.ms_counter + n) % 65536 ∧
      simulated_pass cb fuel n s1 = some tr ∧
      (∀ a g t, Event.callback a g t ∈ tr → t = (s0.ms_counter + n) % 65536) ∧
      (0 < calls_of p tr ↔ (0 < n ∧ P ∣ n)) ∧ calls_of p tr ≤ 1 := by
  obtain ⟨s1, l1, hcreate, hl1, _, hfresh, hrec, _, _, _, hisr1, hms1, _, _⟩ :=
    create_task_spec p P f sl wk s0 l hl
  rw [hfresh hp] at hl1
  have hpl : p ∈ l ++ [p] := by simp
  have hfuel1 : (l ++ [p]).length ≤ fuel := by simpa using hfuel
  obtain ⟨sn, d, hsim, hcn, hpern, hisrn, hmsn, hdP, hdn, hdvd, hd1, hprevn⟩ :=
    simulated_clock_invariant cb fuel hreg hclk (l ++ [p]) p P s0.ms_counter hP1 hP2 hfuel1 s1
      hl1.1 hpl (by rw [hrec]) (by rw [hrec]) hms1 hms (by rw [hisr1, hisr]) n
  obtain ⟨s', hpass, _⟩ := pass_spec cb fuel hreg hclk sn (l ++ [p]) hcn hfuel1
  have hdue : due sn.ms_counter (sn.mem p) = true ↔ (0 < n ∧ P ∣ n) := by
    simp only [due, decide_eq_true_eq, hpern, hmsn, hprevn]
    exact due_iff_period_elapsed P s0.ms_counter n d hP1 hP2 hdP hdn hdvd hd1
  have hcalls := calls_of_pass (l ++ [p]) sn.mem sn.ms_counter p s'.is_sleep_active
    (chain_nodup _ _ hcn) hpl
  refine ⟨s1, sn, ((l ++ [p]).filter fun a => due sn.ms_counter (sn.mem a)).map
      (fun a => Event.callback a (sn.mem a).callback sn.ms_counter) ++
      (if s'.is_sleep_active then [Event.CySysPmDeepSleep] else []),
    hcreate, hsim, hmsn, ?_, ?_, ?_, ?_⟩
  · simp only [simulated_pass, hsim, hpass]
  · intro a g t hmem
    rw [← hmsn]
    rcases List.mem_append.mp hmem with h | h
    · obtain ⟨x, _, hx⟩ := List.mem_map.mp h
      simp only [Event.callback.injEq] at hx
      exact hx.2.2.symm
    · by_cases hsl : s'.is_sleep_active = true
      · rw [if_pos hsl] at h; simp at h
      · rw [if_neg hsl] at h; simp at h
  · rw [hcalls, ← hdue]
    by_cases hd : due sn.ms_counter (sn.mem p) = true <;> simp [hd]
  · rw [hcalls]
    split <;> omega

theorem periodic_firing_witness :
    ∃ s1 sn tr, OS_CreateTask 3 3 9 none none demo_os = some (s1, true) ∧
      simulated_clock Callbacks.inert 3 6 s1 = some sn ∧ sn.ms_counter = 10 ∧
      simulated_pass Callbacks.inert 3 6 s1 = some tr ∧ 0 < calls_of 3 tr := by
  obtain ⟨s1, sn, tr, h1, h2, h3, h4, _, h6, _⟩ := periodic_firing Callbacks.inert demo_os [1, 2]
    3 3 9 none none 3 6 inert_keeps_registry inert_keeps_clock
    ⟨by decide, fun _ => rfl⟩ (by decide) (by decide) (by decide) (by decide) rfl (by decide)
  exact ⟨s1, sn, tr, h1, h2, h3, h4, h6.mpr ⟨by decide, by decide⟩⟩

/-! ## Clock -/

/-- C4: the clock merge is lossless.  The three statements of `OS_Get` are the steps
`set_mutex`, `read_counter`, `clear_mutex`.  Starting from a zeroed clock, after every
step of every schedule of tick interrupts and such statements (so in particular of
every interleaving of ticks with runs of `OS_Get`), `ms_counter + isr_counter` equals
the number of ticks delivered so far modulo `2^16`; and when the busy flag is clear,
the next tick leaves the accumulator at zero and the millisecond counter at the total
number of ticks delivered (modulo `2^16`, so exactly that number while it is below
`2^16`). -/
theorem clock_merge_lossless (s0 : OS) (r0 : Nat) (sched : List ClockStep)
    (hms : s0.ms_counter = 0) (hisr : s0.isr_counter = 0) :
    (∀ s r, clock_run [ClockStep.set_mutex, ClockStep.read_counter, ClockStep.clear_mutex] (s, r) =
      ((OS_Get s).2, (OS_Get s).1)) ∧
    (∀ k, ((clock_run (sched.take k) (s0, r0)).1.ms_counter +
        (clock_run (sched.take k) (s0, r0)).1.isr_counter) % 65536 =
      ticks_in (sched.take k) % 65536) ∧
    ((clock_run sched (s0, r0)).1.mutex = false →
      (clock_run (sched ++ [ClockStep.tick]) (s0, r0)).1.isr_counter = 0 ∧
      (clock_run (sched ++ [ClockStep.tick]) (s0, r0)).1.ms_counter =
        ticks_in (sched ++ [ClockStep.tick]) % 65536 ∧
      (ticks_in (sched ++ [ClockStep.tick]) < 65536 →
        (clock_run (sched ++ [ClockStep.tick]) (s0, r0)).1.ms_counter =
          ticks_in (sched ++ [ClockStep.tick]))) := by
  refine ⟨fun s r => rfl, fun k => ?_, fun hm => ?_⟩
  · rw [clock_run_sum]
    show (s0.ms_counter + s0.isr_counter + _) % 65536 = _
    rw [hms, hisr]; simp
  · have hsum := clock_run_sum (sched ++ [ClockStep.tick]) (s0, r0)
    have hsum' : ((clock_run (sched ++ [ClockStep.tick]) (s0, r0)).1.ms_counter +
        (clock_run (sched ++ [ClockStep.tick]) (s0, r0)).1.isr_counter) % 65536 =
        ticks_in (sched ++ [ClockStep.tick]) % 65536 := by
      rw [hsum]
      show (s0.ms_counter + s0.isr_counter + _) % 65536 = _
      rw [hms, hisr]; simp
    have hrun : (clock_run (sched ++ [ClockStep.tick]) (s0, r0)).1 =
        OS_Wdt0Isr (clock_run sched (s0, r0)).1 := by
      rw [clock_run_append]; rfl
    obtain ⟨h1, h2⟩ := tick_merges _ hm
    rw [hrun] at hsum' ⊢
    rw [h2] at hsum'
    have hlt : (OS_Wdt0Isr (clock_run sched (s0, r0)).1).ms_counter < 65536 := by
      rw [h1]; omega
    refine ⟨h2, by omega, fun h => by omega⟩

theorem clock_merge_lossless_witness :
    (clock_run [ClockStep.tick, ClockStep.set_mutex, ClockStep.tick, ClockStep.read_counter,
        ClockStep.tick, ClockStep.clear_mutex, ClockStep.tick] (OS.reset demo_mem, 0)).1.ms_counter
      = 4 := by
  have h := (clock_merge_lossless (OS.reset demo_mem) 0
    [ClockStep.tick, ClockStep.set_mutex, ClockStep.tick, ClockStep.read_counter,
      ClockStep.tick, ClockStep.clear_mutex] rfl rfl).2.2 (by decide)
  exact h.2.2 (by decide)

/-- C5: `OS_Wdt0Isr` never changes the busy flag (nor anything but the two counters); it
always increments the accumulator; with the flag clear it adds the incremented
accumulator to the millisecond counter modulo `2^16` and resets the accumulator to
zero; with the flag set it leaves the millisecond counter unchanged and keeps the
incremented accumulator. -/
theorem tick_spec (s : OS) :
    (OS_Wdt0Isr s).mutex = s.mutex ∧ (OS_Wdt0Isr s).mem = s.mem ∧
    (OS_Wdt0Isr s).p_first_task_config = s.p_first_task_config ∧
    (OS_Wdt0Isr s).p_last_task_config = s.p_last_task_config ∧
    (OS_Wdt0Isr s).is_os_active = s.is_os_active ∧
    (OS_Wdt0Isr s).is_sleep_active = s.is_sleep_active ∧
    (s.mutex = false →
      (OS_Wdt0Isr s).ms_counter = (s.ms_counter + (s.isr_counter + 1) % 65536) % 65536 ∧
      (OS_Wdt0Isr s).isr_counter = 0) ∧
    (s.mutex = true →
      (OS_Wdt0Isr s).ms_counter = s.ms_counter ∧
      (OS_Wdt0Isr s).isr_counter = (s.isr_counter + 1) % 65536) := by
  obtain ⟨h1, h2, h3, h4, h5, h6⟩ := tick_frame s
  exact ⟨h1, h2, h3, h4, h5, h6, tick_merges s, tick_defers s⟩

theorem tick_spec_witness :
    ((OS_Wdt0Isr { demo_os with isr_counter := 2 }).ms_counter = 7 ∧
      (OS_Wdt0Isr { demo_os with isr_counter := 2 }).isr_counter = 0) ∧
    ((OS_Wdt0Isr { demo_os with isr_counter := 2, mutex := true }).ms_counter = 4 ∧
      (OS_Wdt0Isr { demo_os with isr_counter := 2, mutex := true }).isr_counter = 3) :=
  ⟨(tick_spec { demo_os with isr_counter := 2 }).2.2.2.2.2.2.1 rfl,
   (tick_spec { demo_os with isr_counter := 2, mutex := true }).2.2.2.2.2.2.2 rfl⟩

/-- C6: `OS_Elapsed since` returns `(ms_counter - since) mod 2^16` and leaves the
millisecond counter, the accumulator and everything else unchanged, with the busy flag
clear.  If the counter has advanced by `d` ticks since `since` was sampled, the result
is `d mod 2^16`: exactly `d` when `d < 2^16`, also when the counter wrapped in between,
and an alias of `d` otherwise. -/
theorem elapsed_spec (s : OS) (since : Nat) :
    ((OS_Elapsed since s).1 : Int) = ((s.ms_counter : Int) - (since : Int)) % 65536 ∧
    (OS_Elapsed since s).2 = { s with mutex := false } ∧
    (∀ d, s.ms_counter = (since + d) % 65536 → (OS_Elapsed since s).1 = d % 65536) ∧
    (∀ d, d < 65536 → s.ms_counter = (since + d) % 65536 → (OS_Elapsed since s).1 = d) := by
  have hval : (OS_Elapsed since s).1 = ts_sub s.ms_counter since := rfl
  refine ⟨?_, rfl, ?_, ?_⟩
  · rw [hval]; unfold ts_sub to_timestamp; omega
  · intro d hd
    rw [hval, hd, ts_sub_add]
  · intro d hlt hd
    rw [hval, hd, ts_sub_add]
    exact Nat.mod_eq_of_lt hlt

theorem elapsed_spec_witness :
    (OS_Elapsed 65530 demo_os).1 = 10 ∧ (OS_Elapsed 4 demo_os).1 = 65536 % 65536 :=
  ⟨(elapsed_spec demo_os 65530).2.2.2 10 (by decide) (by decide),
   (elapsed_spec demo_os 4).2.2.1 65536 (by decide)⟩

/-! ## Power transitions -/

/-- C9: idempotence of the power transitions.  `OS_EnterLowPower` returns, calling it
twice in a row gives the same final state and the same sequence of sleep-callback
calls and watchdog reprogramming calls as calling it once, and the second call changes
nothing and makes no call; likewise for `OS_ExitLowPower`, whose wake callbacks are
taken not to change the low-power flag themselves. -/
theorem low_power_idempotent (cb : Callbacks) (s : OS) (l : List Nat) (fuel : Nat)
    (hcb : SleepWakeKeepsRegistry cb)
    (hl : Chain s.mem s.p_first_task_config l) (hfuel : l.length ≤ fuel) :
    (∃ r, OS_EnterLowPower cb fuel s = some r ∧
      twice (OS_EnterLowPower cb fuel) s = some r ∧
      OS_EnterLowPower cb fuel r.1 = some (r.1, [])) ∧
    (KeepsSleepFlag cb →
      ∃ r, OS_ExitLowPower cb fuel s = some r ∧
        twice (OS_ExitLowPower cb fuel) s = some r ∧
        OS_ExitLowPower cb fuel r.1 = some (r.1, [])) := by
  constructor
  · by_cases hs : s.is_sleep_active = true
    · have h1 : OS_EnterLowPower cb fuel s = some (s, []) := by
        simp [OS_EnterLowPower, hs]
      exact ⟨(s, []), h1, by simp [twice, h1], h1⟩
    · simp only [Bool.not_eq_true] at hs
      obtain ⟨s', h1, h2, _⟩ := enter_low_power_spec cb s l fuel hcb hl hfuel hs
      have h3 : OS_EnterLowPower cb fuel s' = some (s', []) := by
        simp [OS_EnterLowPower, h2]
      exact ⟨_, h1, by simp [twice, h1, h3], h3⟩
  · intro hflag
    by_cases hs : s.is_sleep_active = true
    · obtain ⟨s', h1, h2, _⟩ := exit_low_power_spec cb s l fuel hcb hflag hl hfuel hs
      have h3 : OS_ExitLowPower cb fuel s' = some (s', []) := by
        simp [OS_ExitLowPower, h2]
      exact ⟨_, h1, by simp [twice, h1, h3], h3⟩
    · simp only [Bool.not_eq_true] at hs
      have h1 : OS_ExitLowPower cb fuel s = some (s, []) := by
        simp [OS_ExitLowPower, hs]
      exact ⟨(s, []), h1, by simp [twice, h1], h1⟩

theorem low_power_idempotent_witness :
    (∃ r, OS_EnterLowPower Callbacks.inert 2 demo_os = some r ∧
      twice (OS_EnterLowPower Callbacks.inert 2) demo_os = some r) ∧
    (∃ r, OS_ExitLowPower Callbacks.inert 2 { demo_os with is_sleep_active := true } = some r ∧
      twice (OS_ExitLowPower Callbacks.inert 2) { demo_os with is_sleep_active := true } =
        some r) := by
  obtain ⟨⟨r, h1, h2, _⟩, _⟩ := low_power_idempotent Callbacks.inert demo_os [1, 2] 2
    inert_sleep_wake_keeps_registry (by decide) (by decide)
  obtain ⟨_, h⟩ := low_power_idempotent Callbacks.inert
    { demo_os with is_sleep_active := true } [1, 2] 2
    inert_sleep_wake_keeps_registry (by decide) (by decide)
  obtain ⟨r', h3, h4, _⟩ := h inert_keeps_sleep_flag
  exact ⟨⟨r, h1, h2⟩, ⟨r', h3, h4⟩⟩

/-- C10: with the low-power flag clear, `OS_EnterLowPower` calls the `enter_sleep`
callback of every task of the list that has one, once each and in registration order,
skips the tasks whose `enter_sleep` is `NULL`, and leaves the flag set; with the flag
set, `OS_ExitLowPower` does the same with the `exit_sleep` callbacks and leaves the
flag clear (its wake callbacks are taken not to set the flag themselves).  Neither
calls a dispatch callback, and neither changes a task record (so no period and no
`prev_timestamp`). -/
theorem low_power_callbacks (cb : Callbacks) (s : OS) (l : List Nat) (fuel : Nat)
    (hcb : SleepWakeKeepsRegistry cb)
    (hl : Chain s.mem s.p_first_task_config l) (hfuel : l.length ≤ fuel) :
    l.Nodup ∧
    (s.is_sleep_active = false →
      ∃ s' tr, OS_EnterLowPower cb fuel s = some (s', tr) ∧
        tr = wdt_reprogram ++
          (l.filterMap fun a => (s.mem a).enter_sleep.map (Event.enter_sleep a)) ++
          [Event.CyExitCriticalSection] ∧
        (∀ a, calls_of a tr = 0) ∧ s'.is_sleep_active = true ∧ s'.mem = s.mem) ∧
    (s.is_sleep_active = true → KeepsSleepFlag cb →
      ∃ s' tr, OS_ExitLowPower cb fuel s = some (s', tr) ∧
        tr = wdt_reprogram ++
          (l.filterMap fun a => (s.mem a).exit_sleep.map (Event.exit_sleep a)) ++
          [Event.CyExitCriticalSection] ∧
        (∀ a, calls_of a tr = 0) ∧ s'.is_sleep_active = false ∧ s'.mem = s.mem) := by
  refine ⟨chain_nodup _ _ hl, fun hs => ?_, fun hs hflag => ?_⟩
  · obtain ⟨s', h1, h2, h3⟩ := enter_low_power_spec cb s l fuel hcb hl hfuel hs
    refine ⟨s', _, h1, rfl, fun a => ?_, h2, h3⟩
    rw [calls_of_append, calls_of_append, calls_of_enter_sleep]
    rfl
  · obtain ⟨s', h1, h2, h3⟩ := exit_low_power_spec cb s l fuel hcb hflag hl hfuel hs
    refine ⟨s', _, h1, rfl, fun a => ?_, h2, h3⟩
    rw [calls_of_append, calls_of_append, calls_of_exit_sleep]
    rfl

theorem low_power_callbacks_witness :
    (∃ s' tr, OS_EnterLowPower Callbacks.inert 2 demo_os = some (s', tr) ∧
      tr = wdt_reprogram ++ [Event.enter_sleep 2 4] ++ [Event.CyExitCriticalSection] ∧
      s'.is_sleep_active = true) ∧
    (∃ s' tr, OS_ExitLowPower Callbacks.inert 2 { demo_os with is_sleep_active := true } =
        some (s', tr) ∧
      tr = wdt_reprogram ++ [Event.exit_sleep 1 3] ++ [Event.CyExitCriticalSection] ∧
      s'.is_sleep_active = false) := by
  obtain ⟨_, h1, _⟩ := low_power_callbacks Callbacks.inert demo_os [1, 2] 2
    inert_sleep_wake_keeps_registry (by decide) (by decide)
  obtain ⟨_, _, h2⟩ := low_power_callbacks Callbacks.inert
    { demo_os with is_sleep_active := true } [1, 2] 2
    inert_sleep_wake_keeps_registry (by decide) (by decide)
  obtain ⟨s', tr, h3, h4, _, h5, _⟩ := h1 rfl
  obtain ⟨s'', tr', h6, h7, _, h8, _⟩ := h2 rfl inert_keeps_sleep_flag
  exact ⟨⟨s', tr, h3, h4, h5⟩, ⟨s'', tr', h6, h7, h8⟩⟩

/-! ## Stopping the scheduler -/

/-- C11: when the dispatch callback of a due task `a` requests a stop (calls `OS_Stop`)
during a dispatch pass, the pass still runs to its end: its calls are all the due
tasks of the list, in registration order, those behind `a` included, and each of them
gets `prev_timestamp := now`.  The loop of `OS_LaunchDaemon` then returns without
another pass: the calls of the whole remaining run are exactly the calls of that pass.
The same holds for `OS_LaunchDaemon` itself when the request comes in its first pass.
(Callbacks do not modify the registry and do not restart the scheduler.) -/
theorem stop_completes_pass (cb : Callbacks) (s : OS) (l : List Nat) (fuel a : Nat)
    (hreg : KeepsRegistry cb) (hnr : NeverRestarts cb)
    (hl : Chain s.mem s.p_first_task_config l) (hfuel : l.length ≤ fuel) (ha : a ∈ l)
    (hdue : (s.mem a).period ≤ ts_sub s.ms_counter (s.mem a).prev_timestamp)
    (hstop : RequestsStop cb (s.mem a).callback) :
    ∃ s1 tr, tr = ((l.filter fun b =>
          decide ((s.mem b).period ≤ ts_sub s.ms_counter (s.mem b).prev_timestamp)).map
        fun b => Event.callback b (s.mem b).callback s.ms_counter) ++
        (if s1.is_sleep_active then [Event.CySysPmDeepSleep] else []) ∧
      s1.is_os_active = false ∧
      (∀ b ∈ l, (s.mem b).period ≤ ts_sub s.ms_counter (s.mem b).prev_timestamp →
        (s1.mem b).prev_timestamp = s.ms_counter) ∧
      (s.is_os_active = true → OS_LaunchDaemon_pass cb fuel s = some (s1, tr) ∧
        ∀ iters ticks, OS_LaunchDaemon_loop cb fuel (iters + 1) ticks s =
          some (deliver_ticks (ticks 0) s1, tr)) ∧
      (∀ iters ticks, OS_LaunchDaemon cb fuel (iters + 1) ticks s =
          some (deliver_ticks (ticks 0) s1, tr)) := by
  -- the pass from the state in which the loop finds the flag set
  obtain ⟨s1, hrun, hmem⟩ := dispatch_loop_chain cb s.ms_counter hreg l fuel
    s.p_first_task_config (OS_Get { s with is_os_active := true }).2 hl hfuel
  have hrun' : dispatch_loop cb (OS_Get { s with is_os_active := true }).1 fuel
      (OS_Get { s with is_os_active := true }).2.p_first_task_config
      (OS_Get { s with is_os_active := true }).2 =
      some (s1, (l.filter fun b =>
          decide ((s.mem b).period ≤ ts_sub s.ms_counter (s.mem b).prev_timestamp)).map
        fun b => Event.callback b (s.mem b).callback s.ms_counter) := hrun
  have hflag : s1.is_os_active = false :=
    dispatch_loop_stops cb s.ms_counter hreg hnr a l fuel s.p_first_task_config
      (OS_Get { s with is_os_active := true }).2 s1 _ hl ha hdue hstop hrun
  have hpass : OS_LaunchDaemon_pass cb fuel { s with is_os_active := true } =
      some (s1, ((l.filter fun b =>
          decide ((s.mem b).period ≤ ts_sub s.ms_counter (s.mem b).prev_timestamp)).map
        fun b => Event.callback b (s.mem b).callback s.ms_counter) ++
        (if s1.is_sleep_active then [Event.CySysPmDeepSleep] else [])) := by
    unfold OS_LaunchDaemon_pass
    simp only [hrun']
    by_cases hsl : s1.is_sleep_active = true
    · rw [if_pos hsl, if_pos hsl]
    · rw [if_neg hsl, if_neg hsl, List.append_nil]
  refine ⟨s1, _, rfl, hflag, ?_, ?_, ?_⟩
  · intro b hb hd
    rw [hmem b, if_pos ⟨hb, by simp [due]; exact hd⟩]
  · intro hactive
    have hs : ({ s with is_os_active := true } : OS) = s := by
      cases s; simp only [OS.mk.injEq, true_and, and_true] at hactive ⊢; exact hactive.symm
    rw [hs] at hpass
    exact ⟨hpass, fun iters ticks =>
      daemon_loop_last_pass cb fuel iters ticks s s1 _ hactive hpass hflag⟩
  · intro iters ticks
    exact daemon_loop_last_pass cb fuel iters ticks _ s1 _ rfl hpass hflag

theorem stop_completes_pass_witness :
    ∃ s1, OS_LaunchDaemon (Callbacks.stopping 7) 2 1 (fun _ => 1) { demo_os with ms_counter := 6 } =
        some (deliver_ticks 1 s1, [Event.callback 1 7 6, Event.callback 2 8 6]) ∧
      s1.is_os_active = false ∧ (s1.mem 2).prev_timestamp = 6 := by
  obtain ⟨s1, tr, h1, h2, h3, _, h5⟩ := stop_completes_pass (Callbacks.stopping 7)
    { demo_os with ms_counter := 6 } [1, 2] 2 1 (stopping_keeps_registry 7)
    (stopping_never_restarts 7) (by decide) (by decide) (by decide) (by decide)
    (stopping_requests_stop 7)
  have hsl : s1.is_sleep_active = false := by
    have h6 := h5 0 (fun _ => 1)
    have h7 : (OS_LaunchDaemon (Callbacks.stopping 7) 2 1 (fun _ => 1)
        { demo_os with ms_counter := 6 }).map (fun r => r.1.is_sleep_active) = some false := by
      decide
    rw [h6] at h7
    simp only [Option.map_some', Option.some.injEq] at h7
    have h8 : ∀ (n : Nat) (t : OS), (deliver_ticks n t).is_sleep_active = t.is_sleep_active := by
      intro n
      induction n with
      | zero => intro t; rfl
      | succ n ih => intro t; rw [deliver_ticks, ih, (tick_frame t).2.2.2.2.2]
    rw [h8] at h7
    exact h7
  refine ⟨s1, ?_, h2, h3 2 (by decide) (by decide)⟩
  rw [h5 0 (fun _ => 1), h1, hsl]
  rfl

/-! ## Debounced input -/

/-- C12: transient rejection.  In every state reached from an initial state (settled
`DEACTIVATED`, both history slots `DEACTIVATED`, write index `0`) by a sequence of
calls of `Pushbutton_Start`, dispatches, `Pushbutton_Sleep` and `Pushbutton_WakeUp`,
an awake dispatch whose reading differs from the settled state, while the previously
sampled reading (`DEACTIVATED` when nothing was sampled yet) equals the settled state,
returns, leaves the settled state unchanged and calls no callback. -/
theorem transient_rejected (sym : TaskSymbols) (p0 p : Pushbutton) (ops : List DiOp)
    (ev : List PinEvent) (pin : Nat) (hinit : p0.Initial)
    (hrun : di_run sym ops p0 = some (p, ev))
    (hawake : p.is_awake = true)
    (hprev : di_last_reading sym ops p0 Pushbutton_action_t.Pushbutton_DEACTIVATED =
      p.present_state) :
    Pushbutton_reading pin ≠ p.present_state →
    ∃ p', Pushbutton_Handle pin p = some (p', []) ∧ p'.present_state = p.present_state := by
  intro _
  obtain ⟨hidx, hps⟩ := di_run_inv sym ops p0 p ev hrun (Or.inl hinit.2.2.2)
  have hp0 : p0.previous_sample = Pushbutton_action_t.Pushbutton_DEACTIVATED := by
    simp [Pushbutton.previous_sample, hinit.2.2.2, hinit.2.2.1]
  rw [hp0, hprev] at hps
  have hno : ¬ (Pushbutton_reading pin ≠ p.present_state ∧
      p.previous_sample = Pushbutton_reading pin) := by
    rintro ⟨h1, h2⟩
    exact h1 (h2.symm.trans hps)
  rw [handle_awake pin p hawake hidx, if_neg hno, if_neg hno]
  exact ⟨_, rfl, rfl⟩

theorem transient_rejected_witness :
    ∃ p', Pushbutton_Handle 0
        { Pushbutton.init with activation_callback := some 5, history_0 := .Pushbutton_ACTIVATED,
                               debounce_index := 0 } = some (p', []) ∧
      p'.present_state = Pushbutton_action_t.Pushbutton_DEACTIVATED :=
  transient_rejected ⟨1, 10, 11, 12⟩ { Pushbutton.init with activation_callback := some 5 }
    { Pushbutton.init with activation_callback := some 5, history_0 := .Pushbutton_ACTIVATED,
                           debounce_index := 0 }
    [.dispatch 0, .sleep, .dispatch 0, .wake, .dispatch 1]
    [PinEvent.SetDriveMode DriveMode.DM_DIG_HIZ, PinEvent.SetDriveMode DriveMode.DM_RES_UP] 0
    ⟨rfl, rfl, rfl, rfl⟩ (by decide) rfl (by decide) (by decide)

/-- C13: commit.  From a state with write index `0` or `1`, when two consecutive awake
dispatches both sample the reading `r` and `r` differs from the settled state before
the first of them, both return and the settled state is `r` after the second; and when
the sample in front of the first was not `r`, the first dispatch leaves the settled
state alone and calls nothing, and the second commits `r` and makes the calls of a
commit. -/
theorem two_samples_commit (pin1 pin2 : Nat) (r : Pushbutton_action_t) (p : Pushbutton)
    (hawake : p.is_awake = true) (hidx : p.debounce_index = 0 ∨ p.debounce_index = 1)
    (hr1 : Pushbutton_reading pin1 = r) (hr2 : Pushbutton_reading pin2 = r)
    (hdiff : r ≠ p.present_state) :
    ∃ p1 e1 p2 e2, Pushbutton_Handle pin1 p = some (p1, e1) ∧
      Pushbutton_Handle pin2 p1 = some (p2, e2) ∧ p2.present_state = r ∧
      (p.previous_sample ≠ r →
        p1.present_state = p.present_state ∧ e1 = [] ∧ e2 = commit_calls p r) := by
  obtain ⟨p1, e1, h1, haw1, hidx1, hprev1, hac1, hdc1, _, hpres1, hev1⟩ :=
    handle_awake_fields pin1 p hawake hidx
  obtain ⟨p2, e2, h2, _, _, _, _, _, _, hpres2, hev2⟩ :=
    handle_awake_fields pin2 p1 haw1 hidx1
  rw [hr1] at hprev1 hpres1 hev1
  rw [hr2, hprev1] at hpres2 hev2
  refine ⟨p1, e1, p2, e2, h1, h2, ?_, ?_⟩
  · rw [hpres2]
    by_cases h : r ≠ p1.present_state
    · rw [if_pos ⟨h, rfl⟩]
    · rw [if_neg (fun hh => h hh.1)]
      exact (not_not.mp h).symm
  · intro hprev
    have hno : ¬ (r ≠ p.present_state ∧ p.previous_sample = r) := fun h => hprev h.2
    rw [if_neg hno] at hpres1 hev1
    refine ⟨hpres1, hev1, ?_⟩
    rw [hev2, if_pos ⟨by rw [hpres1]; exact hdiff, rfl⟩]
    exact commit_calls_congr p p1 r hac1 hdc1

theorem two_samples_commit_witness :
    ∃ p1 p2, Pushbutton_Handle 0 { Pushbutton.init with activation_callback := some 5 } =
        some (p1, []) ∧
      Pushbutton_Handle 0 p1 = some (p2, [PinEvent.activation_callback 5]) ∧
      p2.present_state = Pushbutton_action_t.Pushbutton_ACTIVATED := by
  obtain ⟨p1, e1, p2, e2, h1, h2, h3, h4⟩ := two_samples_commit 0 0
    Pushbutton_action_t.Pushbutton_ACTIVATED { Pushbutton.init with activation_callback := some 5 }
    rfl (Or.inl rfl) rfl rfl (by decide)
  obtain ⟨_, h5, h6⟩ := h4 (by decide)
  subst h5
  subst h6
  exact ⟨p1, p2, h1, h2, h3⟩

/-- C14: callbacks of a dispatch.  An awake dispatch (write index `0` or `1`) returns;
when it commits a transition to `ACTIVATED` its calls are exactly the activation
callback, once, if that is not `NULL`, and nothing otherwise; when it commits a
transition to `DEACTIVATED` its calls are exactly the deactivation callback, once, if
that is not `NULL`, and nothing otherwise; when it commits no transition it calls
nothing; and the state it leaves does not depend on whether the callbacks are
`NULL`. -/
theorem commit_callbacks (pin : Nat) (p : Pushbutton) (hawake : p.is_awake = true)
    (hidx : p.debounce_index = 0 ∨ p.debounce_index = 1) :
    ∃ p' ev, Pushbutton_Handle pin p = some (p', ev) ∧
      (p'.present_state ≠ p.present_state →
        p'.present_state = Pushbutton_action_t.Pushbutton_ACTIVATED →
        ev = match p.activation_callback with
             | some f => [PinEvent.activation_callback f]
             | none => []) ∧
      (p'.present_state ≠ p.present_state →
        p'.present_state = Pushbutton_action_t.Pushbutton_DEACTIVATED →
        ev = match p.deactivation_callback with
             | some f => [PinEvent.deactivation_callback f]
             | none => []) ∧
      (p'.present_state = p.present_state → ev = []) ∧
      (∀ a d, ∃ ev2,
        Pushbutton_Handle pin { p with activation_callback := a, deactivation_callback := d } =
          some ({ p' with activation_callback := a, deactivation_callback := d }, ev2)) := by
  refine ⟨_, _, handle_awake pin p hawake hidx, ?_, ?_, ?_, ?_⟩
  · intro hne hact
    simp only at hne hact
    by_cases hc : Pushbutton_reading pin ≠ p.present_state ∧
        p.previous_sample = Pushbutton_reading pin
    · rw [if_pos hc] at hact
      rw [if_pos hc, hact]
      rfl
    · rw [if_neg hc] at hne
      exact absurd rfl hne
  · intro hne hdeact
    simp only at hne hdeact
    by_cases hc : Pushbutton_reading pin ≠ p.present_state ∧
        p.previous_sample = Pushbutton_reading pin
    · rw [if_pos hc] at hdeact
      rw [if_pos hc, hdeact]
      rfl
    · rw [if_neg hc] at hne
      exact absurd rfl hne
  · intro heq
    simp only at heq
    by_cases hc : Pushbutton_reading pin ≠ p.present_state ∧
        p.previous_sample = Pushbutton_reading pin
    · rw [if_pos hc] at heq
      exact absurd heq hc.1
    · rw [if_neg hc]
  · intro a d
    exact ⟨_, handle_awake pin { p with activation_callback := a, deactivation_callback := d }
      hawake hidx⟩

theorem commit_callbacks_witness :
    ∃ p', Pushbutton_Handle 0
        { Pushbutton.init with activation_callback := some 5, history_1 := .Pushbutton_ACTIVATED } =
        some (p', [PinEvent.activation_callback 5]) := by
  obtain ⟨p', ev, h1, h2, _⟩ := commit_callbacks 0
    { Pushbutton.init with activation_callback := some 5, history_1 := .Pushbutton_ACTIVATED }
    rfl (Or.inl rfl)
  have h3 : (Pushbutton_Handle 0
      { Pushbutton.init with activation_callback := some 5,
                             history_1 := .Pushbutton_ACTIVATED }).map
      (fun r => r.1.present_state) = some Pushbutton_action_t.Pushbutton_ACTIVATED := by decide
  rw [h1] at h3
  simp only [Option.map_some', Option.some.injEq] at h3
  have h4 := h2 (by rw [h3]; decide) h3
  subst h4
  exact ⟨p', h1⟩

/-- C15: suspension.  With active-during-sleep clear, `Pushbutton_Sleep` only clears
`is_awake`, and from then on every sequence of dispatches (whatever the pin reads) and
further `Pushbutton_Sleep` calls returns, leaves the whole module state (settled state,
both history slots, write index) unchanged and calls no callback.  With
active-during-sleep set, `Pushbutton_Sleep` changes nothing and makes no call, so an
awake module keeps sampling.  `Pushbutton_WakeUp` only sets `is_awake`, so the next
dispatch samples again. -/
theorem suspension (sym : TaskSymbols) (p : Pushbutton) :
    (p.is_active_during_sleep = false →
      (Pushbutton_Sleep p).1 = { p with is_awake := false } ∧
      ∀ ops : List DiOp, (∀ o ∈ ops, o = DiOp.sleep ∨ ∃ pin, o = DiOp.dispatch pin) →
        ∃ ev, di_run sym ops (Pushbutton_Sleep p).1 = some ((Pushbutton_Sleep p).1, ev) ∧
          ∀ e ∈ ev, e.is_callback = false) ∧
    (p.is_active_during_sleep = true →
      Pushbutton_Sleep p = (p, []) ∧
      (p.is_awake = true → (p.debounce_index = 0 ∨ p.debounce_index = 1) →
        ∀ pin, ∃ p' ev, Pushbutton_Handle pin (Pushbutton_Sleep p).1 = some (p', ev) ∧
          p'.previous_sample = Pushbutton_reading pin)) ∧
    (Pushbutton_WakeUp p).1 = { p with is_awake := true } ∧
    ((p.debounce_index = 0 ∨ p.debounce_index = 1) →
      ∀ pin, ∃ p' ev, Pushbutton_Handle pin (Pushbutton_WakeUp p).1 = some (p', ev) ∧
        p'.previous_sample = Pushbutton_reading pin) := by
  refine ⟨fun hact => ?_, fun hact => ?_, rfl, fun hidx pin => ?_⟩
  · have hs : (Pushbutton_Sleep p).1 = { p with is_awake := false } := by
      simp [Pushbutton_Sleep, hact]
    refine ⟨hs, fun ops hops => ?_⟩
    rw [hs]
    exact di_run_suspended sym { p with is_awake := false } hact rfl ops hops
  · have hs : Pushbutton_Sleep p = (p, []) := by simp [Pushbutton_Sleep, hact]
    refine ⟨hs, fun hawake hidx pin => ?_⟩
    rw [hs]
    obtain ⟨p', ev, h1, _, _, h2, _⟩ := handle_awake_fields pin p hawake hidx
    exact ⟨p', ev, h1, h2⟩
  · obtain ⟨p', ev, h1, _, _, h2, _⟩ :=
      handle_awake_fields pin (Pushbutton_WakeUp p).1 rfl hidx
    exact ⟨p', ev, h1, h2⟩

theorem suspension_witness :
    (∃ ev, di_run ⟨1, 10, 11, 12⟩ [.dispatch 0, .dispatch 0, .sleep, .dispatch 0]
        (Pushbutton_Sleep Pushbutton.init).1 = some ((Pushbutton_Sleep Pushbutton.init).1, ev)) ∧
    Pushbutton_Sleep { Pushbutton.init with is_active_during_sleep := true } =
      ({ Pushbutton.init with is_active_during_sleep := true }, []) ∧
    (∃ p' ev, Pushbutton_Handle 0 (Pushbutton_WakeUp (Pushbutton_Sleep Pushbutton.init).1).1 =
        some (p', ev) ∧ p'.previous_sample = Pushbutton_action_t.Pushbutton_ACTIVATED) := by
  obtain ⟨h1, _⟩ := suspension ⟨1, 10, 11, 12⟩ Pushbutton.init
  obtain ⟨_, h2, _⟩ := suspension ⟨1, 10, 11, 12⟩
    { Pushbutton.init with is_active_during_sleep := true }
  obtain ⟨_, _, _, h3⟩ := suspension ⟨1, 10, 11, 12⟩ (Pushbutton_Sleep Pushbutton.init).1
  obtain ⟨ev, h4, _⟩ := (h1 rfl).2 [.dispatch 0, .dispatch 0, .sleep, .dispatch 0] (by
    intro o ho
    simp only [List.mem_cons, List.mem_singleton, List.not_mem_nil, or_false] at ho
    rcases ho with rfl | rfl | rfl | rfl
    · exact Or.inr ⟨0, rfl⟩
    · exact Or.inr ⟨0, rfl⟩
    · exact Or.inl rfl
    · exact Or.inr ⟨0, rfl⟩)
  exact ⟨⟨ev, h4⟩, (h2 rfl).1, h3 (Or.inl rfl) 0⟩

/-! ## Blinking output -/

/-- C16 (as stated, refuted): after `BlueLED_Pulsing(5, 3)` at clock value `100`, the
dispatch with timestamp `104` does not keep the output low in `BLINK_OFF`: it writes
the output high and the state becomes `BLINK_ON`. -/
theorem pulsing_first_dispatch_turns_on :
    BlueLED_Handle 104 (BlueLED_Pulsing 5 3 BlueLED.init { demo_os with ms_counter := 100 }).1 =
      ({ on_target := 5, off_target := 3, prev_timestamp := 104,
         current_state := led_state_t.LED_STATE_BLINK_ON,
         is_active_during_sleep := false, is_awake := true },
       [PinEvent.Write 1]) := by
  decide

/-- C16 (amended): `BlueLED_Pulsing(5, 3)` at clock value `t` sets the state to
`BLINK_OFF`, writes the output low and seeds the phase reference at `t - 3`; while
awake, a dispatch with timestamp `t + 4` then sees an elapsed time of `7 > 3`, drives
the output high and makes the state `BLINK_ON`; a dispatch with timestamp `t + 6`
writes the output high with state `BLINK_ON`, both as the first dispatch and when it
follows the one at `t + 4`. -/
theorem pulsing_example (led : BlueLED) (s : OS) (hawake : led.is_awake = true) :
    (BlueLED_Pulsing 5 3 led s).1 =
      { led with on_target := 5, off_target := 3, prev_timestamp := ts_sub s.ms_counter 3,
                 current_state := led_state_t.LED_STATE_BLINK_OFF } ∧
    (BlueLED_Pulsing 5 3 led s).2.2 = [PinEvent.Write 0] ∧
    BlueLED_Handle ((s.ms_counter + 4) % 65536) (BlueLED_Pulsing 5 3 led s).1 =
      ({ (BlueLED_Pulsing 5 3 led s).1 with
          prev_timestamp := (s.ms_counter + 4) % 65536,
          current_state := led_state_t.LED_STATE_BLINK_ON }, [PinEvent.Write 1]) ∧
    BlueLED_Handle ((s.ms_counter + 6) % 65536) (BlueLED_Pulsing 5 3 led s).1 =
      ({ (BlueLED_Pulsing 5 3 led s).1 with
          prev_timestamp := (s.ms_counter + 6) % 65536,
          current_state := led_state_t.LED_STATE_BLINK_ON }, [PinEvent.Write 1]) ∧
    BlueLED_Handle ((s.ms_counter + 6) % 65536)
        (BlueLED_Handle ((s.ms_counter + 4) % 65536) (BlueLED_Pulsing 5 3 led s).1).1 =
      ((BlueLED_Handle ((s.ms_counter + 4) % 65536) (BlueLED_Pulsing 5 3 led s).1).1,
        [PinEvent.Write 1]) := by
  have hp : (BlueLED_Pulsing 5 3 led s).1 =
      { led with on_target := 5, off_target := 3, prev_timestamp := ts_sub s.ms_counter 3,
                 current_state := led_state_t.LED_STATE_BLINK_OFF } := by
    simp [BlueLED_Pulsing, OS_Get, LED_MAX_TIME]
  have h4 : BlueLED_Handle ((s.ms_counter + 4) % 65536) (BlueLED_Pulsing 5 3 led s).1 =
      ({ (BlueLED_Pulsing 5 3 led s).1 with
          prev_timestamp := (s.ms_counter + 4) % 65536,
          current_state := led_state_t.LED_STATE_BLINK_ON }, [PinEvent.Write 1]) := by
    apply handle_led_blink_off_end
    · rw [hp]; exact hawake
    · rw [hp]
    · rw [hp]
      show 3 < ts_sub ((s.ms_counter + 4) % 65536) (ts_sub s.ms_counter 3)
      rw [ts_sub_seeded]; decide
  refine ⟨hp, rfl, h4, ?_, ?_⟩
  · apply handle_led_blink_off_end
    · rw [hp]; exact hawake
    · rw [hp]
    · rw [hp]
      show 3 < ts_sub ((s.ms_counter + 6) % 65536) (ts_sub s.ms_counter 3)
      rw [ts_sub_seeded]; decide
  · rw [h4]
    apply handle_led_blink_on_hold
    · show (BlueLED_Pulsing 5 3 led s).1.is_awake = true
      rw [hp]; exact hawake
    · rfl
    · show ts_sub ((s.ms_counter + 6) % 65536) ((s.ms_counter + 4) % 65536) ≤
        (BlueLED_Pulsing 5 3 led s).1.on_target
      rw [hp]
      show ts_sub ((s.ms_counter + 6) % 65536) ((s.ms_counter + 4) % 65536) ≤ 5
      unfold ts_sub to_timestamp; omega

theorem pulsing_example_witness :
    BlueLED_Handle 106 (BlueLED_Pulsing 5 3 BlueLED.init { demo_os with ms_counter := 100 }).1 =
      ({ on_target := 5, off_target := 3, prev_timestamp := 106,
         current_state := led_state_t.LED_STATE_BLINK_ON,
         is_active_during_sleep := false, is_awake := true },
       [PinEvent.Write 1]) :=
  (pulsing_example BlueLED.init { demo_os with ms_counter := 100 } rfl).2.2.2.1

/-- C17: one-shot.  For `on_time <= 10000` and clock value `t`, `BlueLED_OneShot`
stores `on_time` unchanged, sets the state to `CHIRP`, references the phase at `t` and
writes the output high at once.  While awake, a following dispatch with timestamp
`t + e`, `e < 2^16`, keeps `CHIRP` and writes high when `e <= on_time`, and writes low
and sets the state to `OFF` when `e > on_time`.  With one dispatch per tick the first
`on_time` dispatches write high, the next one writes low and every later one writes
low: the state is `CHIRP` after `n <= on_time` dispatches and `OFF` after more. -/
theorem one_shot_spec (on_time : Nat) (led : BlueLED) (s : OS) (hon : on_time ≤ 10000) :
    (BlueLED_OneShot on_time led s).1 =
      { led with on_target := on_time, off_target := 0, prev_timestamp := s.ms_counter,
                 current_state := led_state_t.LED_STATE_CHIRP } ∧
    (BlueLED_OneShot on_time led s).2.2 = [PinEvent.Write 1] ∧
    (led.is_awake = true →
      (∀ e, e < 65536 → e ≤ on_time →
        BlueLED_Handle ((s.ms_counter + e) % 65536) (BlueLED_OneShot on_time led s).1 =
          ((BlueLED_OneShot on_time led s).1, [PinEvent.Write 1])) ∧
      (∀ e, e < 65536 → on_time < e →
        BlueLED_Handle ((s.ms_counter + e) % 65536) (BlueLED_OneShot on_time led s).1 =
          ({ (BlueLED_OneShot on_time led s).1 with
              prev_timestamp := (s.ms_counter + e) % 65536,
              current_state := led_state_t.LED_STATE_OFF }, [PinEvent.Write 0])) ∧
      (∀ n,
        (led_dispatches (tick_times s.ms_counter n) (BlueLED_OneShot on_time led s).1).1.current_state =
          (if n ≤ on_time then led_state_t.LED_STATE_CHIRP else led_state_t.LED_STATE_OFF) ∧
        (led_dispatches (tick_times s.ms_counter n) (BlueLED_OneShot on_time led s).1).2 =
          List.replicate (min n on_time) (PinEvent.Write 1) ++
          List.replicate (n - on_time) (PinEvent.Write 0))) := by
  have hp : (BlueLED_OneShot on_time led s).1 =
      { led with on_target := on_time, off_target := 0, prev_timestamp := s.ms_counter,
                 current_state := led_state_t.LED_STATE_CHIRP } := by
    have hlt : (if on_time < LED_MAX_TIME then on_time else LED_MAX_TIME) = on_time := by
      unfold LED_MAX_TIME
      split <;> omega
    simp only [BlueLED_OneShot, OS_Get, hlt]
  refine ⟨hp, rfl, fun hawake => ?_⟩
  generalize BlueLED_OneShot on_time led s = r at hp ⊢
  have haw : r.1.is_awake = true := by rw [hp]; exact hawake
  have hst : r.1.current_state = led_state_t.LED_STATE_CHIRP := by rw [hp]
  have hprev : r.1.prev_timestamp = s.ms_counter := by rw [hp]
  have hont : r.1.on_target = on_time := by rw [hp]
  have hhold : ∀ e, e < 65536 → e ≤ on_time →
      BlueLED_Handle ((s.ms_counter + e) % 65536) r.1 = (r.1, [PinEvent.Write 1]) := by
    intro e he hle
    apply handle_led_chirp_hold _ _ haw hst
    rw [hprev, hont, ts_sub_add, Nat.mod_eq_of_lt he]
    exact hle
  have hend : ∀ e, e < 65536 → on_time < e →
      BlueLED_Handle ((s.ms_counter + e) % 65536) r.1 =
        ({ r.1 with prev_timestamp := (s.ms_counter + e) % 65536,
                    current_state := led_state_t.LED_STATE_OFF }, [PinEvent.Write 0]) := by
    intro e he hlt
    apply handle_led_chirp_end _ _ haw hst
    rw [hprev, hont, ts_sub_add, Nat.mod_eq_of_lt he]
    exact hlt
  -- the first `on_time` dispatches
  have hphase : ∀ n, n ≤ on_time →
      led_dispatches (tick_times s.ms_counter n) r.1 =
        (r.1, List.replicate n (PinEvent.Write 1)) := by
    intro n
    induction n with
    | zero => intro _; rfl
    | succ n ih =>
      intro hn
      rw [tick_times_succ, led_dispatches_append, ih (by omega)]
      have h1 := hhold (n + 1) (by omega) hn
      rw [← Nat.add_assoc, Nat.add_right_comm] at h1
      simp only [led_dispatches, h1, List.append_nil, List.replicate_succ']
  refine ⟨hhold, hend, fun n => ?_⟩
  by_cases hn : n ≤ on_time
  · rw [hphase n hn, if_pos hn, Nat.min_eq_left hn, Nat.sub_eq_zero_of_le hn]
    exact ⟨hst, by simp⟩
  · obtain ⟨k, rfl⟩ : ∃ k, n = on_time + (1 + k) := ⟨n - on_time - 1, by omega⟩
    have h1 := hend (on_time + 1) (by omega) (by omega)
    rw [← Nat.add_assoc] at h1
    have hoff := led_dispatches_steady 0
      { r.1 with prev_timestamp := (s.ms_counter + on_time + 1) % 65536,
                 current_state := led_state_t.LED_STATE_OFF }
      (fun ts_now => handle_led_off ts_now _ haw rfl)
      (tick_times (s.ms_counter + on_time + 1) k)
    have hrest : led_dispatches (tick_times (s.ms_counter + on_time) (1 + k)) r.1 =
        ({ r.1 with prev_timestamp := (s.ms_counter + on_time + 1) % 65536,
                    current_state := led_state_t.LED_STATE_OFF },
          PinEvent.Write 0 :: List.replicate k (PinEvent.Write 0)) := by
      rw [tick_times_cons, led_dispatches_cons, h1, hoff, tick_times_length]
      rfl
    rw [tick_times_add, led_dispatches_append, hphase on_time (le_refl _), hrest, if_neg hn]
    refine ⟨rfl, ?_⟩
    have hmin : min (on_time + (1 + k)) on_time = on_time := by omega
    have hsub : on_time + (1 + k) - on_time = k + 1 := by omega
    rw [hmin, hsub, List.replicate_succ]

theorem one_shot_spec_witness :
    (led_dispatches (tick_times 65530 52)
        (BlueLED_OneShot 50 BlueLED.init { demo_os with ms_counter := 65530 }).1).2 =
      List.replicate 50 (PinEvent.Write 1) ++ List.replicate 2 (PinEvent.Write 0) :=
  (((one_shot_spec 50 BlueLED.init { demo_os with ms_counter := 65530 } (by decide)).2.2 rfl).2.2
    52).2

/-- C18: clamping.  For all `on_time` and `off_time` (so for all 16-bit ones),
`BlueLED_Pulsing` stores `min(on_time, 10000)` and `min(off_time, 10000)`, and
`BlueLED_OneShot` stores `min(on_time, 10000)`; both are total, no input is rejected.
In every state reached from the initial state by calls into the module both stored
durations are at most `10000`.  `BlueLED_Pulsing(20000, 500)` stores `10000` and
`500`. -/
theorem durations_clamped (sym : TaskSymbols) (on_time off_time : Nat) (led : BlueLED) (s : OS) :
    (BlueLED_Pulsing on_time off_time led s).1.on_target = min on_time 10000 ∧
    (BlueLED_Pulsing on_time off_time led s).1.off_target = min off_time 10000 ∧
    (BlueLED_OneShot on_time led s).1.on_target = min on_time 10000 ∧
    (∀ ops led1 ev, led_run sym ops BlueLED.init = some (led1, ev) →
      led1.on_target ≤ 10000 ∧ led1.off_target ≤ 10000) ∧
    (BlueLED_Pulsing 20000 500 led s).1.on_target = 10000 ∧
    (BlueLED_Pulsing 20000 500 led s).1.off_target = 500 := by
  refine ⟨?_, ?_, ?_, ?_, rfl, rfl⟩
  · simp only [BlueLED_Pulsing, LED_MAX_TIME]
    split <;> omega
  · simp only [BlueLED_Pulsing, LED_MAX_TIME]
    split <;> omega
  · simp only [BlueLED_OneShot, LED_MAX_TIME]
    split <;> omega
  · intro ops led1 ev hrun
    exact led_run_targets sym ops BlueLED.init led1 ev hrun (by decide) (by decide)

theorem durations_clamped_witness :
    ∃ led1 ev, led_run ⟨2, 20, 21, 22⟩
        [.start false (OS.reset demo_mem), .pulsing 20000 500 demo_os, .dispatch 7, .one_shot 65535 demo_os]
        BlueLED.init = some (led1, ev) ∧
      led1.on_target ≤ 10000 ∧ led1.off_target ≤ 10000 := by
  have hrun : (led_run ⟨2, 20, 21, 22⟩
      [.start false (OS.reset demo_mem), .pulsing 20000 500 demo_os, .dispatch 7,
        .one_shot 65535 demo_os] BlueLED.init).isSome = true := by decide
  obtain ⟨r, hr⟩ := Option.isSome_iff_exists.mp hrun
  exact ⟨r.1, r.2, hr,
    (durations_clamped ⟨2, 20, 21, 22⟩ 0 0 BlueLED.init demo_os).2.2.2.1 _ r.1 r.2 hr⟩

/-- C19: timed transitions.  For an awake dispatch with timestamp `ts_now` and
`delta = (ts_now - prev_timestamp) mod 2^16`: in `BLINK_ON` with `delta > on_target`
the state becomes `BLINK_OFF`, the output is written low and the phase reference
becomes `ts_now`; in `BLINK_OFF` with `delta > off_target` the state becomes
`BLINK_ON`, the output is written high and the phase reference becomes `ts_now`;
with `delta` at most the respective duration nothing changes and the output written
is high in `BLINK_ON` and low in `BLINK_OFF`.  No dispatch, awake or not, changes the
stored durations. -/
theorem timed_transitions (ts_now : Nat) (led : BlueLED) :
    (led.is_awake = true →
      (led.current_state = led_state_t.LED_STATE_BLINK_ON →
        (led.on_target < ts_sub ts_now led.prev_timestamp →
          BlueLED_Handle ts_now led =
            ({ led with prev_timestamp := ts_now,
                        current_state := led_state_t.LED_STATE_BLINK_OFF },
              [PinEvent.Write 0])) ∧
        (ts_sub ts_now led.prev_timestamp ≤ led.on_target →
          BlueLED_Handle ts_now led = (led, [PinEvent.Write 1]))) ∧
      (led.current_state = led_state_t.LED_STATE_BLINK_OFF →
        (led.off_target < ts_sub ts_now led.prev_timestamp →
          BlueLED_Handle ts_now led =
            ({ led with prev_timestamp := ts_now,
                        current_state := led_state_t.LED_STATE_BLINK_ON },
              [PinEvent.Write 1])) ∧
        (ts_sub ts_now led.prev_timestamp ≤ led.off_target →
          BlueLED_Handle ts_now led = (led, [PinEvent.Write 0])))) ∧
    (BlueLED_Handle ts_now led).1.on_target = led.on_target ∧
    (BlueLED_Handle ts_now led).1.off_target = led.off_target :=
  ⟨fun hawake =>
    ⟨fun hs => ⟨handle_led_blink_on_end ts_now led hawake hs,
                handle_led_blink_on_hold ts_now led hawake hs⟩,
     fun hs => ⟨handle_led_blink_off_end ts_now led hawake hs,
                handle_led_blink_off_hold ts_now led hawake hs⟩⟩,
   (handle_led_targets ts_now led).1, (handle_led_targets ts_now led).2.1⟩

theorem timed_transitions_witness :
    BlueLED_Handle 3
        { BlueLED.init with on_target := 5, off_target := 3, prev_timestamp := 65533,
                            current_state := led_state_t.LED_STATE_BLINK_ON } =
      ({ BlueLED.init with on_target := 5, off_target := 3, prev_timestamp := 3,
                           current_state := led_state_t.LED_STATE_BLINK_OFF },
        [PinEvent.Write 0]) ∧
    BlueLED_Handle 3
        { BlueLED.init with on_target := 5, off_target := 3, prev_timestamp := 0,
                            current_state := led_state_t.LED_STATE_BLINK_OFF } =
      ({ BlueLED.init with on_target := 5, off_target := 3, prev_timestamp := 0,
                           current_state := led_state_t.LED_STATE_BLINK_OFF },
        [PinEvent.Write 0]) :=
  ⟨(((timed_transitions 3
        { BlueLED.init with on_target := 5, off_target := 3, prev_timestamp := 65533,
                            current_state := led_state_t.LED_STATE_BLINK_ON }).1 rfl).1 rfl).1
      (by decide),
   (((timed_transitions 3
        { BlueLED.init with on_target := 5, off_target := 3, prev_timestamp := 0,
                            current_state := led_state_t.LED_STATE_BLINK_OFF }).1 rfl).2 rfl).2
      (by decide)⟩

/-- C20: steady states.  From any state `BlueLED_On` sets the state to `ON` and writes
the output high, and `BlueLED_Off` sets the state to `OFF` and writes the output low,
changing nothing else; thereafter any number of awake dispatches with arbitrary
timestamps leaves the whole module state unchanged, and each of them writes that same
level. -/
theorem steady_states (led : BlueLED) (ts : List Nat) :
    BlueLED_On led = ({ led with current_state := led_state_t.LED_STATE_ON }, [PinEvent.Write 1]) ∧
    BlueLED_Off led =
      ({ led with current_state := led_state_t.LED_STATE_OFF }, [PinEvent.Write 0]) ∧
    (led.is_awake = true →
      led_dispatches ts (BlueLED_On led).1 =
        ((BlueLED_On led).1, List.replicate ts.length (PinEvent.Write 1)) ∧
      led_dispatches ts (BlueLED_Off led).1 =
        ((BlueLED_Off led).1, List.replicate ts.length (PinEvent.Write 0))) := by
  refine ⟨rfl, rfl, fun hawake => ⟨?_, ?_⟩⟩
  · exact led_dispatches_steady 1 (BlueLED_On led).1
      (fun ts_now => handle_led_on ts_now (BlueLED_On led).1 hawake rfl) ts
  · exact led_dispatches_steady 0 (BlueLED_Off led).1
      (fun ts_now => handle_led_off ts_now (BlueLED_Off led).1 hawake rfl) ts

theorem steady_states_witness :
    led_dispatches [5, 70000, 0]
        (BlueLED_On (BlueLED_Pulsing 5 3 BlueLED.init demo_os).1).1 =
      ((BlueLED_On (BlueLED_Pulsing 5 3 BlueLED.init demo_os).1).1,
        [PinEvent.Write 1, PinEvent.Write 1, PinEvent.Write 1]) :=
  ((steady_states (BlueLED_Pulsing 5 3 BlueLED.init demo_os).1 [5, 70000, 0]).2.2 rfl).1


/-- C21: sleep and wake preserve the phase.  `BlueLED_Sleep` and `BlueLED_WakeUp` leave
the mode, both durations and the phase reference timestamp as they are (`BlueLED_WakeUp`
only sets `is_awake`).  A dispatch that finds `is_awake` clear changes no state and
writes no level.  With active-during-sleep clear, `BlueLED_Sleep` only clears
`is_awake`, any number of dispatches after it (whatever their timestamps) leave the
state unchanged and write nothing, and after the following `BlueLED_WakeUp` the state
is the one at sleep entry with `is_awake` set, so the sequencer resumes with the same
mode and phase reference.  With active-during-sleep set, `BlueLED_Sleep` changes
nothing and makes no call. -/
theorem sleep_wake_preserves_phase (led : BlueLED) (ts : List Nat) :
    ((BlueLED_Sleep led).1.current_state = led.current_state ∧
      (BlueLED_Sleep led).1.on_target = led.on_target ∧
      (BlueLED_Sleep led).1.off_target = led.off_target ∧
      (BlueLED_Sleep led).1.prev_timestamp = led.prev_timestamp) ∧
    (BlueLED_WakeUp led).1 = { led with is_awake := true } ∧
    (led.is_awake = false → ∀ ts_now, BlueLED_Handle ts_now led = (led, [])) ∧
    (led.is_active_during_sleep = false →
      (BlueLED_Sleep led).1 = { led with is_awake := false } ∧
      led_dispatches ts (BlueLED_Sleep led).1 = ((BlueLED_Sleep led).1, []) ∧
      (BlueLED_WakeUp (led_dispatches ts (BlueLED_Sleep led).1).1).1 =
        { led with is_awake := true }) ∧
    (led.is_active_during_sleep = true → BlueLED_Sleep led = (led, [])) := by
  refine ⟨?_, rfl, fun h ts_now => handle_led_asleep ts_now led h, fun hact => ?_,
    fun hact => ?_⟩
  · by_cases hact : led.is_active_during_sleep = true
    · simp [BlueLED_Sleep, hact]
    · simp only [Bool.not_eq_true] at hact
      simp [BlueLED_Sleep, hact]
  · have hs : (BlueLED_Sleep led).1 = { led with is_awake := false } := by
      simp [BlueLED_Sleep, hact]
    have hd : led_dispatches ts (BlueLED_Sleep led).1 = ((BlueLED_Sleep led).1, []) := by
      rw [hs]
      exact led_dispatches_asleep { led with is_awake := false } rfl ts
    refine ⟨hs, hd, ?_⟩
    rw [hd, hs]
    rfl
  · simp [BlueLED_Sleep, hact]

theorem sleep_wake_preserves_phase_witness :
    led_dispatches [6, 7, 300]
        (BlueLED_Sleep (BlueLED_Handle 5 (BlueLED_Pulsing 5 3 BlueLED.init demo_os).1).1).1 =
      ((BlueLED_Sleep (BlueLED_Handle 5 (BlueLED_Pulsing 5 3 BlueLED.init demo_os).1).1).1, []) ∧
    (BlueLED_WakeUp (led_dispatches [6, 7, 300]
        (BlueLED_Sleep (BlueLED_Handle 5 (BlueLED_Pulsing 5 3 BlueLED.init demo_os).1).1).1).1).1 =
      { on_target := 5, off_target := 3, prev_timestamp := 5,
        current_state := led_state_t.LED_STATE_BLINK_ON,
        is_active_during_sleep := false, is_awake := true } :=
  ⟨((sleep_wake_preserves_phase
      (BlueLED_Handle 5 (BlueLED_Pulsing 5 3 BlueLED.init demo_os).1).1 [6, 7, 300]).2.2.2.1
      rfl).2.1,
    ((sleep_wake_preserves_phase
      (BlueLED_Handle 5 (BlueLED_Pulsing 5 3 BlueLED.init demo_os).1).1 [6, 7, 300]).2.2.2.1
      rfl).2.2⟩

/-- C22: reachable-state invariant of the debouncer.  In every state reached from an
initial state (settled `DEACTIVATED`, both history slots `DEACTIVATED`, write index
`0`) by any sequence of `Pushbutton_Start`, dispatches with any pin readings,
`Pushbutton_Sleep` and `Pushbutton_WakeUp`, the write index is `0` or `1`, so a
dispatch with any pin reading returns without writing outside the history array, and
when the two history slots hold the same value the settled state is that value. -/
theorem reachable_invariant (sym : TaskSymbols) (ops : List DiOp) (p0 p : Pushbutton)
    (ev : List PinEvent) (hinit : p0.Initial)
    (hrun : di_run sym ops p0 = some (p, ev)) :
    (p.debounce_index = 0 ∨ p.debounce_index = 1) ∧
    (∀ pin, (Pushbutton_Handle pin p).isSome = true) ∧
    (p.history_0 = p.history_1 → p.present_state = p.history_0) := by
  obtain ⟨hp, h0, h1, hi⟩ := hinit
  have hidx := (di_run_inv sym ops p0 p ev hrun (Or.inl hi)).1
  refine ⟨hidx, fun pin => handle_in_bounds pin p hidx, ?_⟩
  exact di_run_settled sym ops p0 p ev hrun (Or.inl hi) (fun _ => by rw [hp, h0])

theorem reachable_invariant_witness :
    ∃ p ev, di_run ⟨1, 10, 11, 12⟩
        [.start (some 7) none false (OS.reset demo_mem), .dispatch 0, .dispatch 0, .sleep,
          .dispatch 1, .wake, .dispatch 1, .dispatch 0, .dispatch 0]
        Pushbutton.init = some (p, ev) ∧
      p.debounce_index = 1 ∧
      p.history_0 = Pushbutton_action_t.Pushbutton_ACTIVATED ∧
      p.history_1 = Pushbutton_action_t.Pushbutton_ACTIVATED ∧
      (p.history_0 = p.history_1 → p.present_state = p.history_0) :=
  ⟨_, _, rfl, rfl, rfl, rfl,
    (reachable_invariant ⟨1, 10, 11, 12⟩
      [.start (some 7) none false (OS.reset demo_mem), .dispatch 0, .dispatch 0, .sleep,
        .dispatch 1, .wake, .dispatch 1, .dispatch 0, .dispatch 0]
      Pushbutton.init _ _ ⟨rfl, rfl, rfl, rfl⟩ rfl).2.2⟩

/-- C23: pulsing seed.  For every `on_time`, `off_time` and clock value (so for all
16-bit ones) `BlueLED_Pulsing` sets the phase reference to the clock value minus the
raw `off_time` argument modulo `2^16` (not minus the clamped duration), sets the state
to `BLINK_OFF` and writes the output low.  Hence, when the module is awake, a first
dispatch at the clock value plus `e` with `1 ≤ e` and `e + off_time < 2^16` switches
from `BLINK_OFF` to `BLINK_ON`, takes its timestamp as the new phase reference and
writes the output high, while a dispatch at the very clock value of the call, with
`off_time ≤ 10000`, leaves the state as it is and writes the output low. -/
theorem pulsing_seed (on_time off_time e : Nat) (led : BlueLED) (s : OS) :
    ((BlueLED_Pulsing on_time off_time led s).1.prev_timestamp : Int) =
      ((s.ms_counter : Int) - (off_time : Int)) % 65536 ∧
    (BlueLED_Pulsing on_time off_time led s).1.current_state =
      led_state_t.LED_STATE_BLINK_OFF ∧
    (BlueLED_Pulsing on_time off_time led s).2.2 = [PinEvent.Write 0] ∧
    (led.is_awake = true → 1 ≤ e → e + off_time < 65536 →
      BlueLED_Handle ((s.ms_counter + e) % 65536) (BlueLED_Pulsing on_time off_time led s).1 =
        ({ (BlueLED_Pulsing on_time off_time led s).1 with
            prev_timestamp := (s.ms_counter + e) % 65536,
            current_state := led_state_t.LED_STATE_BLINK_ON }, [PinEvent.Write 1])) ∧
    (led.is_awake = true → off_time ≤ 10000 →
      BlueLED_Handle (s.ms_counter % 65536) (BlueLED_Pulsing on_time off_time led s).1 =
        ((BlueLED_Pulsing on_time off_time led s).1, [PinEvent.Write 0])) := by
  refine ⟨?_, rfl, rfl, fun hawake he hoff => ?_, fun hawake hoff => ?_⟩
  · have hp : (BlueLED_Pulsing on_time off_time led s).1.prev_timestamp =
        ts_sub s.ms_counter off_time := rfl
    rw [hp]
    unfold ts_sub to_timestamp
    omega
  · exact pulsing_first_dispatch on_time off_time e led s hawake he hoff
  · exact pulsing_same_tick on_time off_time led s hawake hoff

theorem pulsing_seed_witness :
    BlueLED_Handle ((demo_os.ms_counter + 1) % 65536)
        (BlueLED_Pulsing 5 3 BlueLED.init demo_os).1 =
      ({ (BlueLED_Pulsing 5 3 BlueLED.init demo_os).1 with
          prev_timestamp := (demo_os.ms_counter + 1) % 65536,
          current_state := led_state_t.LED_STATE_BLINK_ON }, [PinEvent.Write 1]) ∧
    BlueLED_Handle (demo_os.ms_counter % 65536) (BlueLED_Pulsing 5 3 BlueLED.init demo_os).1 =
      ((BlueLED_Pulsing 5 3 BlueLED.init demo_os).1, [PinEvent.Write 0]) :=
  ⟨(pulsing_seed 5 3 1 BlueLED.init demo_os).2.2.2.1 rfl (by decide) (by decide),
    (pulsing_seed 5 3 1 BlueLED.init demo_os).2.2.2.2 rfl (by decide)⟩

/-- C24: effective phase length.  Let the module be awake, in a state reached from the
initial state by calls into the module, with phase reference `t`, and let one dispatch
follow at each of the timestamps `t+1`, `t+2`, ... (modulo `2^16`).  In `BLINK_ON` the
dispatches at `t+1 .. t+on_target` leave the state unchanged and write the output high,
and the dispatch at `t+on_target+1` switches to `BLINK_OFF` with that timestamp as the
new phase reference and writes low; after `on_target + off_target + 2` dispatches the
module is in `BLINK_ON` again, with the phase reference moved by that many ticks.  In
`BLINK_OFF` the dispatches at `t+1 .. t+off_target` leave the state unchanged and write
low, and the dispatch at `t+off_target+1` switches to `BLINK_ON` and writes high.  After
`BlueLED_Pulsing(20000, 500)` and a first dispatch one tick later, the module is still
in `BLINK_ON` after `10000` further ticks and in `BLINK_OFF` after `10001`. -/
theorem effective_phase_length (sym : TaskSymbols) (ops : List LedOp) (led : BlueLED)
    (ev : List PinEvent) (t : Nat)
    (hreach : led_run sym ops BlueLED.init = some (led, ev))
    (hawake : led.is_awake = true) (hprev : led.prev_timestamp = t) :
    (led.current_state = led_state_t.LED_STATE_BLINK_ON →
      (∀ n, n ≤ led.on_target →
        led_dispatches (tick_times t n) led = (led, List.replicate n (PinEvent.Write 1))) ∧
      led_dispatches (tick_times t (led.on_target + 1)) led =
        ({ led with prev_timestamp := (t + (led.on_target + 1)) % 65536,
                    current_state := led_state_t.LED_STATE_BLINK_OFF },
          List.replicate led.on_target (PinEvent.Write 1) ++ [PinEvent.Write 0]) ∧
      led_dispatches (tick_times t (led.on_target + led.off_target + 2)) led =
        ({ led with prev_timestamp := (t + (led.on_target + led.off_target + 2)) % 65536 },
          List.replicate led.on_target (PinEvent.Write 1) ++ [PinEvent.Write 0] ++
            List.replicate led.off_target (PinEvent.Write 0) ++ [PinEvent.Write 1])) ∧
    (led.current_state = led_state_t.LED_STATE_BLINK_OFF →
      (∀ n, n ≤ led.off_target →
        led_dispatches (tick_times t n) led = (led, List.replicate n (PinEvent.Write 0))) ∧
      led_dispatches (tick_times t (led.off_target + 1)) led =
        ({ led with prev_timestamp := (t + (led.off_target + 1)) % 65536,
                    current_state := led_state_t.LED_STATE_BLINK_ON },
          List.replicate led.off_target (PinEvent.Write 0) ++ [PinEvent.Write 1])) ∧
    (∀ (led0 : BlueLED) (s : OS), led0.is_awake = true →
      (BlueLED_Handle ((s.ms_counter + 1) % 65536)
        (BlueLED_Pulsing 20000 500 led0 s).1).1.current_state =
        led_state_t.LED_STATE_BLINK_ON ∧
      (led_dispatches (tick_times (s.ms_counter + 1) 10000)
        (BlueLED_Handle ((s.ms_counter + 1) % 65536)
          (BlueLED_Pulsing 20000 500 led0 s).1).1).1.current_state =
        led_state_t.LED_STATE_BLINK_ON ∧
      (led_dispatches (tick_times (s.ms_counter + 1) 10001)
        (BlueLED_Handle ((s.ms_counter + 1) % 65536)
          (BlueLED_Pulsing 20000 500 led0 s).1).1).1.current_state =
        led_state_t.LED_STATE_BLINK_OFF) := by
  obtain ⟨hon, hoff⟩ :=
    led_run_targets sym ops BlueLED.init led ev hreach (by decide) (by decide)
  have hp : led.prev_timestamp % 65536 = t % 65536 := by rw [hprev]
  refine ⟨fun hs => ?_, fun hs => ?_, fun led0 s h0 => pulsing_20000_500_phase led0 s h0⟩
  · exact ⟨(blink_on_phase t led hawake hs hp (by omega)).1,
      (blink_on_phase t led hawake hs hp (by omega)).2,
      blink_cycle t led hawake hs hp (by omega) (by omega)⟩
  · exact blink_off_phase t led hawake hs hp (by omega)

theorem effective_phase_length_witness :
    led_dispatches (tick_times 5 (5 + 1))
        { on_target := 5, off_target := 3, prev_timestamp := 5,
          current_state := led_state_t.LED_STATE_BLINK_ON,
          is_active_during_sleep := false, is_awake := true } =
      ({ on_target := 5, off_target := 3, prev_timestamp := 11,
         current_state := led_state_t.LED_STATE_BLINK_OFF,
         is_active_during_sleep := false, is_awake := true },
        [PinEvent.Write 1, PinEvent.Write 1, PinEvent.Write 1, PinEvent.Write 1,
          PinEvent.Write 1, PinEvent.Write 0]) :=
  ((effective_phase_length ⟨2, 20, 21, 22⟩ [.pulsing 5 3 demo_os, .dispatch 5]
    { on_target := 5, off_target := 3, prev_timestamp := 5,
      current_state := led_state_t.LED_STATE_BLINK_ON,
      is_active_during_sleep := false, is_awake := true }
    [PinEvent.Write 0, PinEvent.Write 1] 5 rfl rfl rfl).1 rfl).2.1

/-- C25: output level and state agree.  `BlueLED_On`, `BlueLED_Off`, `BlueLED_Pulsing`,
`BlueLED_OneShot` and every dispatch that finds the module awake, at any timestamp and
from any state, write the output exactly once, and the level written is high when the
state after the operation is `BLINK_ON`, `CHIRP` or `ON` and low when it is `OFF` or
`BLINK_OFF`; these are all the states, and high and low differ, so the level is high if
and only if the state is one of the first three and low if and only if it is one of the
other two. -/
theorem output_matches_state (on_time off_time ts_now : Nat) (led : BlueLED) (s : OS) :
    (BlueLED_On led).2 =
      [PinEvent.Write
        (if (BlueLED_On led).1.current_state.drives_high then OUTPUT_ON else OUTPUT_OFF)] ∧
    (BlueLED_Off led).2 =
      [PinEvent.Write
        (if (BlueLED_Off led).1.current_state.drives_high then OUTPUT_ON else OUTPUT_OFF)] ∧
    (BlueLED_Pulsing on_time off_time led s).2.2 =
      [PinEvent.Write
        (if (BlueLED_Pulsing on_time off_time led s).1.current_state.drives_high
          then OUTPUT_ON else OUTPUT_OFF)] ∧
    (BlueLED_OneShot on_time led s).2.2 =
      [PinEvent.Write
        (if (BlueLED_OneShot on_time led s).1.current_state.drives_high
          then OUTPUT_ON else OUTPUT_OFF)] ∧
    (led.is_awake = true →
      (BlueLED_Handle ts_now led).2 =
        [PinEvent.Write
          (if (BlueLED_Handle ts_now led).1.current_state.drives_high
            then OUTPUT_ON else OUTPUT_OFF)]) ∧
    (∀ st : led_state_t, st.drives_high = true ↔
      st = led_state_t.LED_STATE_BLINK_ON ∨ st = led_state_t.LED_STATE_CHIRP ∨
        st = led_state_t.LED_STATE_ON) ∧
    (∀ st : led_state_t, st.drives_high = false ↔
      st = led_state_t.LED_STATE_OFF ∨ st = led_state_t.LED_STATE_BLINK_OFF) ∧
    OUTPUT_ON ≠ OUTPUT_OFF := by
  refine ⟨rfl, rfl, rfl, rfl, fun hawake => ?_, fun st => ?_, fun st => ?_, by decide⟩
  · obtain ⟨ton, toff, prev, st, act, awake⟩ := led
    simp only at hawake
    subst hawake
    cases st
    · rfl
    · simp only [BlueLED_Handle, if_true]
      split <;> rfl
    · simp only [BlueLED_Handle, if_true]
      split <;> rfl
    · simp only [BlueLED_Handle, if_true]
      split <;> rfl
    · rfl
  · cases st <;> simp [led_state_t.drives_high]
  · cases st <;> simp [led_state_t.drives_high]

theorem output_matches_state_witness :
    (BlueLED_Handle 5 (BlueLED_Pulsing 5 3 BlueLED.init demo_os).1).2 = [PinEvent.Write 1] ∧
    (BlueLED_Handle 5 (BlueLED_Pulsing 5 3 BlueLED.init demo_os).1).1.current_state =
      led_state_t.LED_STATE_BLINK_ON :=
  ⟨(output_matches_state 5 3 5 (BlueLED_Pulsing 5 3 BlueLED.init demo_os).1 demo_os).2.2.2.2.1
      rfl, rfl⟩

end OSCore
